import Mathlib

/-!
The cmc TPM driver: a shallow embedding of `tpmdriver/tpmdriver.go`.

The Go package keeps its state in package variables (`TPM`, `ak`, `ik`, `ek`) and
talks to the operating system, the TPM and the enrollment server.  The embedding
makes that state explicit (`World`), takes the behaviour of everything outside the
package as a record of functions (`Env`), and logs every external call in a trace.
-/

namespace Cmc

/-- Go `[]byte`. -/
abbrev Bytes := List Nat

/-! ## Types of the attestation report package used by the driver -/

/-- The fields of `ar.ReferenceValue` that the driver reads. -/
structure ReferenceValue where
  Type_ : String
  Pcr : Option Int
  Sha256 : Bytes := []
deriving DecidableEq, Repr

/-- The fields of `ar.RtmManifest` that the driver reads. -/
structure RtmManifest where
  Type_ : String := ""
  ReferenceValues : List ReferenceValue := []
deriving DecidableEq, Repr

/-- The fields of `ar.OsManifest` that the driver reads. -/
structure OsManifest where
  Type_ : String := ""
  ReferenceValues : List ReferenceValue := []
deriving DecidableEq, Repr

/-- The fields of `ar.AppManifest` that carry reference values (never read by the driver). -/
structure AppManifest where
  Type_ : String := ""
  ReferenceValues : List ReferenceValue := []
deriving DecidableEq, Repr

/-- Go `ar.Name`, the subject of a certificate signing request. -/
structure Name where
  CommonName : String := ""
  Country : String := ""
  Province : String := ""
  Locality : String := ""
  Organization : String := ""
  OrganizationalUnit : String := ""
  StreetAddress : String := ""
  PostalCode : String := ""
deriving DecidableEq, Repr

/-- Go `ar.CsrParams`. -/
structure CsrParams where
  Subject : Name := {}
  SANs : List String := []
deriving DecidableEq, Repr

/-- The fields of `ar.DeviceConfig` that the driver reads. -/
structure DeviceConfig where
  Type_ : String := ""
  AkCsr : CsrParams := {}
  IkCsr : CsrParams := {}
deriving DecidableEq, Repr

/-- The dynamic type of the `ar.Serializer` interface value, as inspected by the type
switch at the head of `NewTpm`. -/
inductive SerializerKind
  | json
  | cbor
  | uninitialized
deriving DecidableEq, Repr

/-- The `ar.Serializer` interface as far as the driver calls it.  `Unmarshal` is one
method in Go; it is split here by the type of the destination.  The manifest variants
receive the current value of the destination, because Go unmarshals into an existing
variable. -/
structure Serializer where
  kind : SerializerKind
  GetPayload : Bytes → Except String Bytes
  UnmarshalType : Bytes → Except String String
  UnmarshalRtmManifest : Bytes → RtmManifest → Except String RtmManifest
  UnmarshalOsManifest : Bytes → OsManifest → Except String OsManifest
  UnmarshalAppManifest : Bytes → AppManifest → Except String AppManifest
  UnmarshalDeviceConfig : Bytes → Except String DeviceConfig

/-- Go `Config`. -/
structure Config where
  StoragePath : String
  ServerAddr : String
  KeyConfig : String
  Metadata : List Bytes
  UseIma : Bool
  ImaPcr : Int
  Serializer : Serializer

/-! ## Errors -/

/-- The places at which the package creates or wraps an error, one per
`fmt.Errorf`/`errors.New` site.  `panic` stands for a Go run-time panic (index out of
range). -/
inductive Site
  | serializerNotInitialized | createStorage | retrievePcrs | checkProvisioned
  | openTpmFailed | createKeysFailed | createCsrsFailed | provisionFailed
  | saveCertsFailed | saveKeysFailed | loadKeysFailed | loadCertsFailed
  | unmarshalRtmManifest | unmarshalOsManifest | manifestsNotFound
  | tpmDeviceOpen | alreadyOpen | attestOpenTPM | notOpened | akMissing | keysNotCreated
  | tpmInfo | retrieveTpmInfo | loadEKs | newAK | unknownKeyConfig | newIK
  | unmarshalDeviceConfig | createAkCsr | createIkCsr | deviceConfigNotFound
  | retrieveCaCerts | setEstCa | marshalEkPub | enrollAk | noCredential | noSecret
  | activateCredential | requestActivateCredential | parsePkcs7 | decryptPkcs7
  | parseCertificate | enrollIk | writeFile | readFile | marshalAk | marshalIk
  | loadAK | loadKey | readAkChain | parseAkCerts | readIkChain | parseIkCerts
  | tpmNotInitialized | getMeasurement | readPcrs | quoteFailed | closeNotOpened
  | decodePublic | unsupportedNameAlg | decodeCreationData
  | createCertificateRequest | parseCertificateRequest | checkCsrSignature | ikPrivate
  | panic
deriving DecidableEq, Repr

/-- A Go `error` value: the sites that created and wrapped it, outermost first, and the
text of the innermost cause (the message of an external call, a path, a key
configuration). -/
structure Err where
  sites : List Site
  msg : String := ""
deriving DecidableEq, Repr

/-- An error created at `s` by `errors.New` or by `fmt.Errorf` around an external cause. -/
def Err.new (s : Site) (msg : String := "") : Err := ⟨[s], msg⟩

/-- The error `fmt.Errorf("...: %v", e)` created at `s` around the package error `e`. -/
def Err.wrap (s : Site) (e : Err) : Err := ⟨s :: e.sites, e.msg⟩

deriving instance DecidableEq for Except

/-! ## `getTpmPcrs` -/

/-- Go `exists`. -/
def «exists» (i : Int) (arr : List Int) : Bool :=
  match arr with
  | [] => false
  | elem :: rest => if elem = i then true else «exists» i rest

/-- Go `sort.Ints`. -/
def sortInts (l : List Int) : List Int :=
  l.insertionSort (· ≤ ·)

/-- The first loop of `getTpmPcrs`: the metadata objects are visited in order; an object
whose payload or `Type` cannot be read is skipped, an RTM or OS manifest is unmarshalled
into `rtmMan` / `osMan`, and a failure of that unmarshalling ends the function. -/
def loadManifests (s : Serializer) :
    List Bytes → RtmManifest → OsManifest → Except Err (RtmManifest × OsManifest)
  | [], rtmMan, osMan => .ok (rtmMan, osMan)
  | m :: rest, rtmMan, osMan =>
    match s.GetPayload m with
    | .error _ => loadManifests s rest rtmMan osMan
    | .ok payload =>
      match s.UnmarshalType payload with
      | .error _ => loadManifests s rest rtmMan osMan
      | .ok t =>
        if t = "RTM Manifest" then
          match s.UnmarshalRtmManifest payload rtmMan with
          | .error e => .error (Err.new .unmarshalRtmManifest e)
          | .ok rtmMan' => loadManifests s rest rtmMan' osMan
        else if t = "OS Manifest" then
          match s.UnmarshalOsManifest payload osMan with
          | .error e => .error (Err.new .unmarshalOsManifest e)
          | .ok osMan' => loadManifests s rest rtmMan osMan'
        else loadManifests s rest rtmMan osMan

/-- The two reference-value loops of `getTpmPcrs`: a reference value whose type is not
`TPM Reference Value` or that has no PCR is skipped, a PCR not yet in `pcrs` is appended. -/
def collectPcrs : List ReferenceValue → List Int → List Int
  | [], pcrs => pcrs
  | ver :: rest, pcrs =>
    if ver.Type_ ≠ "TPM Reference Value" ∨ ver.Pcr = none then collectPcrs rest pcrs
    else
      match ver.Pcr with
      | none => collectPcrs rest pcrs
      | some p =>
        if !(«exists» p pcrs) then collectPcrs rest (pcrs ++ [p])
        else collectPcrs rest pcrs

/-- Go `getTpmPcrs`. -/
def getTpmPcrs (c : Config) : Except Err (List Int) :=
  match loadManifests c.Serializer c.Metadata {} {} with
  | .error e => .error e
  | .ok (rtmMan, osMan) =>
    if osMan.Type_ ≠ "OS Manifest" ∨ rtmMan.Type_ ≠ "RTM Manifest" then
      .error (Err.new .manifestsNotFound)
    else
      let pcrs : List Int := []
      let pcrs := collectPcrs rtmMan.ReferenceValues pcrs
      let pcrs := collectPcrs osMan.ReferenceValues pcrs
      .ok (sortInts pcrs)

/-! ## Values of the libraries the driver calls -/

/-- Go `x509.Certificate`, identified by its DER encoding. -/
structure Certificate where
  Raw : Bytes
deriving DecidableEq, Repr

/-- Go `pkix.Name` as filled in by `createAkCsr` and `createIkCsr`. -/
structure PkixName where
  CommonName : String := ""
  Country : List String := []
  Province : List String := []
  Locality : List String := []
  Organization : List String := []
  OrganizationalUnit : List String := []
  StreetAddress : List String := []
  PostalCode : List String := []
deriving DecidableEq, Repr

/-- Go `x509.CertificateRequest`. -/
structure CertificateRequest where
  Subject : PkixName := {}
  DNSNames : List String := []
  Raw : Bytes := []
deriving DecidableEq, Repr

/-- Go `attest.TPM`, the handle of the opened device. -/
structure TPMHandle where
  id : Nat
deriving DecidableEq, Repr

/-- Go `attest.TPMInfo`. -/
structure TPMInfo where
  Manufacturer : String := ""
  FirmwareVersionMajor : Nat := 0
  FirmwareVersionMinor : Nat := 0
deriving DecidableEq, Repr

/-- Go `attest.EK`. -/
structure EK where
  Public : Bytes := []
  Certificate : Option Certificate := none
  CertificateURL : String := ""
deriving DecidableEq, Repr

/-- Go `attest.AttestationParameters` and `attest.CertificationParameters`. -/
structure KeyParameters where
  Public : Bytes := []
  CreateData : Bytes := []
  CreateAttestation : Bytes := []
  CreateSignature : Bytes := []
deriving DecidableEq, Repr

/-- Go `attest.AK`. -/
structure AK where
  id : Nat
  params : KeyParameters := {}
deriving DecidableEq, Repr

/-- Go `attest.Key`. -/
structure Key where
  id : Nat
  params : KeyParameters := {}
deriving DecidableEq, Repr

/-- Go `crypto.PrivateKey` of a TPM key. -/
structure PrivateKey where
  id : Nat
deriving DecidableEq, Repr

/-- Go `attest.Algorithm`. -/
inductive Algorithm
  | ECDSA
  | RSA
deriving DecidableEq, Repr

/-- Go `attest.KeyConfig`. -/
structure AttestKeyConfig where
  Algorithm : Algorithm
  Size : Nat
deriving DecidableEq, Repr

/-- Go `attest.HashAlg`. -/
inductive HashAlg
  | HashSHA1
  | HashSHA256
deriving DecidableEq, Repr

/-- Go `attest.PCR`. -/
structure PCR where
  Index : Int
  Digest : Bytes
deriving DecidableEq, Repr

/-- Go `attest.Quote`. -/
structure Quote where
  Quote : Bytes
  Signature : Bytes
deriving DecidableEq, Repr

/-- The arguments of `estclient.TpmActivateEnroll`. -/
structure ActivateEnrollRequest where
  addr : String
  tpmManufacturer : String
  ekCertUrl : String
  tpmMajor : Nat
  tpmMinor : Nat
  csr : CertificateRequest
  akParams : KeyParameters
  ekPub : Bytes
  ekRaw : Option Bytes
deriving DecidableEq, Repr

/-- The arguments of `estclient.TpmCertifyEnroll`. -/
structure CertifyEnrollRequest where
  addr : String
  csr : CertificateRequest
  ikParams : KeyParameters
  akPublic : Bytes
deriving DecidableEq, Repr

/-- What `os.WriteFile` can do: write the file, fail before the file is created or
truncated, or fail after it, leaving the first `n` bytes of the data in the file. -/
inductive WriteOutcome
  | written
  | failUntouched
  | failTruncated (n : Nat)
deriving DecidableEq, Repr

/-- The functions of this package that appear in the trace. -/
inductive Fn
  | getTpmPcrs | IsTpmProvisioningRequired | OpenTpm | CloseTpm | GetTpmInfo
  | createKeys | createCsrs | provisionTpm | saveCerts | saveKeys
  | loadTpmKeys | loadTpmCerts | GetTpmMeasurement | Measure | ActivateCredential
deriving DecidableEq, Repr

/-- A call that leaves the package: operating system, TPM, enrollment client; and the
entry into a function of the package. -/
inductive Event
  | call (f : Fn)
  | stat (path : String)
  | mkdirAll (path : String)
  | writeFile (path : String) (data : Bytes)
  | readFile (path : String)
  | tpm2OpenTPM
  | tpm2ReadPublic (handle : Nat)
  | tpm2Close
  | attestOpenTPM
  | tpmClose
  | tpmInfo
  | tpmEKs
  | tpmNewAK
  | tpmNewKey (cfg : AttestKeyConfig)
  | tpmLoadAK (blob : Bytes)
  | tpmLoadKey (blob : Bytes)
  | akMarshal
  | ikMarshal
  | lock
  | unlock
  | tpmPCRs (alg : HashAlg)
  | akQuotePCRs (nonce : Bytes) (alg : HashAlg) (pcrs : List Int)
  | akActivateCredential
  | estNewClient
  | estCaCerts (addr : String)
  | estSetCAs (cas : List Certificate)
  | estTpmActivateEnroll (req : ActivateEnrollRequest)
  | estTpmCertifyEnroll (req : CertifyEnrollRequest)
  | imaGetRuntimeDigests
deriving DecidableEq, Repr

/-- Go `tpm2.Public`, the field the driver reads: the name algorithm, a `uint16`. -/
structure Tpm2Public where
  NameAlg : Nat := 0
deriving DecidableEq, Repr

/-- Go `tpm2.HashValue`. -/
structure HashValue where
  Alg : Nat := 0
  Value : Bytes := []
deriving DecidableEq, Repr

/-- Go `tpm2.Name`: the pointers `Handle` and `Digest`, of which one is set. -/
structure Tpm2Name where
  Handle : Option Nat := none
  Digest : Option HashValue := none
deriving DecidableEq, Repr

/-- Go `tpm2.CreationData`, the fields the driver reads. -/
structure CreationData where
  ParentNameAlg : Nat := 0
  ParentQualifiedName : Tpm2Name := {}
deriving DecidableEq, Repr

/-- The behaviour of everything the package calls but does not contain: operating
system, `go-tpm`, `go-attestation`, `crypto/x509`, `pkcs7`, the EST client, and the
packages `internal` and `ima` of this repository.  The last field is the Go version the
package is built with, as far as `Measure` depends on it: `true` when each iteration of a
`for` loop has its own loop variable (go directive 1.22 or later), `false` when the
iterations share one. -/
structure Env where
  mkdirAll : String → Bool
  writeOutcome : String → Bytes → WriteOutcome
  tpm2OpenTPM : Bool
  tpm2ReadPublic : Nat → Bool
  attestOpenTPM : Except String TPMHandle
  tpmInfo : Except String TPMInfo
  tpmEKs : Except String (List EK)
  tpmNewAK : Except String AK
  tpmNewKey : AK → AttestKeyConfig → Except String Key
  akMarshal : AK → Except String Bytes
  ikMarshal : Key → Except String Bytes
  tpmLoadAK : Bytes → Except String AK
  tpmLoadKey : Bytes → Except String Key
  tpmPCRs : HashAlg → Except String (List PCR)
  akQuotePCRs : AK → Bytes → HashAlg → List Int → Except String Quote
  akActivateCredential : AK → Bytes → Bytes → Except String Bytes
  akPrivate : AK → PrivateKey
  ikPrivate : Key → Except String PrivateKey
  tpmCreateCertificateRequest : CertificateRequest → PrivateKey → Except String Bytes
  x509CreateCertificateRequest : CertificateRequest → PrivateKey → Except String Bytes
  x509ParseCertificateRequest : Bytes → Except String CertificateRequest
  x509CheckSignature : CertificateRequest → Except String Unit
  x509MarshalPKIXPublicKey : Bytes → Except String Bytes
  x509ParseCertificate : Bytes → Except String Certificate
  pkcs7Parse : Bytes → Except String Bytes
  pkcs7DecryptUsingPSK : Bytes → Bytes → Except String Bytes
  estCaCerts : String → Except String (List Certificate)
  estSetCAs : List Certificate → Except String Unit
  estTpmActivateEnroll : ActivateEnrollRequest → Except String (Option Bytes × Option Bytes × Bytes)
  estTpmCertifyEnroll : CertifyEnrollRequest → Except String Certificate
  WriteCertPem : Certificate → Bytes
  ParseCerts : Bytes → Except String (List Certificate)
  imaGetRuntimeDigests : List Bytes × Option String
  tpm2DecodePublic : Bytes → Except String Tpm2Public
  tpm2DecodeCreationData : Bytes → Except String CreationData
  sha256Sum256 : Bytes → { digest : Bytes // digest.length = 32 }
  loopVarPerIteration : Bool

/-! ## State -/

/-- The file system under the storage path, the package variables `TPM`, `ak`, `ik`, `ek`,
and the trace of calls made so far. -/
structure World where
  files : List (String × Bytes) := []
  dirs : List String := []
  TPM : Option TPMHandle := none
  ak : Option AK := none
  ik : Option Key := none
  ek : List EK := []
  trace : List Event := []
deriving DecidableEq, Repr

/-- The outcome of a call: a value, a Go `error`, or a run-time panic. -/
inductive Result (α : Type)
  | ok (a : α)
  | error (e : Err)
  | panic (msg : String)
deriving DecidableEq, Repr

/-- A computation of the package: it reads and updates the world and ends in a `Result`. -/
def M (α : Type) : Type := World → Result α × World

/-- Sequencing: an error or a panic ends the computation with the world reached so far. -/
def M.bind {α β : Type} (m : M α) (f : α → M β) : M β := fun w =>
  match m w with
  | (.ok a, w1) => f a w1
  | (.error e, w1) => (.error e, w1)
  | (.panic msg, w1) => (.panic msg, w1)

instance : Monad M where
  pure a := fun w => (.ok a, w)
  bind := M.bind

/-- Go `return ..., err`. -/
def fail {α : Type} (e : Err) : M α := fun w => (.error e, w)

/-- A Go run-time panic. -/
def goPanic {α : Type} (msg : String) : M α := fun w => (.panic msg, w)

/-- Append an event to the trace. -/
def emit (ev : Event) : M Unit := fun w => (.ok (), { w with trace := w.trace ++ [ev] })

/-- The result of an external call, turned into an error created at site `s` on failure. -/
def ext {α : Type} (s : Site) (r : Except String α) : M α :=
  match r with
  | .ok a => pure a
  | .error msg => fail (Err.new s msg)

/-- The pattern `x, err := f(); if err != nil { return fmt.Errorf("...: %v", err) }`. -/
def wrapping {α : Type} (s : Site) (m : M α) : M α := fun w =>
  match m w with
  | (.ok a, w1) => (.ok a, w1)
  | (.error e, w1) => (.error (Err.wrap s e), w1)
  | (.panic msg, w1) => (.panic msg, w1)

/-- Read the world. -/
def getWorld : M World := fun w => (.ok w, w)

/-- Update the world. -/
def modifyWorld (f : World → World) : M Unit := fun w => (.ok (), f w)

/-! ## Operating system -/

/-- The names of the four key-store files. -/
def akchainFile : String := "akchain.pem"

def ikchainFile : String := "ikchain.pem"

def akFile : String := "ak_encrypted.json"

def ikFile : String := "ik_encrypted.json"

/-- The elements of a path, the texts between its slashes. -/
def splitSlash : List Char → List (List Char)
  | [] => [[]]
  | c :: cs =>
    if c = '/' then [] :: splitSlash cs
    else
      match splitSlash cs with
      | [] => [[c]]
      | x :: xs => (c :: x) :: xs

/-- The elements joined with one slash between two of them. -/
def joinSlash : List (List Char) → List Char
  | [] => []
  | [x] => x
  | x :: y :: rest => x ++ '/' :: joinSlash (y :: rest)

/-- One element of a path meets the elements kept so far (the last one kept comes first): an
empty element and `.` are dropped, `..` removes the element before it, is dropped at the root
and is kept at the start of a path that is not rooted, and every other element is kept. -/
def cleanStep (rooted : Bool) (stack : List (List Char)) (comp : List Char) : List (List Char) :=
  if comp = [] ∨ comp = ['.'] then stack
  else if comp = ['.', '.'] then
    match stack with
    | [] => if rooted then [] else [comp]
    | top :: rest => if top = ['.', '.'] then comp :: stack else rest
  else comp :: stack

/-- The elements that Go `path.Clean` keeps, the last one first. -/
def cleanStack (rooted : Bool) (comps : List (List Char)) : List (List Char) :=
  comps.foldl (cleanStep rooted) []

/-- The text of a cleaned path: the kept elements joined, after the root slash if the path is
rooted, and `.` for an empty result. -/
def pathOut (rooted : Bool) (stack : List (List Char)) : List Char :=
  let body := joinSlash stack.reverse
  if rooted then '/' :: body else if body = [] then ['.'] else body

/-- Go `path.Clean`. -/
def pathClean (p : List Char) : List Char :=
  pathOut (p.head? == some '/') (cleanStack (p.head? == some '/') (splitSlash p))

/-- Go `path.Join` of a directory and a file name: empty elements are ignored, the others are
joined with a slash and the result is cleaned; the result is empty when both are empty. -/
def pathJoin (dir file : String) : String :=
  if dir = "" then
    if file = "" then "" else ⟨pathClean file.data⟩
  else if file = "" then ⟨pathClean dir.data⟩
  else ⟨pathClean (dir.data ++ '/' :: file.data)⟩

/-- A file name that is one element of a path: not empty, without a slash, and neither `.`
nor `..`. -/
def plainName (file : String) : Bool :=
  decide (file.data ≠ [] ∧ '/' ∉ file.data ∧ file.data ≠ ['.'] ∧ file.data ≠ ['.', '.'])

/-- Whether `path` names a file or a directory. -/
def World.pathExists (w : World) (path : String) : Bool :=
  (w.files.lookup path).isSome || w.dirs.contains path

/-- Go `os.Stat`: `true` when it returns no error. -/
def osStat (path : String) : M Bool := do
  emit (.stat path)
  let w ← getWorld
  pure (w.pathExists path)

/-- Go `os.MkdirAll`: `true` when it returns no error. -/
def osMkdirAll (env : Env) (path : String) : M Bool := do
  emit (.mkdirAll path)
  if env.mkdirAll path then
    modifyWorld (fun w => { w with dirs := path :: w.dirs })
    pure true
  else pure false

/-- Go `os.WriteFile`: `true` when it returns no error. -/
def osWriteFile (env : Env) (path : String) (data : Bytes) : M Bool := do
  emit (.writeFile path data)
  match env.writeOutcome path data with
  | .written =>
    modifyWorld (fun w => { w with files := (path, data) :: w.files })
    pure true
  | .failUntouched => pure false
  | .failTruncated n =>
    modifyWorld (fun w => { w with files := (path, data.take n) :: w.files })
    pure false

/-- Go `os.ReadFile`. -/
def osReadFile (path : String) : M Bytes := do
  emit (.readFile path)
  let w ← getWorld
  match w.files.lookup path with
  | some data => pure data
  | none => fail (Err.new .readFile path)

/-! ## The driver -/

/-- Go `Tpm` (the mutex `Mu` appears as the events `lock` and `unlock`). -/
structure Tpm where
  Pcrs : List Int
  SigningCerts : List Certificate
  MeasuringCerts : List Certificate
  UseIma : Bool
  ImaPcr : Int
deriving DecidableEq, Repr

/-- Go `ar.HashChainElem`. -/
structure HashChainElem where
  Type_ : String
  Pcr : Int
  Sha256 : List Bytes
deriving DecidableEq, Repr

/-- Go `ar.TpmMeasurement`. -/
structure TpmMeasurement where
  Type_ : String
  HashChain : List HashChainElem
  Message : Bytes
  Signature : Bytes
  Certs : List Bytes
deriving DecidableEq, Repr

/-- Go `IsTpmProvisioningRequired`; the result is the pair `(bool, error)`. -/
def IsTpmProvisioningRequired (env : Env) (storagePath : String) : M (Bool × Option Err) := do
  emit (.call .IsTpmProvisioningRequired)
  if !(← osStat (pathJoin storagePath akchainFile)) then
    pure (true, none)
  else if !(← osStat (pathJoin storagePath ikchainFile)) then
    pure (true, none)
  else
    emit .tpm2OpenTPM
    if !env.tpm2OpenTPM then
      pure (true, some (Err.new .tpmDeviceOpen))
    else
      emit (.tpm2ReadPublic 0x81000001)
      let readable := env.tpm2ReadPublic 0x81000001
      emit .tpm2Close
      if readable then pure (false, none) else pure (true, none)

/-- Go `OpenTpm`. -/
def OpenTpm (env : Env) : M Unit := do
  emit (.call .OpenTpm)
  let w ← getWorld
  match w.TPM with
  | some _ => fail (Err.new .alreadyOpen)
  | none =>
    emit .attestOpenTPM
    match env.attestOpenTPM with
    | .error msg =>
      modifyWorld (fun w => { w with TPM := none })
      fail (Err.new .attestOpenTPM msg)
    | .ok h => modifyWorld (fun w => { w with TPM := some h })

/-- Go `CloseTpm`. -/
def CloseTpm : M Unit := do
  emit (.call .CloseTpm)
  let w ← getWorld
  match w.TPM with
  | none => fail (Err.new .closeNotOpened)
  | some _ =>
    emit .tpmClose
    modifyWorld (fun w => { w with TPM := none })

/-- Go `GetTpmInfo`. -/
def GetTpmInfo (env : Env) : M TPMInfo := do
  emit (.call .GetTpmInfo)
  let w ← getWorld
  match w.TPM with
  | none => fail (Err.new .notOpened)
  | some _ =>
    emit .tpmInfo
    ext .tpmInfo env.tpmInfo

/-- The `switch keyConfig` of `createKeys`. -/
def ikConfigOf (keyConfig : String) : Option AttestKeyConfig :=
  if keyConfig = "EC256" then some ⟨.ECDSA, 256⟩
  else if keyConfig = "EC384" then some ⟨.ECDSA, 384⟩
  else if keyConfig = "EC521" then some ⟨.ECDSA, 521⟩
  else if keyConfig = "RSA2048" then some ⟨.RSA, 2048⟩
  else if keyConfig = "RSA4096" then some ⟨.RSA, 4096⟩
  else none

/-- Go `createKeys`. -/
def createKeys (env : Env) (keyConfig : String) : M (List EK × AK × Key) := do
  emit (.call .createKeys)
  emit .tpmEKs
  let eks ← ext .loadEKs env.tpmEKs
  emit .tpmNewAK
  let ak ← ext .newAK env.tpmNewAK
  match ikConfigOf keyConfig with
  | none => fail (Err.new .unknownKeyConfig keyConfig)
  | some ikConfig =>
    emit (.tpmNewKey ikConfig)
    let ik ← ext .newIK (env.tpmNewKey ak ikConfig)
    pure (eks, ak, ik)

/-- The `pkix.Name` built from the subject of the CSR parameters. -/
def pkixNameOf (n : Name) : PkixName :=
  { CommonName := n.CommonName
    Country := [n.Country]
    Province := [n.Province]
    Locality := [n.Locality]
    Organization := [n.Organization]
    OrganizationalUnit := [n.OrganizationalUnit]
    StreetAddress := [n.StreetAddress]
    PostalCode := [n.PostalCode] }

/-- Go `createAkCsr`. -/
def createAkCsr (env : Env) (ak : AK) (params : CsrParams) : M CertificateRequest := do
  let tmpl : CertificateRequest := { Subject := pkixNameOf params.Subject }
  let der ← ext .createCertificateRequest
    (env.tpmCreateCertificateRequest tmpl (env.akPrivate ak))
  let csr ← ext .parseCertificateRequest (env.x509ParseCertificateRequest der)
  ext .checkCsrSignature (env.x509CheckSignature csr)
  pure csr

/-- Go `createIkCsr`. -/
def createIkCsr (env : Env) (ik : Key) (params : CsrParams) : M CertificateRequest := do
  let tmpl : CertificateRequest :=
    { Subject := pkixNameOf params.Subject, DNSNames := params.SANs }
  let priv ← ext .ikPrivate (env.ikPrivate ik)
  let der ← ext .createCertificateRequest (env.x509CreateCertificateRequest tmpl priv)
  let csr ← ext .parseCertificateRequest (env.x509ParseCertificateRequest der)
  ext .checkCsrSignature (env.x509CheckSignature csr)
  pure csr

/-- The loop of `createCsrs` over the metadata objects. -/
def createCsrsLoop (env : Env) (s : Serializer) (ak : AK) (ik : Key) :
    List Bytes → M (CertificateRequest × CertificateRequest)
  | [] => fail (Err.new .deviceConfigNotFound)
  | m :: rest =>
    match s.GetPayload m with
    | .error _ => createCsrsLoop env s ak ik rest
    | .ok payload =>
      match s.UnmarshalType payload with
      | .error _ => createCsrsLoop env s ak ik rest
      | .ok t =>
        if t = "Device Config" then do
          let deviceConfig ← ext .unmarshalDeviceConfig (s.UnmarshalDeviceConfig payload)
          let akCsr ← wrapping .createAkCsr (createAkCsr env ak deviceConfig.AkCsr)
          let ikCsr ← wrapping .createIkCsr (createIkCsr env ik deviceConfig.IkCsr)
          pure (akCsr, ikCsr)
        else createCsrsLoop env s ak ik rest

/-- Go `createCsrs`. -/
def createCsrs (env : Env) (c : Config) (ak : AK) (ik : Key) :
    M (CertificateRequest × CertificateRequest) := do
  emit (.call .createCsrs)
  createCsrsLoop env c.Serializer ak ik c.Metadata

/-- Go `ActivateCredential`. -/
def ActivateCredential (env : Env) (ak : AK)
    (activationCredential activationSecret : Option Bytes) : M Bytes := do
  emit (.call .ActivateCredential)
  match activationCredential with
  | none => fail (Err.new .noCredential)
  | some credential =>
    match activationSecret with
    | none => fail (Err.new .noSecret)
    | some secret =>
      emit .akActivateCredential
      ext .activateCredential (env.akActivateCredential ak credential secret)

/-- Go `provisionTpm`. -/
def provisionTpm (env : Env) (provServerURL : String) (akCsr ikCsr : CertificateRequest) :
    M (List Certificate × List Certificate) := do
  emit (.call .provisionTpm)
  let w ← getWorld
  match w.TPM, w.ek, w.ak, w.ik with
  | none, _, _, _ => fail (Err.new .notOpened)
  | some _, [], _, _ => fail (Err.new .keysNotCreated)
  | some _, _ :: _, none, _ => fail (Err.new .keysNotCreated)
  | some _, _ :: _, some _, none => fail (Err.new .keysNotCreated)
  | some _, ek0 :: _, some ak, some ik =>
    let tpmInfo ← wrapping .retrieveTpmInfo (GetTpmInfo env)
    emit .estNewClient
    emit (.estCaCerts provServerURL)
    let caCerts ← ext .retrieveCaCerts (env.estCaCerts provServerURL)
    match caCerts.getLast? with
    | none => goPanic "index out of range [-1]"
    | some lastCa =>
      emit (.estSetCAs [lastCa])
      ext .setEstCa (env.estSetCAs [lastCa])
      let akParams := ak.params
      let ekPub ← ext .marshalEkPub (env.x509MarshalPKIXPublicKey ek0.Public)
      let ekRaw : Option Bytes := ek0.Certificate.map (fun cert => cert.Raw)
      let req : ActivateEnrollRequest :=
        { addr := provServerURL
          tpmManufacturer := tpmInfo.Manufacturer
          ekCertUrl := ek0.CertificateURL
          tpmMajor := tpmInfo.FirmwareVersionMajor
          tpmMinor := tpmInfo.FirmwareVersionMinor
          csr := akCsr
          akParams := akParams
          ekPub := ekPub
          ekRaw := ekRaw }
      emit (.estTpmActivateEnroll req)
      let (encCredential, encSecret, pkcs7Cert) ← ext .enrollAk (env.estTpmActivateEnroll req)
      let secret ← wrapping .requestActivateCredential
        (ActivateCredential env ak encCredential encSecret)
      let encryptedCert ← ext .parsePkcs7 (env.pkcs7Parse pkcs7Cert)
      let certDer ← ext .decryptPkcs7 (env.pkcs7DecryptUsingPSK encryptedCert secret)
      let akCert ← ext .parseCertificate (env.x509ParseCertificate certDer)
      let ikParams := ik.params
      let req2 : CertifyEnrollRequest :=
        { addr := provServerURL, csr := ikCsr, ikParams := ikParams, akPublic := akParams.Public }
      emit (.estTpmCertifyEnroll req2)
      let ikCert ← ext .enrollIk (env.estTpmCertifyEnroll req2)
      let akchain := [akCert] ++ caCerts
      let ikchain := [ikCert] ++ caCerts
      pure (akchain, ikchain)

/-- The loops of `saveCerts`: the concatenation of the PEM encodings of a chain. -/
def chainPem (env : Env) (chain : List Certificate) : Bytes :=
  chain.foldl (fun pem cert => pem ++ env.WriteCertPem cert) []

/-- Go `saveCerts`. -/
def saveCerts (env : Env) (storagePath : String) (akchain ikchain : List Certificate) :
    M Unit := do
  emit (.call .saveCerts)
  let akchainPem := chainPem env akchain
  if !(← osWriteFile env (pathJoin storagePath akchainFile) akchainPem) then
    fail (Err.new .writeFile (pathJoin storagePath akchainFile))
  else
    let ikchainPem := chainPem env ikchain
    if !(← osWriteFile env (pathJoin storagePath ikchainFile) ikchainPem) then
      fail (Err.new .writeFile (pathJoin storagePath ikchainFile))
    else pure ()

/-- Go `saveKeys`. -/
def saveKeys (env : Env) (storagePath : String) : M Unit := do
  emit (.call .saveKeys)
  let w ← getWorld
  match w.ak with
  | none => goPanic "nil pointer dereference"
  | some ak =>
    emit .akMarshal
    let akBytes ← ext .marshalAk (env.akMarshal ak)
    let akPath := pathJoin storagePath akFile
    if !(← osWriteFile env akPath akBytes) then
      fail (Err.new .writeFile akPath)
    else
      match w.ik with
      | none => goPanic "nil pointer dereference"
      | some ik =>
        emit .ikMarshal
        let ikBytes ← ext .marshalIk (env.ikMarshal ik)
        let ikPath := pathJoin storagePath ikFile
        if !(← osWriteFile env ikPath ikBytes) then
          fail (Err.new .writeFile ikPath)
        else pure ()

/-- Go `loadTpmKeys`; the assignments `ak, err = ...` and `ik, err = ...` store `nil` in the
package variable when the call fails. -/
def loadTpmKeys (env : Env) (storagePath : String) : M Unit := do
  emit (.call .loadTpmKeys)
  let w ← getWorld
  match w.TPM with
  | none => fail (Err.new .notOpened)
  | some _ =>
    let akBytes ← osReadFile (pathJoin storagePath akFile)
    emit (.tpmLoadAK akBytes)
    match env.tpmLoadAK akBytes with
    | .error msg =>
      modifyWorld (fun w => { w with ak := none })
      fail (Err.new .loadAK msg)
    | .ok ak =>
      modifyWorld (fun w => { w with ak := some ak })
      let ikBytes ← osReadFile (pathJoin storagePath ikFile)
      emit (.tpmLoadKey ikBytes)
      match env.tpmLoadKey ikBytes with
      | .error msg =>
        modifyWorld (fun w => { w with ik := none })
        fail (Err.new .loadKey msg)
      | .ok ik => modifyWorld (fun w => { w with ik := some ik })

/-- Go `loadTpmCerts`. -/
def loadTpmCerts (env : Env) (storagePath : String) :
    M (List Certificate × List Certificate) := do
  emit (.call .loadTpmCerts)
  let data ← wrapping .readAkChain (osReadFile (pathJoin storagePath akchainFile))
  let akchain ← ext .parseAkCerts (env.ParseCerts data)
  let data ← wrapping .readIkChain (osReadFile (pathJoin storagePath ikchainFile))
  let ikchain ← ext .parseIkCerts (env.ParseCerts data)
  pure (akchain, ikchain)

/-- The statement `ek, ak, ik, err = createKeys(TPM, c.KeyConfig)` of `NewTpm`: the package
variables receive the results, also the `nil` results of a failed call. -/
def assignCreatedKeys (env : Env) (keyConfig : String) : M (AK × Key) := fun w =>
  match createKeys env keyConfig w with
  | (.ok (eks, ak, ik), w1) => (.ok (ak, ik), { w1 with ek := eks, ak := some ak, ik := some ik })
  | (.error e, w1) => (.error e, { w1 with ek := [], ak := none, ik := none })
  | (.panic msg, w1) => (.panic msg, w1)

/-- The branch of `NewTpm` taken when provisioning is required. -/
def provision (env : Env) (c : Config) : M (List Certificate × List Certificate) := do
  let (ak, ik) ← wrapping .createKeysFailed (assignCreatedKeys env c.KeyConfig)
  let (akCsr, ikCsr) ← wrapping .createCsrsFailed (createCsrs env c ak ik)
  let (akchain, ikchain) ← wrapping .provisionFailed (provisionTpm env c.ServerAddr akCsr ikCsr)
  wrapping .saveCertsFailed (saveCerts env c.StoragePath akchain ikchain)
  wrapping .saveKeysFailed (saveKeys env c.StoragePath)
  pure (akchain, ikchain)

/-- The branch of `NewTpm` taken when provisioning is not required. -/
def load (env : Env) (c : Config) : M (List Certificate × List Certificate) := do
  wrapping .loadKeysFailed (loadTpmKeys env c.StoragePath)
  wrapping .loadCertsFailed (loadTpmCerts env c.StoragePath)

/-- First step of `NewTpm`: the type switch on the serializer. -/
def checkSerializer (c : Config) : M Unit :=
  match c.Serializer.kind with
  | .json => pure ()
  | .cbor => pure ()
  | .uninitialized => fail (Err.new .serializerNotInitialized)

/-- Second step of `NewTpm`: the storage folder is created if `os.Stat` does not find it. -/
def createStorage (env : Env) (c : Config) : M Unit := do
  if !(← osStat c.StoragePath) then
    if !(← osMkdirAll env c.StoragePath) then
      fail (Err.new .createStorage c.StoragePath)
    else pure ()
  else pure ()

/-- Third step of `NewTpm`: the PCR set from the manifests. -/
def retrievePcrs (c : Config) : M (List Int) := do
  emit (.call .getTpmPcrs)
  match getTpmPcrs c with
  | .error e => fail (Err.wrap .retrievePcrs e)
  | .ok pcrs => pure pcrs

/-- Fourth step of `NewTpm`: the provisioning decision. -/
def checkProvisioned (env : Env) (c : Config) : M Bool := do
  let (provisioningRequired, err) ← IsTpmProvisioningRequired env c.StoragePath
  match err with
  | some e => fail (Err.wrap .checkProvisioned e)
  | none => pure provisioningRequired

/-- The part of `NewTpm` before the branch: the four steps above and `OpenTpm`.  It yields
`pcrs` and `provisioningRequired`. -/
def prepare (env : Env) (c : Config) : M (List Int × Bool) := do
  checkSerializer c
  createStorage env c
  let pcrs ← retrievePcrs c
  let provisioningRequired ← checkProvisioned env c
  wrapping .openTpmFailed (OpenTpm env)
  pure (pcrs, provisioningRequired)

/-- Go `NewTpm`: the preparation, then the provisioning branch or the load branch, then the
`Tpm` object. -/
def NewTpm (env : Env) (c : Config) : M Tpm := do
  let (pcrs, provisioningRequired) ← prepare env c
  let (akchain, ikchain) ←
    if provisioningRequired then provision env c else load env c
  pure
    { Pcrs := pcrs
      UseIma := c.UseIma
      ImaPcr := c.ImaPcr
      SigningCerts := ikchain
      MeasuringCerts := akchain }

/-- Go `int32(num)` for an `int`. -/
def toInt32 (n : Int) : Int := (n + 2 ^ 31) % 2 ^ 32 - 2 ^ 31

/-- Go `GetTpmMeasurement`; the deferred `t.Unlock()` runs on every way out after the lock
was taken. -/
def GetTpmMeasurement (env : Env) (_t : Tpm) (nonce : Bytes) (pcrs : List Int) :
    M (List PCR × Quote) := do
  emit (.call .GetTpmMeasurement)
  let w ← getWorld
  match w.TPM, w.ak with
  | none, _ => fail (Err.new .notOpened)
  | some _, none => fail (Err.new .akMissing)
  | some _, some ak =>
    emit .lock
    emit (.tpmPCRs .HashSHA256)
    match env.tpmPCRs .HashSHA256 with
    | .error msg =>
      emit .unlock
      fail (Err.new .readPcrs msg)
    | .ok pcrValues =>
      emit (.akQuotePCRs nonce .HashSHA256 pcrs)
      match env.akQuotePCRs ak nonce .HashSHA256 pcrs with
      | .error msg =>
        emit .unlock
        fail (Err.new .quoteFailed msg)
      | .ok quote =>
        emit .unlock
        pure (pcrValues, quote)

/-- The first loop of `Measure`: one hash-chain element per entry of `t.Pcrs`; the index
expression `pcrValues[num]` panics when `num` is out of range. -/
def buildHashChain (pcrValues : List PCR) : List Int → Result (List HashChainElem)
  | [] => .ok []
  | num :: rest =>
    if num < 0 then .panic "index out of range"
    else
      match pcrValues[num.toNat]? with
      | none => .panic "index out of range"
      | some v =>
        match buildHashChain pcrValues rest with
        | .ok elems =>
          .ok ({ Type_ := "Hash Chain", Pcr := toInt32 num, Sha256 := [v.Digest] } :: elems)
        | .error e => .error e
        | .panic msg => .panic msg

/-- Modelled from the spec: `internal.WriteCertsPem` is not part of the sources at hand;
it returns the PEM encoding of each certificate of the chain, in order. -/
def WriteCertsPem (env : Env) (certs : List Certificate) : List Bytes :=
  certs.map env.WriteCertPem

/-- The list that the loop
`for _, elem := range imaDigests { imaDigestsHex = append(imaDigestsHex, elem[:]) }` of
`Measure` leaves in `imaDigestsHex`.  A digest is an array, `elem` holds a copy of it, and
`elem[:]` is a slice of the variable `elem`, not of the digest in `imaDigests`.  With one
variable per iteration every slice keeps the digest of its iteration.  With one variable for
the whole loop every appended slice is a view of that variable, which holds the last digest
when the loop ends. -/
def imaDigestsHex (perIteration : Bool) (imaDigests : List Bytes) : List Bytes :=
  if perIteration then imaDigests.foldl (fun acc elem => acc ++ [elem]) []
  else
    match imaDigests.getLast? with
    | none => []
    | some last => imaDigests.foldl (fun acc _ => acc ++ [last]) []

/-- Go `(*Tpm).Measure`. -/
def Measure (env : Env) (t : Option Tpm) (nonce : Bytes) : M TpmMeasurement := do
  emit (.call .Measure)
  match t with
  | none => fail (Err.new .tpmNotInitialized)
  | some t =>
    let (pcrValues, quote) ← wrapping .getMeasurement (GetTpmMeasurement env t nonce t.Pcrs)
    let hashChain ← (fun w => (buildHashChain pcrValues t.Pcrs, w) : M (List HashChainElem))
    let hashChain ←
      if t.UseIma then do
        emit .imaGetRuntimeDigests
        let imaDigests := env.imaGetRuntimeDigests.1
        let digestsHex := imaDigestsHex env.loopVarPerIteration imaDigests
        pure (hashChain.map fun elem =>
          if elem.Pcr = t.ImaPcr then { elem with Sha256 := digestsHex } else elem)
      else pure hashChain
    pure
      { Type_ := "TPM Measurement"
        HashChain := hashChain
        Message := quote.Quote
        Signature := quote.Signature
        Certs := WriteCertsPem env t.MeasuringCerts }

/-! ## Observations on a run -/

/-- The events a computation added to the trace of the world it started in. -/
def newEvents (w w' : World) : List Event := w'.trace.drop w.trace.length

/-- Events that address the TPM (through `go-tpm` or `go-attestation`). -/
def Event.touchesTpm : Event → Bool
  | .tpm2OpenTPM | .tpm2ReadPublic _ | .tpm2Close | .attestOpenTPM | .tpmClose | .tpmInfo
  | .tpmEKs | .tpmNewAK | .tpmNewKey _ | .tpmLoadAK _ | .tpmLoadKey _ | .akMarshal
  | .ikMarshal | .tpmPCRs _ | .akQuotePCRs _ _ _ | .akActivateCredential => true
  | _ => false

/-- Events of the preparation in `NewTpm`: storage directory, PCR set, provisioning
decision, opening of the TPM. -/
def Event.isSetup : Event → Bool
  | .stat _ | .mkdirAll _ | .call .getTpmPcrs | .call .IsTpmProvisioningRequired
  | .tpm2OpenTPM | .tpm2ReadPublic _ | .tpm2Close | .call .OpenTpm | .attestOpenTPM => true
  | _ => false

/-- Events of `createKeys`, `createCsrs` and `provisionTpm`: key creation and every
operation of the enrollment client. -/
def Event.isProvisioning : Event → Bool
  | .call .createKeys | .call .createCsrs | .call .provisionTpm | .call .GetTpmInfo
  | .call .ActivateCredential | .tpmEKs | .tpmNewAK | .tpmNewKey _ | .tpmInfo
  | .akActivateCredential | .estNewClient | .estCaCerts _ | .estSetCAs _
  | .estTpmActivateEnroll _ | .estTpmCertifyEnroll _ => true
  | _ => false

/-- Events of `loadTpmKeys` and `loadTpmCerts`. -/
def Event.isLoad : Event → Bool
  | .call .loadTpmKeys | .call .loadTpmCerts | .readFile _ | .tpmLoadAK _ | .tpmLoadKey _ => true
  | _ => false

/-- The event of `os.MkdirAll`. -/
def Event.isMkdir : Event → Bool
  | .mkdirAll _ => true
  | _ => false

/-- Events of `saveCerts` and `saveKeys`. -/
def Event.isSave : Event → Bool
  | .call .saveCerts | .call .saveKeys | .akMarshal | .ikMarshal | .writeFile _ _ => true
  | _ => false

/-- The world after a computation extends the trace of the world before it by events that
satisfy `P`, keeps every path that existed, keeps the files unless an event of saving
occurred, and keeps the directories unless `os.MkdirAll` was called. -/
def Step (P : Event → Bool) (w w' : World) : Prop :=
  ∃ evs, w'.trace = w.trace ++ evs ∧ (∀ ev ∈ evs, P ev = true) ∧
    (∀ p, w.pathExists p = true → w'.pathExists p = true) ∧
    ((∀ ev ∈ evs, ev.isSave = false) → w'.files = w.files) ∧
    ((∀ ev ∈ evs, ev.isMkdir = false) → w'.dirs = w.dirs)

/-- Every run of `m` is a `Step P`. -/
structure Steps {α : Type} (P : Event → Bool) (m : M α) : Prop where
  run : ∀ w, Step P w (m w).2

/-- Every run of `m` leaves the package variable `TPM` as it found it. -/
structure KeepsTpm {α : Type} (m : M α) : Prop where
  run : ∀ w, (m w).2.TPM = w.TPM

/-- A process start on the store that `w` left behind: the file system is kept, the
package variables and the trace are fresh. -/
def World.restart (w : World) : World := { files := w.files, dirs := w.dirs }

/-- The PCR indices referenced by the loaded manifests in the words of the specification:
every metadata object that parses as an RTM, OS or App manifest contributes the PCR index
of each of its reference values. -/
def referencedPcrs (s : Serializer) : List Bytes → List Int
  | [] => []
  | m :: rest =>
    let here : List Int :=
      match s.GetPayload m with
      | .error _ => []
      | .ok payload =>
        match s.UnmarshalType payload with
        | .error _ => []
        | .ok t =>
          if t = "RTM Manifest" then
            match s.UnmarshalRtmManifest payload {} with
            | .ok man => man.ReferenceValues.filterMap (fun ver => ver.Pcr)
            | .error _ => []
          else if t = "OS Manifest" then
            match s.UnmarshalOsManifest payload {} with
            | .ok man => man.ReferenceValues.filterMap (fun ver => ver.Pcr)
            | .error _ => []
          else if t = "App Manifest" then
            match s.UnmarshalAppManifest payload {} with
            | .ok man => man.ReferenceValues.filterMap (fun ver => ver.Pcr)
            | .error _ => []
          else []
    here ++ referencedPcrs s rest

/-! ## A small serializer and environment for concrete runs -/

/-- Type names of the sample encoding, by tag byte. -/
def sampleTypeName (tag : Nat) : String :=
  if tag = 1 then "RTM Manifest"
  else if tag = 2 then "OS Manifest"
  else if tag = 3 then "App Manifest"
  else if tag = 4 then "Device Config"
  else "Company Description"

/-- Reference values of the sample encoding: pairs `(kind, p)`, kind `1` for a TPM
reference value, `p = 0` for no PCR and `p = n + 1` for PCR `n`. -/
def sampleReferenceValues : Bytes → List ReferenceValue
  | kind :: p :: rest =>
    { Type_ := if kind = 1 then "TPM Reference Value" else "SNP Reference Value"
      Pcr := if p = 0 then none else some ((p - 1 : Nat) : Int) } :: sampleReferenceValues rest
  | _ => []

/-- A serializer over a toy encoding: an object is `0 :: tag :: body`. -/
def sampleSerializer : Serializer where
  kind := .json
  GetPayload raw :=
    match raw with
    | 0 :: payload => .ok payload
    | _ => .error "no envelope"
  UnmarshalType payload :=
    match payload with
    | tag :: _ => .ok (sampleTypeName tag)
    | [] => .error "empty payload"
  UnmarshalRtmManifest payload _ :=
    match payload with
    | tag :: body => .ok { Type_ := sampleTypeName tag, ReferenceValues := sampleReferenceValues body }
    | [] => .error "empty payload"
  UnmarshalOsManifest payload _ :=
    match payload with
    | tag :: body => .ok { Type_ := sampleTypeName tag, ReferenceValues := sampleReferenceValues body }
    | [] => .error "empty payload"
  UnmarshalAppManifest payload _ :=
    match payload with
    | tag :: body => .ok { Type_ := sampleTypeName tag, ReferenceValues := sampleReferenceValues body }
    | [] => .error "empty payload"
  UnmarshalDeviceConfig payload :=
    match payload with
    | tag :: _ => .ok { Type_ := sampleTypeName tag }
    | [] => .error "empty payload"

/-- A configuration over the sample serializer with the given metadata. -/
def sampleConfig (metadata : List Bytes) : Config where
  StoragePath := "s"
  ServerAddr := "est"
  KeyConfig := "EC256"
  Metadata := metadata
  UseIma := false
  ImaPcr := 10
  Serializer := sampleSerializer

/-- Sample metadata: an RTM manifest for PCRs 4 and 0, an OS manifest for PCRs 4 and 2, and a
device configuration. -/
def sampleMetadata : List Bytes :=
  [[0, 1, 1, 5, 1, 1], [0, 2, 1, 5, 1, 3], [0, 4]]

/-- Parse a sequence of length-prefixed certificates. -/
def sampleParseCerts : Nat → Bytes → Except String (List Certificate)
  | _, [] => .ok []
  | 0, _ => .error "out of fuel"
  | fuel + 1, n :: rest =>
    if rest.length < n then .error "truncated"
    else
      match sampleParseCerts fuel (rest.drop n) with
      | .ok certs => .ok (⟨rest.take n⟩ :: certs)
      | .error e => .error e

/-- An environment in which every external call succeeds; certificates are stored
length-prefixed. -/
def sampleEnv : Env where
  mkdirAll _ := true
  writeOutcome _ _ := .written
  tpm2OpenTPM := true
  tpm2ReadPublic _ := true
  attestOpenTPM := .ok ⟨1⟩
  tpmInfo := .ok {}
  tpmEKs := .ok [{}]
  tpmNewAK := .ok ⟨1, {}⟩
  tpmNewKey _ _ := .ok ⟨2, {}⟩
  akMarshal _ := .ok [1]
  ikMarshal _ := .ok [2]
  tpmLoadAK _ := .ok ⟨1, {}⟩
  tpmLoadKey _ := .ok ⟨2, {}⟩
  tpmPCRs _ := .ok ((List.range 24).map fun (i : Nat) => ⟨(i : Int), [i]⟩)
  akQuotePCRs _ nonce _ _ := .ok ⟨nonce, [7]⟩
  akActivateCredential _ _ _ := .ok [3]
  akPrivate _ := ⟨1⟩
  ikPrivate _ := .ok ⟨2⟩
  tpmCreateCertificateRequest _ _ := .ok [4]
  x509CreateCertificateRequest _ _ := .ok [5]
  x509ParseCertificateRequest der := .ok { Raw := der }
  x509CheckSignature _ := .ok ()
  x509MarshalPKIXPublicKey pub := .ok pub
  x509ParseCertificate der := .ok ⟨der⟩
  pkcs7Parse p7 := .ok p7
  pkcs7DecryptUsingPSK _ _ := .ok [6]
  estCaCerts _ := .ok [⟨[9]⟩]
  estSetCAs _ := .ok ()
  estTpmActivateEnroll _ := .ok (some [1], some [2], [3])
  estTpmCertifyEnroll _ := .ok ⟨[8]⟩
  WriteCertPem cert := cert.Raw.length :: cert.Raw
  ParseCerts data := sampleParseCerts data.length data
  imaGetRuntimeDigests := ([], none)
  tpm2DecodePublic pub :=
    match pub with
    | alg :: _ => .ok { NameAlg := alg }
    | [] => .error "short buffer"
  tpm2DecodeCreationData createData :=
    match createData with
    | [] => .error "short buffer"
    | [alg] => .ok { ParentNameAlg := alg, ParentQualifiedName := { Handle := some 1 } }
    | alg :: digest =>
      .ok { ParentNameAlg := alg, ParentQualifiedName := { Digest := some ⟨alg, digest⟩ } }
  sha256Sum256 data := ⟨List.replicate 32 (data.foldl (fun acc b => acc + b) 0 % 256), by simp⟩
  loopVarPerIteration := false

/-- The sample environment with a TPM that cannot create an AK. -/
def sampleEnvNoAK : Env := { sampleEnv with tpmNewAK := .error "no AK" }

/-- The sample environment in which the write of `ak_encrypted.json` fails before the file
is created. -/
def sampleEnvKeyWriteFails : Env :=
  { sampleEnv with
    writeOutcome := fun path _ => if path = "s/ak_encrypted.json" then .failUntouched else .written }

/-- The package variables after `NewTpm`: TPM opened, AK and IK loaded. -/
def sampleOpenWorld : World :=
  { TPM := some ⟨1⟩, ak := some ⟨1, {}⟩, ik := some ⟨2, {}⟩ }

/-- The driver object for the sample metadata, without IMA. -/
def sampleTpm : Tpm :=
  { Pcrs := [0, 2, 4], SigningCerts := [⟨[8]⟩, ⟨[9]⟩], MeasuringCerts := [⟨[6]⟩, ⟨[9]⟩],
    UseIma := false, ImaPcr := 10 }

/-- The PCR values the sample TPM returns: PCR `i` holds the digest `[i]`. -/
def samplePcrValues : List PCR :=
  (List.range 24).map fun (i : Nat) => ⟨(i : Int), [i]⟩

/-- The store under `s` after provisioning in the sample environment. -/
def sampleProvisionedStore : World :=
  { files := [("s/ik_encrypted.json", [2]), ("s/ak_encrypted.json", [1]),
              ("s/ikchain.pem", [1, 8, 1, 9]), ("s/akchain.pem", [1, 6, 1, 9])]
    dirs := ["s"] }

/-- A store under `s` that holds both chains and the AK blob but not `ik_encrypted.json`. -/
def sampleStoreWithoutIkBlob : World :=
  { files := [("s/ak_encrypted.json", [1]), ("s/ikchain.pem", [1, 8, 1, 9]),
              ("s/akchain.pem", [1, 6, 1, 9])]
    dirs := ["s"] }

/-! ## The signer methods of the driver -/

/-- Go `(*Tpm).GetSigningKeys`, on the package variable `ik` of the world. -/
def GetSigningKeys (env : Env) (w : World) (_t : Tpm) : Except String (PrivateKey × Bytes) :=
  match w.ik with
  | none => .error "failed to get IK Signer: not initialized"
  | some ik =>
    match env.ikPrivate ik with
    | .error _ => .error "failed to get IK Private"
    | .ok priv => .ok (priv, ik.params.Public)

/-- Go `(*Tpm).GetCertChain`. -/
def GetCertChain (t : Tpm) : List Certificate :=
  t.SigningCerts

/-! ## The CoAP server (`cmcd/coap.go`) -/

/-- Go `codes.Code`: the response codes that matter for the handlers. -/
inductive Code where
  | Content
  | BadRequest
  | InternalServerError
deriving DecidableEq, Repr

/-- Go `message.MediaType`. -/
inductive MediaType where
  | TextPlain
  | AppCBOR
  | AppJSON
deriving DecidableEq, Repr

/-- The message a handler hands to `WriteMessage`. -/
structure CoapMessage where
  code : Code
  token : Bytes
  contentFormat : MediaType
  body : Bytes
deriving DecidableEq, Repr

/-- Go `*mux.Message` as the handlers read it: `r.Token()` and the result of
`r.Message.ReadBody()`. -/
structure CoapRequest where
  Token : Bytes
  Body : Except String Bytes

/-- Go `api.AttestationRequest`, the field the handler reads. -/
structure AttestationRequest where
  Nonce : Bytes := []
deriving DecidableEq, Repr

/-- Go `api.AttestationResponse`. -/
structure AttestationResponse where
  AttestationReport : Bytes := []
deriving DecidableEq, Repr

/-- Go `api.VerificationRequest`. -/
structure VerificationRequest where
  Nonce : Bytes := []
  AttestationReport : Bytes := []
  Ca : Bytes := []
  Policies : Bytes := []
deriving DecidableEq, Repr

/-- Go `api.VerificationResponse`. -/
structure VerificationResponse where
  VerificationResult : Bytes := []
deriving DecidableEq, Repr

/-- Go `api.TLSSignRequest`. -/
structure TLSSignRequest where
  Content : Bytes := []
  Hashtype : Nat := 0
  PssOpts : Option Nat := none
deriving DecidableEq, Repr

/-- Go `api.TLSSignResponse`. -/
structure TLSSignResponse where
  SignedContent : Bytes := []
deriving DecidableEq, Repr

/-- Go `api.TLSCertRequest`. -/
structure TLSCertRequest where
  Id : String := ""
deriving DecidableEq, Repr

/-- Go `api.TLSCertResponse`. -/
structure TLSCertResponse where
  Certificate : List Bytes := []
deriving DecidableEq, Repr

/-- Go `ar.ArPlain`, the report that `ar.Generate` returns, as an uninterpreted value. -/
structure ArPlain where
  Raw : Bytes := []
deriving DecidableEq, Repr

/-- Go `ar.VerificationResult`, as an uninterpreted value. -/
structure VerificationResult where
  Success : Bool := false
  Raw : Bytes := []
deriving DecidableEq, Repr

/-- Go `ar.Measurement`, a measurement interface of the configuration. -/
structure Measurement where
  name : String := ""
deriving DecidableEq, Repr

/-- Go `crypto.SignerOpts`. -/
structure SignerOpts where
  hash : Nat := 0
  pss : Option Nat := none
deriving DecidableEq, Repr

/-- Go `ar.Signer`, the methods the handlers call, with the values they return. -/
structure Signer where
  GetSigningKeys : Except String (PrivateKey × Bytes)
  GetCertChain : List Certificate
deriving DecidableEq

/-- The driver as an `ar.Signer`. -/
def Tpm.asSigner (env : Env) (w : World) (t : Tpm) : Signer :=
  { GetSigningKeys := GetSigningKeys env w t
    GetCertChain := GetCertChain t }

/-- Go `ServerConfig`, the fields the handlers read; `Signer` is `none` for a nil
interface. -/
structure ServerConfig where
  Metadata : List Bytes
  MeasurementInterfaces : List Measurement
  Serializer : Serializer
  Signer : Option Signer
  PolicyEngineSelect : Nat

/-- The calls of the handlers into other packages, with their results. -/
structure CoapEnv where
  lib : Env
  cborUnmarshalAttestationRequest : Bytes → Except String AttestationRequest
  cborUnmarshalVerificationRequest : Bytes → Except String VerificationRequest
  cborUnmarshalTLSSignRequest : Bytes → Except String TLSSignRequest
  cborUnmarshalTLSCertRequest : Bytes → Except String TLSCertRequest
  cborMarshalAttestationResponse : AttestationResponse → Except String Bytes
  cborMarshalVerificationResponse : VerificationResponse → Except String Bytes
  cborMarshalTLSSignResponse : TLSSignResponse → Except String Bytes
  cborMarshalTLSCertResponse : TLSCertResponse → Except String Bytes
  jsonMarshal : VerificationResult → Except String Bytes
  arGenerate : Bytes → List Bytes → List Measurement → Serializer → Except String ArPlain
  arSign : ArPlain → Signer → Serializer → Except String Bytes
  arVerify : Bytes → Bytes → Bytes → Bytes → Nat → Serializer → VerificationResult
  HashToSignerOpts : Nat → Option Nat → Except String SignerOpts
  Sign : PrivateKey → Bytes → SignerOpts → Except String Bytes

/-- What a handler does that is visible outside of it; `Lock` and `Unlock` are the calls of
the methods `Lock()` and `Unlock()` of `ar.Signer`. -/
inductive CoapEvent where
  | arGenerate (nonce : Bytes)
  | arSign (report : ArPlain)
  | arVerify (report nonce ca policies : Bytes)
  | jsonMarshal (result : VerificationResult)
  | HashToSignerOpts (hashtype : Nat)
  | Lock
  | Unlock
  | GetSigningKeys
  | Sign (content : Bytes)
  | GetCertChain
  | WriteMessage (m : CoapMessage)
deriving DecidableEq, Repr

/-- A run of a handler: its events in order, and the message of the panic that ended it,
if one did. -/
structure Served where
  events : List CoapEvent
  fault : Option String := none
deriving DecidableEq, Repr

/-- The messages a run wrote, in order. -/
def Served.responses (s : Served) : List CoapMessage :=
  s.events.filterMap fun ev =>
    match ev with
    | .WriteMessage m => some m
    | _ => none

/-- Go `[]byte(text)`: the UTF-8 encoding of the text. -/
def stringBytes (text : String) : Bytes :=
  (text.data.flatMap String.utf8EncodeChar).map UInt8.toNat

/-- Go `SendCoapResponse`; a failure of `WriteMessage` is logged only. -/
def SendCoapResponse (r : CoapRequest) (payload : Bytes) : List CoapEvent :=
  [.WriteMessage
    { code := .Content
      token := r.Token
      contentFormat := .TextPlain
      body := payload }]

/-- Go `SendCoapError`; a failure of `WriteMessage` is logged only. -/
def SendCoapError (r : CoapRequest) (code : Code) (text : String) : List CoapEvent :=
  [.WriteMessage
    { code := code
      token := r.Token
      contentFormat := .TextPlain
      body := stringBytes text }]

/-- The message that `SendCoapError` writes when it is called with the code
`codes.InternalServerError`. -/
def internalServerError (r : CoapRequest) (text : String) : CoapMessage :=
  { code := .InternalServerError
    token := r.Token
    contentFormat := .TextPlain
    body := stringBytes text }

/-- Go `unmarshalCoapPayload`, for the `cbor.Unmarshal` of the payload type at hand. -/
def unmarshalCoapPayload {α : Type} (cborUnmarshal : Bytes → Except String α)
    (r : CoapRequest) : Except String α :=
  match r.Body with
  | .error err => .error ("failed to read CoAP message body: " ++ err)
  | .ok body =>
    match cborUnmarshal body with
    | .error err => .error ("failed to unmarshal CoAP message body: " ++ err)
    | .ok payload => .ok payload

/-- Go `Attest`. -/
def Attest (env : CoapEnv) (serverConfig : ServerConfig) (r : CoapRequest) : Served :=
  match unmarshalCoapPayload env.cborUnmarshalAttestationRequest r with
  | .error err =>
    { events := SendCoapError r .InternalServerError
        ("failed to unmarshal CoAP payload: " ++ err) }
  | .ok req =>
    match env.arGenerate req.Nonce serverConfig.Metadata serverConfig.MeasurementInterfaces
        serverConfig.Serializer with
    | .error err =>
      { events := [.arGenerate req.Nonce] ++
          SendCoapError r .InternalServerError
            ("failed to generate attestation report: " ++ err) }
    | .ok report =>
      match serverConfig.Signer with
      | none =>
        { events := [.arGenerate req.Nonce] ++
            SendCoapError r .InternalServerError
              "Failed to sign attestation report: No valid signer specified in config" }
      | some signer =>
        match env.arSign report signer serverConfig.Serializer with
        | .error err =>
          { events := [.arGenerate req.Nonce, .arSign report] ++
              SendCoapError r .InternalServerError
                ("Failed to sign attestation report: " ++ err) }
        | .ok data =>
          let resp : AttestationResponse := { AttestationReport := data }
          match env.cborMarshalAttestationResponse resp with
          | .error err =>
            { events := [.arGenerate req.Nonce, .arSign report] ++
                SendCoapError r .InternalServerError ("failed to marshal message: " ++ err) }
          | .ok payload =>
            { events := [.arGenerate req.Nonce, .arSign report] ++ SendCoapResponse r payload }

/-- Go `Verify`; `string(req.AttestationReport)` holds the bytes of the report. -/
def Verify (env : CoapEnv) (serverConfig : ServerConfig) (r : CoapRequest) : Served :=
  match unmarshalCoapPayload env.cborUnmarshalVerificationRequest r with
  | .error err =>
    { events := SendCoapError r .InternalServerError
        ("failed to unmarshal CoAP payload: " ++ err) }
  | .ok req =>
    let result := env.arVerify req.AttestationReport req.Nonce req.Ca req.Policies
      serverConfig.PolicyEngineSelect serverConfig.Serializer
    let called : List CoapEvent :=
      [.arVerify req.AttestationReport req.Nonce req.Ca req.Policies, .jsonMarshal result]
    match env.jsonMarshal result with
    | .error err =>
      { events := called ++
          SendCoapError r .InternalServerError
            ("Verifier: failed to marshal Attestation Result: " ++ err) }
    | .ok data =>
      let resp : VerificationResponse := { VerificationResult := data }
      match env.cborMarshalVerificationResponse resp with
      | .error err =>
        { events := called ++
            SendCoapError r .InternalServerError ("failed to marshal message: " ++ err) }
      | .ok payload => { events := called ++ SendCoapResponse r payload }

/-- Go `TlsSign`; the method call on a nil `serverConfig.Signer` panics. -/
def TlsSign (env : CoapEnv) (serverConfig : ServerConfig) (r : CoapRequest) : Served :=
  match unmarshalCoapPayload env.cborUnmarshalTLSSignRequest r with
  | .error err =>
    { events := SendCoapError r .InternalServerError
        ("failed to unmarshal CoAP payload: " ++ err) }
  | .ok req =>
    match env.HashToSignerOpts req.Hashtype req.PssOpts with
    | .error err =>
      { events := [.HashToSignerOpts req.Hashtype] ++
          SendCoapError r .InternalServerError
            ("failed to choose requested hash function: " ++ err) }
    | .ok opts =>
      match serverConfig.Signer with
      | none =>
        { events := [.HashToSignerOpts req.Hashtype]
          fault := some "nil pointer dereference" }
      | some signer =>
        match signer.GetSigningKeys with
        | .error err =>
          { events := [.HashToSignerOpts req.Hashtype, .GetSigningKeys] ++
              SendCoapError r .InternalServerError ("failed to get IK: " ++ err) }
        | .ok (tlsKeyPriv, _) =>
          let called : List CoapEvent :=
            [.HashToSignerOpts req.Hashtype, .GetSigningKeys, .Sign req.Content]
          match env.Sign tlsKeyPriv req.Content opts with
          | .error err =>
            { events := called ++
                SendCoapError r .InternalServerError ("failed to sign: " ++ err) }
          | .ok signature =>
            let resp : TLSSignResponse := { SignedContent := signature }
            match env.cborMarshalTLSSignResponse resp with
            | .error err =>
              { events := called ++
                  SendCoapError r .InternalServerError ("failed to marshal message: " ++ err) }
            | .ok payload => { events := called ++ SendCoapResponse r payload }

/-- Go `TlsCert`; `req.Id` is logged only, and the method call on a nil
`serverConfig.Signer` panics. -/
def TlsCert (env : CoapEnv) (serverConfig : ServerConfig) (r : CoapRequest) : Served :=
  match unmarshalCoapPayload env.cborUnmarshalTLSCertRequest r with
  | .error err =>
    { events := SendCoapError r .InternalServerError
        ("failed to unmarshal CoAP payload: " ++ err) }
  | .ok _req =>
    match serverConfig.Signer with
    | none => { events := [], fault := some "nil pointer dereference" }
    | some signer =>
      let certChain := signer.GetCertChain
      let resp : TLSCertResponse := { Certificate := WriteCertsPem env.lib certChain }
      match env.cborMarshalTLSCertResponse resp with
      | .error err =>
        { events := [.GetCertChain] ++
            SendCoapError r .InternalServerError ("failed to marshal message: " ++ err) }
      | .ok payload => { events := [.GetCertChain] ++ SendCoapResponse r payload }

/-- The four handlers of the router, by the path they are registered under. -/
inductive Handler where
  | Attest
  | Verify
  | TLSSign
  | TLSCert
deriving DecidableEq, Repr

/-- The routes of `Serve`. -/
def Handler.serve (h : Handler) (env : CoapEnv) (serverConfig : ServerConfig)
    (r : CoapRequest) : Served :=
  match h with
  | .Attest => Cmc.Attest env serverConfig r
  | .Verify => Cmc.Verify env serverConfig r
  | .TLSSign => TlsSign env serverConfig r
  | .TLSCert => TlsCert env serverConfig r

/-! ## Samples for the driver with IMA and for the CoAP server -/

/-- The sample environment with two IMA runtime digests of 32 bytes, `05 00 .. 00` and
`06 00 .. 00`. -/
def sampleEnvIma : Env :=
  { sampleEnv with
    imaGetRuntimeDigests := ([5 :: List.replicate 31 0, 6 :: List.replicate 31 0], none) }

/-- The sample driver with IMA enabled on PCR 2. -/
def sampleTpmIma : Tpm := { sampleTpm with UseIma := true, ImaPcr := 2 }

/-- The sample environment with a TPM that does not load the AK blob. -/
def sampleEnvLoadAkFails : Env := { sampleEnv with tpmLoadAK := fun _ => .error "bad blob" }

/-- The sample environment with three CA certificates from the enrollment server. -/
def sampleEnvThreeCas : Env := { sampleEnv with estCaCerts := fun _ => .ok [⟨[9]⟩, ⟨[10]⟩, ⟨[11]⟩] }

/-- A toy CBOR for the CoAP samples: a request body is the field itself, a response is the
field behind the tag byte `161`; `ar.Generate` accepts every nonce. -/
def sampleCoapEnv : CoapEnv where
  lib := sampleEnv
  cborUnmarshalAttestationRequest body := .ok { Nonce := body }
  cborUnmarshalVerificationRequest body :=
    match body with
    | [a, b, c, d] => .ok { Nonce := [a], AttestationReport := [b], Ca := [c], Policies := [d] }
    | _ => .error "unexpected EOF"
  cborUnmarshalTLSSignRequest body :=
    match body with
    | hashtype :: content => .ok { Content := content, Hashtype := hashtype }
    | [] => .error "unexpected EOF"
  cborUnmarshalTLSCertRequest body :=
    match body with
    | [1] => .ok { Id := "one" }
    | [2] => .ok { Id := "two" }
    | _ => .error "unexpected EOF"
  cborMarshalAttestationResponse resp := .ok (161 :: resp.AttestationReport)
  cborMarshalVerificationResponse resp := .ok (161 :: resp.VerificationResult)
  cborMarshalTLSSignResponse resp := .ok (161 :: resp.SignedContent)
  cborMarshalTLSCertResponse resp := .ok (161 :: resp.Certificate.flatten)
  jsonMarshal result := .ok (123 :: (if result.Success then 1 else 0) :: result.Raw ++ [125])
  arGenerate nonce _ _ _ := .ok { Raw := nonce ++ [42] }
  arSign report _ _ := .ok (report.Raw ++ [99])
  arVerify report nonce _ _ _ _ := { Success := true, Raw := report ++ nonce }
  HashToSignerOpts hashtype pss :=
    if hashtype < 3 then .ok { hash := hashtype, pss := pss } else .error "hash function not implemented"
  Sign _ content _ := .ok (content ++ [7])

/-- The toy environment with an `ar.Generate` that rejects every nonce. -/
def sampleCoapEnvStrict : CoapEnv :=
  { sampleCoapEnv with arGenerate := fun _ _ _ _ => .error "nonce too short" }

/-- A server configuration whose signer is the sample driver with its keys loaded. -/
def sampleServerConfig : ServerConfig where
  Metadata := sampleMetadata
  MeasurementInterfaces := [{ name := "tpm" }]
  Serializer := sampleSerializer
  Signer := some (sampleTpm.asSigner sampleEnv sampleOpenWorld)
  PolicyEngineSelect := 0

/-- A request with token `[7, 7]` and the given body. -/
def sampleRequest (body : Bytes) : CoapRequest :=
  { Token := [7, 7], Body := .ok body }

/-! ## The qualified name of the AK -/

/-- Go `tpm2.AlgSHA256`. -/
def AlgSHA256 : Nat := 0x000B

/-- Go `binary.BigEndian.PutUint16` on a fresh buffer of two bytes, for the `uint16`
conversion of `v`. -/
def putUint16 (v : Nat) : Bytes :=
  [v % 65536 / 256, v % 256]

/-- Go `GetAkQualifiedName`; reading `Digest.Value` through a nil `Digest` panics. -/
def GetAkQualifiedName (env : Env) : M Bytes := do
  let w ← getWorld
  match w.TPM, w.ak with
  | none, _ => fail (Err.new .notOpened)
  | some _, none => fail (Err.new .akMissing)
  | some _, some ak =>
    let pub := ak.params.Public
    let tpm2Pub ← ext .decodePublic (env.tpm2DecodePublic pub)
    if tpm2Pub.NameAlg ≠ AlgSHA256 then fail (Err.new .unsupportedNameAlg)
    else
      let alg := putUint16 tpm2Pub.NameAlg
      let digestPub := env.sha256Sum256 pub
      let name := alg ++ digestPub.val
      let createData := ak.params.CreateData
      let tpm2CreateData ← ext .decodeCreationData (env.tpm2DecodeCreationData createData)
      let parentAlg := putUint16 tpm2CreateData.ParentNameAlg
      match tpm2CreateData.ParentQualifiedName.Digest with
      | none => goPanic "nil pointer dereference"
      | some digest =>
        let parentQualifiedName := parentAlg ++ digest.Value
        let buf := parentQualifiedName ++ name
        let qualifiedNameDigest := env.sha256Sum256 buf
        let qualifiedName := alg ++ qualifiedNameDigest.val
        pure qualifiedName

/-! ## The connection options (`attestedtls/config.go`) -/

/-- Go `CmcApi`, an implementation of the interface, known by the name it is registered
under. -/
structure CmcApi where
  name : String
deriving DecidableEq, Repr

/-- Go `cmcConfig`; `cmcApi` is `none` for a nil interface. -/
structure cmcConfig where
  cmcAddr : String
  cmcApi : Option CmcApi
  ca : Bytes
  policies : Bytes
  mtls : Bool
deriving DecidableEq, Repr

/-- Go `ConnectionOption[T]`, a function that updates the `T` it points to. -/
def ConnectionOption (T : Type) : Type := T → T

/-- Go `WithCmcAddr`. -/
def WithCmcAddr (address : String) : ConnectionOption cmcConfig :=
  fun c => { c with cmcAddr := address }

/-- Go `WithCmcApi`; `cmcApis` is the package variable of that name, a map that yields nil
for a key it does not hold. -/
def WithCmcApi (cmcApis : Nat → Option CmcApi) (api : Nat) : ConnectionOption cmcConfig :=
  fun c => { c with cmcApi := cmcApis api }

/-- Go `WithCmcCa`. -/
def WithCmcCa (pem : Bytes) : ConnectionOption cmcConfig :=
  fun c => { c with ca := pem }

/-- Go `WithCmcPolicies`. -/
def WithCmcPolicies (policies : Bytes) : ConnectionOption cmcConfig :=
  fun c => { c with policies := policies }

/-- Go `WithMtls`. -/
def WithMtls (mtls : Bool) : ConnectionOption cmcConfig :=
  fun c => { c with mtls := mtls }

/-! ## The mutex of the driver -/

/-- What a thread does with the mutex `Tpm.Mu` and with the TPM. -/
inductive TpmOp where
  | lock
  | unlock
  | command
deriving DecidableEq, Repr

/-- The operation behind an event of the driver, if it is one. -/
def Event.op (ev : Event) : Option TpmOp :=
  match ev with
  | .lock => some .lock
  | .unlock => some .unlock
  | ev => if ev.touchesTpm then some .command else none

/-- The operation behind an event of a handler, if it is one: the signature with the IK is
a command to the TPM. -/
def CoapEvent.op (ev : CoapEvent) : Option TpmOp :=
  match ev with
  | .Lock => some .lock
  | .Unlock => some .unlock
  | .Sign _ => some .command
  | _ => none

/-- Whether a thread that runs the operations issues each command to the TPM while it
holds the mutex; `held` says whether it holds the mutex at the start. -/
def underMutex (held : Bool) : List TpmOp → Bool
  | [] => true
  | .lock :: rest => underMutex true rest
  | .unlock :: rest => underMutex false rest
  | .command :: rest => held && underMutex held rest

/-- Whether the mutex permits a schedule of the operations of several threads: a thread
locks only the free mutex, and only the holder unlocks.  `holder` is the thread that holds
the mutex at the start. -/
def permitted (holder : Option Nat) : List (Nat × TpmOp) → Bool
  | [] => true
  | (thread, .lock) :: rest => holder.isNone && permitted (some thread) rest
  | (thread, .unlock) :: rest => (holder == some thread) && permitted none rest
  | (_, .command) :: rest => permitted holder rest

/-- Whether no command of a schedule falls into the critical section of another thread or
is issued while nobody holds the mutex. -/
def exclusive (holder : Option Nat) : List (Nat × TpmOp) → Bool
  | [] => true
  | (thread, .lock) :: rest => exclusive (some thread) rest
  | (_, .unlock) :: rest => exclusive none rest
  | (thread, .command) :: rest => (holder == some thread) && exclusive holder rest

/-- The operations of one thread in a schedule. -/
def opsOf (thread : Nat) (schedule : List (Nat × TpmOp)) : List TpmOp :=
  (schedule.filter fun step => step.1 == thread).map fun step => step.2

/-! ## The metadata objects that parse -/

/-- The `Type` of each metadata object whose payload and `Type` can be parsed, in the
order of the metadata. -/
def parsedTypes (s : Serializer) (metadata : List Bytes) : List String :=
  metadata.filterMap fun m =>
    match s.GetPayload m with
    | .error _ => none
    | .ok payload =>
      match s.UnmarshalType payload with
      | .error _ => none
      | .ok t => some t

/-- Whether the payload and the `Type` of a metadata object can be parsed. -/
def parses (s : Serializer) (m : Bytes) : Bool :=
  match s.GetPayload m with
  | .error _ => false
  | .ok payload =>
    match s.UnmarshalType payload with
    | .error _ => false
    | .ok _ => true

/-! ## More samples -/

/-- The sample serializer with an OS manifest reader that rejects a body of odd length. -/
def sampleSerializerStrict : Serializer :=
  { sampleSerializer with
    UnmarshalOsManifest := fun payload _ =>
      match payload with
      | tag :: body =>
        if body.length % 2 = 1 then .error "unexpected end of input"
        else .ok { Type_ := sampleTypeName tag, ReferenceValues := sampleReferenceValues body }
      | [] => .error "empty payload" }

/-- An open TPM with an AK whose public area names SHA-256 (`11`) and whose creation data
carry the parent algorithm `11` and the parent digest `[1, 2, 3]`. -/
def sampleNamedWorld : World :=
  { TPM := some ⟨1⟩, ak := some ⟨1, { Public := [11, 5], CreateData := [11, 1, 2, 3] }⟩ }

/-- The sample environment whose IMA reader fails and returns no digests. -/
def sampleEnvImaFails : Env :=
  { sampleEnv with imaGetRuntimeDigests := ([], some "no such file or directory") }

/-- The sample registry of CMC APIs: gRPC under `0`, CoAP under `1`. -/
def sampleCmcApis (api : Nat) : Option CmcApi :=
  if api = 0 then some ⟨"grpc"⟩ else if api = 1 then some ⟨"coap"⟩ else none

/-- A sample connection configuration. -/
def sampleCmcConfig : cmcConfig :=
  { cmcAddr := "127.0.0.1:9955", cmcApi := some ⟨"grpc"⟩, ca := [], policies := [], mtls := false }

/-- A schedule of an attestation (thread 1) and a TLS signature (thread 2): the signature
is issued between the PCR read and the quote. -/
def sampleSchedule : List (Nat × TpmOp) :=
  [(1, .lock), (1, .command), (2, .command), (1, .command), (1, .unlock)]

/-- Between `w` and `w'` no file of the store was written or changed and neither `saveCerts`
nor `saveKeys` was entered: the files are the same and no event of saving occurred. -/
def nothingSaved (w w' : World) : Prop :=
  w'.files = w.files ∧ (∀ ev ∈ newEvents w w', ev.isSave = false) ∧
    Event.call .saveCerts ∉ newEvents w w' ∧ Event.call .saveKeys ∉ newEvents w w'

/-- The sample environment with an enrollment server that does not answer the request for
the CA certificates. -/
def sampleEnvNoServer : Env := { sampleEnv with estCaCerts := fun _ => .error "no route" }

/-- The sample environment with an enrollment server that returns no CA certificate. -/
def sampleEnvNoCas : Env := { sampleEnv with estCaCerts := fun _ => .ok [] }

/-- The sample configuration with a storage path that is not clean: `s/` names the folder
`s`. -/
def sampleConfigSlash : Config := { sampleConfig sampleMetadata with StoragePath := "s/" }

/-! ## Running computations -/

@[simp] theorem run_pure {α : Type} (a : α) (w : World) : (pure a : M α) w = (.ok a, w) := rfl

@[simp] theorem run_bind {α β : Type} (m : M α) (f : α → M β) (w : World) :
    (m >>= f) w = match m w with
      | (.ok a, w1) => f a w1
      | (.error e, w1) => (.error e, w1)
      | (.panic msg, w1) => (.panic msg, w1) := rfl

@[simp] theorem run_emit (ev : Event) (w : World) :
    emit ev w = (.ok (), { w with trace := w.trace ++ [ev] }) := rfl

@[simp] theorem run_fail {α : Type} (e : Err) (w : World) : (fail e : M α) w = (.error e, w) := rfl

@[simp] theorem run_goPanic {α : Type} (msg : String) (w : World) :
    (goPanic msg : M α) w = (.panic msg, w) := rfl

@[simp] theorem run_getWorld (w : World) : getWorld w = (.ok w, w) := rfl

@[simp] theorem run_modifyWorld (f : World → World) (w : World) :
    modifyWorld f w = (.ok (), f w) := rfl

@[simp] theorem run_ext_ok {α : Type} (s : Site) (a : α) (w : World) :
    ext s (.ok a) w = (.ok a, w) := rfl

@[simp] theorem run_ext_error {α : Type} (s : Site) (msg : String) (w : World) :
    (ext s (.error msg) : M α) w = (.error (Err.new s msg), w) := rfl

theorem run_ite {α : Type} (c : Prop) [Decidable c] (m1 m2 : M α) (w : World) :
    (if c then m1 else m2) w = if c then m1 w else m2 w := by
  split <;> rfl

theorem Step.refl (P : Event → Bool) (w : World) : Step P w w :=
  ⟨[], by simp, by simp, fun _ h => h, fun _ => rfl, fun _ => rfl⟩

theorem Step.trans {P : Event → Bool} {a b c : World} (h1 : Step P a b) (h2 : Step P b c) :
    Step P a c := by
  obtain ⟨e1, t1, p1, g1, f1, d1⟩ := h1
  obtain ⟨e2, t2, p2, g2, f2, d2⟩ := h2
  refine ⟨e1 ++ e2, by rw [t2, t1, List.append_assoc], ?_, fun p hp => g2 p (g1 p hp), ?_, ?_⟩
  · intro ev hev
    rcases List.mem_append.1 hev with h | h
    · exact p1 ev h
    · exact p2 ev h
  · intro h
    rw [f2 (fun ev hev => h ev (List.mem_append.2 (Or.inr hev))),
      f1 (fun ev hev => h ev (List.mem_append.2 (Or.inl hev)))]
  · intro h
    rw [d2 (fun ev hev => h ev (List.mem_append.2 (Or.inr hev))),
      d1 (fun ev hev => h ev (List.mem_append.2 (Or.inl hev)))]

theorem Steps.pure {α : Type} (P : Event → Bool) (a : α) : Steps P (pure a : M α) :=
  ⟨fun w => Step.refl P w⟩

theorem Steps.fail {α : Type} (P : Event → Bool) (e : Err) : Steps P (fail e : M α) :=
  ⟨fun w => Step.refl P w⟩

theorem Steps.goPanic {α : Type} (P : Event → Bool) (msg : String) :
    Steps P (goPanic msg : M α) :=
  ⟨fun w => Step.refl P w⟩

theorem Steps.getWorld (P : Event → Bool) : Steps P getWorld :=
  ⟨fun w => Step.refl P w⟩

theorem Steps.ext {α : Type} (P : Event → Bool) (s : Site) (r : Except String α) :
    Steps P (ext s r) := by
  constructor
  intro w
  cases r <;> exact Step.refl P w

theorem Steps.emit (P : Event → Bool) (ev : Event) (h : P ev = true) :
    Steps P (emit ev) := by
  constructor
  intro w
  refine ⟨[ev], rfl, by simpa using h, fun p hp => hp, fun _ => rfl, fun _ => rfl⟩

theorem Steps.bind {α β : Type} {P : Event → Bool} {m : M α} {f : α → M β}
    (hm : Steps P m) (hf : ∀ a, Steps P (f a)) : Steps P (m >>= f) := by
  constructor
  intro w
  have h1 := hm.run w
  rw [run_bind]
  rcases hmw : m w with ⟨r, w1⟩
  rw [hmw] at h1
  cases r with
  | ok a => exact Step.trans h1 ((hf a).run w1)
  | error e => exact h1
  | panic msg => exact h1

theorem Steps.wrapping {α : Type} {P : Event → Bool} {m : M α} (s : Site) (hm : Steps P m) :
    Steps P (wrapping s m) := by
  constructor
  intro w
  have h1 := hm.run w
  unfold Cmc.wrapping
  rcases hmw : m w with ⟨r, w1⟩
  rw [hmw] at h1
  cases r <;> exact h1

theorem Steps.ite {α : Type} {P : Event → Bool} (c : Prop) [Decidable c] {m1 m2 : M α}
    (h1 : Steps P m1) (h2 : Steps P m2) : Steps P (if c then m1 else m2) := by
  split
  · exact h1
  · exact h2

/-- A change of the package variables only. -/
theorem Steps.modifyWorld (P : Event → Bool) (f : World → World)
    (ht : ∀ w, (f w).trace = w.trace) (hf : ∀ w, (f w).files = w.files)
    (hd : ∀ w, (f w).dirs = w.dirs) : Steps P (modifyWorld f) := by
  constructor
  intro w
  refine ⟨[], by simp [ht], by simp, fun p hp => ?_, fun _ => hf w, fun _ => hd w⟩
  simpa [World.pathExists, hf, hd] using hp

theorem Steps.osStat (P : Event → Bool) (path : String) (h : P (.stat path) = true) :
    Steps P (osStat path) := by
  constructor
  intro w
  exact ⟨[.stat path], rfl, by simpa using h, fun p hp => hp, fun _ => rfl, fun _ => rfl⟩

theorem Steps.osReadFile (P : Event → Bool) (path : String) (h : P (.readFile path) = true) :
    Steps P (osReadFile path) := by
  constructor
  intro w
  unfold Cmc.osReadFile
  simp only [run_bind, run_emit, run_getWorld]
  cases List.lookup path w.files <;>
    exact ⟨[.readFile path], rfl, by simpa using h, fun p hp => hp, fun _ => rfl, fun _ => rfl⟩

theorem Steps.osMkdirAll (P : Event → Bool) (env : Env) (path : String)
    (h : P (.mkdirAll path) = true) : Steps P (osMkdirAll env path) := by
  constructor
  intro w
  unfold Cmc.osMkdirAll
  simp only [run_bind, run_emit]
  by_cases hm : env.mkdirAll path = true
  · simp only [hm, if_true, run_bind, run_modifyWorld, run_pure]
    refine ⟨[.mkdirAll path], rfl, by simpa using h, fun p hp => ?_, fun _ => rfl,
      fun hh => absurd hh (by simp [Event.isMkdir])⟩
    simp only [World.pathExists, Bool.or_eq_true] at hp ⊢
    rcases hp with hp | hp
    · exact Or.inl hp
    · right
      simp only [List.contains_cons, Bool.or_eq_true]
      exact Or.inr hp
  · simp only [hm, run_pure]
    exact ⟨[.mkdirAll path], rfl, by simpa using h, fun p hp => hp, fun _ => rfl, fun _ => rfl⟩

theorem lookup_cons_isSome (files : List (String × Bytes)) (q p : String) (d : Bytes)
    (h : (files.lookup p).isSome = true) : (((q, d) :: files).lookup p).isSome = true := by
  simp only [List.lookup]
  split <;> simp_all

theorem Steps.osWriteFile (P : Event → Bool) (env : Env) (path : String) (data : Bytes)
    (h : P (.writeFile path data) = true) : Steps P (osWriteFile env path data) := by
  constructor
  intro w
  have hsave : ¬ (∀ ev ∈ [Event.writeFile path data], ev.isSave = false) := by
    simp [Event.isSave]
  unfold Cmc.osWriteFile
  simp only [run_bind, run_emit]
  cases env.writeOutcome path data with
  | written =>
    refine ⟨[.writeFile path data], rfl, by simpa using h, fun p hp => ?_,
      fun hh => absurd hh hsave, fun _ => rfl⟩
    simp only [run_bind, run_modifyWorld, run_pure, World.pathExists, Bool.or_eq_true] at hp ⊢
    rcases hp with hp | hp
    · exact Or.inl (lookup_cons_isSome _ _ _ _ hp)
    · exact Or.inr hp
  | failUntouched =>
    exact ⟨[.writeFile path data], rfl, by simpa using h, fun p hp => hp, fun _ => rfl,
      fun _ => rfl⟩
  | failTruncated n =>
    refine ⟨[.writeFile path data], rfl, by simpa using h, fun p hp => ?_,
      fun hh => absurd hh hsave, fun _ => rfl⟩
    simp only [run_bind, run_modifyWorld, run_pure, World.pathExists, Bool.or_eq_true] at hp ⊢
    rcases hp with hp | hp
    · exact Or.inl (lookup_cons_isSome _ _ _ _ hp)
    · exact Or.inr hp


theorem Steps.mono {α : Type} {P Q : Event → Bool} {m : M α} (h : ∀ ev, P ev = true → Q ev = true)
    (hm : Steps P m) : Steps Q m := by
  constructor
  intro w
  obtain ⟨evs, t, p, g, f, d⟩ := hm.run w
  exact ⟨evs, t, fun ev hev => h ev (p ev hev), g, f, d⟩

theorem createKeys_steps (env : Env) (keyConfig : String) :
    Steps Event.isProvisioning (createKeys env keyConfig) := by
  unfold createKeys
  repeat (first
    | exact Steps.pure _ _ | exact Steps.fail _ _ | exact Steps.goPanic _ _
    | exact Steps.ext _ _ _ | exact Steps.getWorld _
    | exact Steps.emit _ _ rfl
    | apply Steps.bind | intro _ | split)

theorem assignCreatedKeys_steps (env : Env) (keyConfig : String) :
    Steps Event.isProvisioning (assignCreatedKeys env keyConfig) := by
  constructor
  intro w
  have h := (createKeys_steps env keyConfig).run w
  unfold assignCreatedKeys
  rcases hc : createKeys env keyConfig w with ⟨r, w1⟩
  rw [hc] at h
  obtain ⟨evs, t, p, g, f, d⟩ := h
  cases r with
  | ok a => exact ⟨evs, t, p, g, f, d⟩
  | error e => exact ⟨evs, t, p, g, f, d⟩
  | panic msg => exact ⟨evs, t, p, g, f, d⟩

theorem provisionTpm_steps (env : Env) (url : String) (akCsr ikCsr : CertificateRequest) :
    Steps Event.isProvisioning (provisionTpm env url akCsr ikCsr) := by
  unfold provisionTpm GetTpmInfo ActivateCredential
  repeat (first
    | exact Steps.pure _ _ | exact Steps.fail _ _ | exact Steps.goPanic _ _
    | exact Steps.ext _ _ _ | exact Steps.getWorld _
    | exact Steps.emit _ _ rfl
    | apply Steps.wrapping
    | apply Steps.bind | intro _ | split)

/-! ## `getTpmPcrs`: lemmas -/

theorem exists_eq_true_iff (i : Int) (arr : List Int) : «exists» i arr = true ↔ i ∈ arr := by
  induction arr with
  | nil => simp [«exists»]
  | cons a rest ih =>
    unfold «exists»
    by_cases h : a = i
    · simp [h]
    · simp [h, ih, Ne.symm h]

theorem collectPcrs_mem (rvs : List ReferenceValue) (pcrs : List Int) (x : Int) :
    x ∈ collectPcrs rvs pcrs ↔
      x ∈ pcrs ∨ ∃ ver ∈ rvs, ver.Type_ = "TPM Reference Value" ∧ ver.Pcr = some x := by
  induction rvs generalizing pcrs with
  | nil => simp [collectPcrs]
  | cons ver rest ih =>
    unfold collectPcrs
    by_cases ht : ver.Type_ = "TPM Reference Value"
    · cases hp : ver.Pcr with
      | none => simp [ht, hp, ih]
      | some p =>
        by_cases he : «exists» p pcrs = true
        · have hmem := (exists_eq_true_iff p pcrs).1 he
          simp only [ht, hp, he, ne_eq, not_true_eq_false, false_or, Bool.not_true,
            Bool.false_eq_true, ↓reduceIte, reduceCtorEq]
          rw [ih]
          constructor
          · rintro (h | ⟨v, hv, h⟩)
            · exact Or.inl h
            · exact Or.inr ⟨v, List.mem_cons_of_mem _ hv, h⟩
          · rintro (h | ⟨v, hv, h1, h2⟩)
            · exact Or.inl h
            · rcases List.mem_cons.1 hv with rfl | hv
              · rw [hp] at h2; injection h2 with h2; subst h2; exact Or.inl hmem
              · exact Or.inr ⟨v, hv, h1, h2⟩
        · simp only [Bool.not_eq_true] at he
          simp only [ht, hp, he, ne_eq, not_true_eq_false, false_or, Bool.not_false,
            ↓reduceIte, reduceCtorEq]
          rw [ih]
          constructor
          · rintro (h | ⟨v, hv, h⟩)
            · rcases List.mem_append.1 h with h | h
              · exact Or.inl h
              · have hx : x = p := by simpa using h
                subst hx
                exact Or.inr ⟨ver, List.mem_cons_self _ _, ht, hp⟩
            · exact Or.inr ⟨v, List.mem_cons_of_mem _ hv, h⟩
          · rintro (h | ⟨v, hv, h1, h2⟩)
            · exact Or.inl (List.mem_append.2 (Or.inl h))
            · rcases List.mem_cons.1 hv with rfl | hv
              · rw [hp] at h2; injection h2 with h2; subst h2
                exact Or.inl (List.mem_append.2 (Or.inr (List.mem_singleton_self _)))
              · exact Or.inr ⟨v, hv, h1, h2⟩
    · simp [ht, ih]

theorem collectPcrs_nodup (rvs : List ReferenceValue) (pcrs : List Int) (h : pcrs.Nodup) :
    (collectPcrs rvs pcrs).Nodup := by
  induction rvs generalizing pcrs with
  | nil => simpa [collectPcrs] using h
  | cons ver rest ih =>
    unfold collectPcrs
    split
    · exact ih pcrs h
    · split
      · exact ih pcrs h
      · rename_i p _
        by_cases he : «exists» p pcrs = true
        · simp only [he]; exact ih pcrs h
        · simp only [Bool.not_eq_true] at he
          have hnot : p ∉ pcrs := fun hm => by
            have := (exists_eq_true_iff p pcrs).2 hm
            simp [he] at this
          simp only [he]
          apply ih
          exact List.Nodup.append h (List.nodup_singleton p) (by simpa using hnot)

theorem sortInts_mem (l : List Int) (x : Int) : x ∈ sortInts l ↔ x ∈ l :=
  (List.perm_insertionSort (· ≤ ·) l).mem_iff

theorem sortInts_strict (l : List Int) (h : l.Nodup) : (sortInts l).Pairwise (· < ·) := by
  have hs : (sortInts l).Sorted (· ≤ ·) := List.sorted_insertionSort (· ≤ ·) l
  have hn : (sortInts l).Nodup := (List.perm_insertionSort (· ≤ ·) l).nodup_iff.2 h
  exact hs.lt_of_le hn

theorem getTpmPcrs_ok (c : Config) (pcrs : List Int) (h : getTpmPcrs c = .ok pcrs) :
    ∃ rtmMan osMan, loadManifests c.Serializer c.Metadata {} {} = .ok (rtmMan, osMan) ∧
      osMan.Type_ = "OS Manifest" ∧ rtmMan.Type_ = "RTM Manifest" ∧
      pcrs = sortInts (collectPcrs osMan.ReferenceValues (collectPcrs rtmMan.ReferenceValues [])) := by
  unfold getTpmPcrs at h
  split at h
  · simp at h
  · rename_i rtmMan osMan hl
    split at h
    · simp at h
    · rename_i hty
      simp only [not_or, not_not] at hty
      refine ⟨rtmMan, osMan, hl, hty.1, hty.2, ?_⟩
      simpa using h.symm

/-! ## `getTpmPcrs`: the PCR set -/

/-- C1: whenever `getTpmPcrs` succeeds, the returned PCR list is strictly ascending: it is
sorted in ascending order and holds no index twice. -/
theorem getTpmPcrs_strictly_ascending (c : Config) (pcrs : List Int)
    (h : getTpmPcrs c = .ok pcrs) :
    pcrs.Pairwise (· < ·) ∧ pcrs.Sorted (· ≤ ·) ∧ pcrs.Nodup := by
  obtain ⟨rtmMan, osMan, -, -, -, rfl⟩ := getTpmPcrs_ok c pcrs h
  have hn : (collectPcrs osMan.ReferenceValues (collectPcrs rtmMan.ReferenceValues [])).Nodup :=
    collectPcrs_nodup _ _ (collectPcrs_nodup _ _ List.nodup_nil)
  exact ⟨sortInts_strict _ hn, List.sorted_insertionSort (· ≤ ·) _,
    (List.perm_insertionSort (· ≤ ·) _).nodup_iff.2 hn⟩

/-- C1 at the sample metadata: the PCRs 4, 0 of the RTM manifest and 4, 2 of the OS manifest
come out as `[0, 2, 4]`. -/
theorem getTpmPcrs_strictly_ascending_witness :
    getTpmPcrs (sampleConfig sampleMetadata) = .ok [0, 2, 4] ∧
      (([0, 2, 4] : List Int).Pairwise (· < ·) ∧ ([0, 2, 4] : List Int).Sorted (· ≤ ·) ∧
        ([0, 2, 4] : List Int).Nodup) :=
  ⟨by decide, getTpmPcrs_strictly_ascending (sampleConfig sampleMetadata) [0, 2, 4] (by decide)⟩

/-- C2 as stated fails: with an empty RTM manifest, an empty OS manifest and an App manifest
whose TPM reference value names PCR 5, `getTpmPcrs` returns the empty list although PCR 5
is referenced by a loaded manifest. -/
theorem getTpmPcrs_ignores_app_manifest :
    getTpmPcrs (sampleConfig [[0, 1], [0, 2], [0, 3, 1, 6]]) = .ok [] ∧
      ¬ (∀ i : Int, i ∈ ([] : List Int) ↔
          i ∈ referencedPcrs sampleSerializer [[0, 1], [0, 2], [0, 3, 1, 6]]) := by
  refine ⟨by decide, fun h => ?_⟩
  have h5 : (5 : Int) ∈ referencedPcrs sampleSerializer [[0, 1], [0, 2], [0, 3, 1, 6]] := by
    decide
  exact List.not_mem_nil _ ((h 5).2 h5)

/-- C2, amended: whenever `getTpmPcrs` succeeds, an index is in the result if and only if
some reference value of the RTM manifest or of the OS manifest, as held after the metadata
were read, has the type `TPM Reference Value` and carries that index.  Other manifests
are not consulted. -/
theorem getTpmPcrs_union_of_rtm_and_os (c : Config) (pcrs : List Int)
    (h : getTpmPcrs c = .ok pcrs) :
    ∃ rtmMan osMan, loadManifests c.Serializer c.Metadata {} {} = .ok (rtmMan, osMan) ∧
      ∀ i : Int, i ∈ pcrs ↔
        ∃ ver ∈ rtmMan.ReferenceValues ++ osMan.ReferenceValues,
          ver.Type_ = "TPM Reference Value" ∧ ver.Pcr = some i := by
  obtain ⟨rtmMan, osMan, hl, -, -, rfl⟩ := getTpmPcrs_ok c pcrs h
  refine ⟨rtmMan, osMan, hl, fun i => ?_⟩
  rw [sortInts_mem, collectPcrs_mem, collectPcrs_mem]
  constructor
  · rintro ((h | ⟨v, hv, hh⟩) | ⟨v, hv, hh⟩)
    · exact absurd h (List.not_mem_nil _)
    · exact ⟨v, List.mem_append.2 (Or.inl hv), hh⟩
    · exact ⟨v, List.mem_append.2 (Or.inr hv), hh⟩
  · rintro ⟨v, hv, hh⟩
    rcases List.mem_append.1 hv with hv | hv
    · exact Or.inl (Or.inr ⟨v, hv, hh⟩)
    · exact Or.inr ⟨v, hv, hh⟩

/-- C2, amended, at the sample metadata. -/
theorem getTpmPcrs_union_of_rtm_and_os_witness :
    getTpmPcrs (sampleConfig sampleMetadata) = .ok [0, 2, 4] ∧
      ∃ rtmMan osMan,
        loadManifests (sampleConfig sampleMetadata).Serializer
          (sampleConfig sampleMetadata).Metadata {} {} = .ok (rtmMan, osMan) ∧
        ∀ i : Int, i ∈ ([0, 2, 4] : List Int) ↔
          ∃ ver ∈ rtmMan.ReferenceValues ++ osMan.ReferenceValues,
            ver.Type_ = "TPM Reference Value" ∧ ver.Pcr = some i :=
  ⟨by decide, getTpmPcrs_union_of_rtm_and_os (sampleConfig sampleMetadata) [0, 2, 4] (by decide)⟩

/-- C3 as stated fails: an RTM manifest whose TPM reference value names PCR 99 makes
`getTpmPcrs` return `[99]`, an index outside 0..23. -/
theorem getTpmPcrs_index_out_of_range :
    getTpmPcrs (sampleConfig [[0, 1, 1, 100], [0, 2]]) = .ok [99] ∧
      ¬ (∀ i ∈ ([99] : List Int), 0 ≤ i ∧ i ≤ 23) := by
  refine ⟨by decide, fun h => ?_⟩
  have := h 99 (List.mem_singleton_self _)
  omega

/-- C3, amended: the function does not check the range of an index; whenever `getTpmPcrs`
succeeds and every TPM reference value of the RTM and OS manifests carries an index in
0..23, every index of the returned PCR set is in 0..23. -/
theorem getTpmPcrs_in_range (c : Config) (pcrs : List Int) (rtmMan : RtmManifest)
    (osMan : OsManifest) (h : getTpmPcrs c = .ok pcrs)
    (hl : loadManifests c.Serializer c.Metadata {} {} = .ok (rtmMan, osMan))
    (hrange : ∀ ver ∈ rtmMan.ReferenceValues ++ osMan.ReferenceValues,
      ver.Type_ = "TPM Reference Value" → ∀ p, ver.Pcr = some p → 0 ≤ p ∧ p ≤ 23) :
    ∀ i ∈ pcrs, 0 ≤ i ∧ i ≤ 23 := by
  obtain ⟨rtmMan', osMan', hl', -, -, rfl⟩ := getTpmPcrs_ok c pcrs h
  rw [hl] at hl'
  injection hl' with hl'
  injection hl' with h1 h2
  subst h1 h2
  intro i hi
  rw [sortInts_mem, collectPcrs_mem, collectPcrs_mem] at hi
  rcases hi with (hi | ⟨v, hv, ht, hp⟩) | ⟨v, hv, ht, hp⟩
  · exact absurd hi (List.not_mem_nil _)
  · exact hrange v (List.mem_append.2 (Or.inl hv)) ht i hp
  · exact hrange v (List.mem_append.2 (Or.inr hv)) ht i hp

/-- C3, amended, at the sample metadata. -/
theorem getTpmPcrs_in_range_witness :
    getTpmPcrs (sampleConfig sampleMetadata) = .ok [0, 2, 4] ∧
      ∀ i ∈ ([0, 2, 4] : List Int), 0 ≤ i ∧ i ≤ 23 :=
  ⟨by decide,
    getTpmPcrs_in_range (sampleConfig sampleMetadata) [0, 2, 4]
      { Type_ := "RTM Manifest"
        ReferenceValues := [⟨"TPM Reference Value", some 4, []⟩, ⟨"TPM Reference Value", some 0, []⟩] }
      { Type_ := "OS Manifest"
        ReferenceValues := [⟨"TPM Reference Value", some 4, []⟩, ⟨"TPM Reference Value", some 2, []⟩] }
      (by decide) (by decide) (by decide)⟩

/-! ## The provisioning decision -/

@[simp] theorem pathExists_trace (w : World) (t : List Event) (p : String) :
    ({ w with trace := t } : World).pathExists p = w.pathExists p := rfl

@[simp] theorem newEvents_append (w : World) (evs : List Event) :
    newEvents w { w with trace := w.trace ++ evs } = evs := by
  simp [newEvents]

/-- What `IsTpmProvisioningRequired` returns and which calls it makes, by cases. -/
theorem IsTpmProvisioningRequired_eval (env : Env) (sp : String) (w : World) :
    IsTpmProvisioningRequired env sp w =
      if w.pathExists (pathJoin sp akchainFile) = false then
        (.ok (true, none), { w with trace := w.trace ++
          [.call .IsTpmProvisioningRequired, .stat (pathJoin sp akchainFile)] })
      else if w.pathExists (pathJoin sp ikchainFile) = false then
        (.ok (true, none), { w with trace := w.trace ++
          [.call .IsTpmProvisioningRequired, .stat (pathJoin sp akchainFile),
            .stat (pathJoin sp ikchainFile)] })
      else if env.tpm2OpenTPM = false then
        (.ok (true, some (Err.new .tpmDeviceOpen)), { w with trace := w.trace ++
          [.call .IsTpmProvisioningRequired, .stat (pathJoin sp akchainFile),
            .stat (pathJoin sp ikchainFile), .tpm2OpenTPM] })
      else
        (.ok (!env.tpm2ReadPublic 0x81000001, none), { w with trace := w.trace ++
          [.call .IsTpmProvisioningRequired, .stat (pathJoin sp akchainFile),
            .stat (pathJoin sp ikchainFile), .tpm2OpenTPM, .tpm2ReadPublic 0x81000001,
            .tpm2Close] }) := by
  unfold IsTpmProvisioningRequired
  by_cases h1 : w.pathExists (pathJoin sp akchainFile) = false
  · simp [h1, osStat]
  · by_cases h2 : w.pathExists (pathJoin sp ikchainFile) = false
    · simp [h1, h2, osStat]
    · by_cases h3 : env.tpm2OpenTPM = false
      · simp [h1, h2, h3, osStat]
      · by_cases h4 : env.tpm2ReadPublic 0x81000001 = true
        · simp [h1, h2, h3, h4, osStat]
        · simp [h1, h2, h3, h4, osStat]

/-- A missing chain file makes `IsTpmProvisioningRequired` return `(true, nil)`. -/
theorem provisioningRequired_of_chain_missing (env : Env) (sp : String) (w : World)
    (h : w.pathExists (pathJoin sp akchainFile) = false ∨
      w.pathExists (pathJoin sp ikchainFile) = false) :
    (IsTpmProvisioningRequired env sp w).1 = .ok (true, none) := by
  rw [IsTpmProvisioningRequired_eval]
  by_cases h1 : w.pathExists (pathJoin sp akchainFile) = false
  · simp [h1]
  · have h2 : w.pathExists (pathJoin sp ikchainFile) = false := h.resolve_left h1
    simp [h1, h2]

/-- C4: `IsTpmProvisioningRequired` decides as follows for every store state.  If
`akchain.pem` or `ikchain.pem` is missing it returns `(true, nil)` and none of its calls
addresses the TPM.  If both are present and the TPM device opens, it returns `false`
exactly when the SRK persistent handle `0x81000001` can be read, and `true` otherwise,
in both cases without an error. -/
theorem IsTpmProvisioningRequired_decision (env : Env) (storagePath : String) (w : World) :
    ((w.pathExists (pathJoin storagePath akchainFile) = false ∨
        w.pathExists (pathJoin storagePath ikchainFile) = false) →
      (IsTpmProvisioningRequired env storagePath w).1 = .ok (true, none) ∧
      ∀ ev ∈ newEvents w (IsTpmProvisioningRequired env storagePath w).2,
        ev.touchesTpm = false) ∧
    (w.pathExists (pathJoin storagePath akchainFile) = true →
      w.pathExists (pathJoin storagePath ikchainFile) = true →
      env.tpm2OpenTPM = true →
      (IsTpmProvisioningRequired env storagePath w).1 =
          .ok (!env.tpm2ReadPublic 0x81000001, none) ∧
        ((IsTpmProvisioningRequired env storagePath w).1 = .ok (false, none) ↔
          env.tpm2ReadPublic 0x81000001 = true) ∧
        Event.tpm2ReadPublic 0x81000001 ∈
          newEvents w (IsTpmProvisioningRequired env storagePath w).2) := by
  rw [IsTpmProvisioningRequired_eval]
  constructor
  · intro h
    by_cases h1 : w.pathExists (pathJoin storagePath akchainFile) = false
    · simp [h1, Event.touchesTpm]
    · have h2 : w.pathExists (pathJoin storagePath ikchainFile) = false := by
        rcases h with h | h
        · exact absurd h h1
        · exact h
      simp [h1, h2, Event.touchesTpm]
  · intro h1 h2 h3
    simp [h1, h2, h3]

/-- C4 at four stores: an empty one; one that holds both chain files while the SRK is
readable; the same store reached through the storage path `s/`, which `path.Join` cleans;
and a store in the working directory, for the empty storage path. -/
theorem IsTpmProvisioningRequired_decision_witness :
    (IsTpmProvisioningRequired sampleEnv "s" {}).1 = .ok (true, none) ∧
      (IsTpmProvisioningRequired sampleEnv "s"
        { files := [("s/akchain.pem", [1, 6]), ("s/ikchain.pem", [1, 8])] }).1 =
          .ok (false, none) ∧
      (IsTpmProvisioningRequired sampleEnv "s/"
        { files := [("s/akchain.pem", [1, 6]), ("s/ikchain.pem", [1, 8])] }).1 =
          .ok (false, none) ∧
      (IsTpmProvisioningRequired sampleEnv ""
        { files := [("akchain.pem", [1, 6]), ("ikchain.pem", [1, 8])] }).1 =
          .ok (false, none) :=
  ⟨((IsTpmProvisioningRequired_decision sampleEnv "s" {}).1 (Or.inl (by decide))).1,
    ((IsTpmProvisioningRequired_decision sampleEnv "s"
      { files := [("s/akchain.pem", [1, 6]), ("s/ikchain.pem", [1, 8])] }).2
        (by decide) (by decide) (by decide)).1,
    ((IsTpmProvisioningRequired_decision sampleEnv "s/"
      { files := [("s/akchain.pem", [1, 6]), ("s/ikchain.pem", [1, 8])] }).2
        (by decide) (by decide) (by decide)).1,
    ((IsTpmProvisioningRequired_decision sampleEnv ""
      { files := [("akchain.pem", [1, 6]), ("ikchain.pem", [1, 8])] }).2
        (by decide) (by decide) (by decide)).1⟩

/-! ## Paths of the key store -/

/-- The joins of some storage paths with `akchain.pem`, as Go `path.Join` returns them. -/
theorem pathJoin_cleans :
    pathJoin "s" akchainFile = "s/akchain.pem" ∧
      pathJoin "s/" akchainFile = "s/akchain.pem" ∧
      pathJoin "" akchainFile = "akchain.pem" ∧
      pathJoin "." akchainFile = "akchain.pem" ∧
      pathJoin "/" akchainFile = "/akchain.pem" ∧
      pathJoin "/var//lib/./cmc/" akchainFile = "/var/lib/cmc/akchain.pem" ∧
      pathJoin "a/../../b" akchainFile = "../b/akchain.pem" ∧
      pathJoin "/../a/.." akchainFile = "/akchain.pem" ∧
      pathJoin "a/.." "" = "." ∧ pathJoin "" "" = "" := by
  decide

theorem splitSlash_ne_nil (p : List Char) : splitSlash p ≠ [] := by
  cases p with
  | nil => simp [splitSlash]
  | cons c cs =>
    unfold splitSlash
    split
    · simp
    · split <;> simp

theorem splitSlash_plain (f : List Char) (hf : '/' ∉ f) : splitSlash f = [f] := by
  induction f with
  | nil => rfl
  | cons c cs ih =>
    have hc : c ≠ '/' := fun h => hf (by simp [h])
    have hcs : '/' ∉ cs := fun h => hf (by simp [h])
    simp [splitSlash, hc, ih hcs]

theorem splitSlash_append_slash (a f : List Char) (hf : '/' ∉ f) :
    splitSlash (a ++ '/' :: f) = splitSlash a ++ [f] := by
  induction a with
  | nil => simp [splitSlash, splitSlash_plain f hf]
  | cons c cs ih =>
    by_cases hc : c = '/'
    · simp [splitSlash, hc, ih]
    · rcases hs : splitSlash cs with _ | ⟨x, xs⟩
      · exact absurd hs (splitSlash_ne_nil cs)
      · simp [splitSlash, hc, ih, hs]

theorem cleanStack_append_plain (r : Bool) (comps : List (List Char)) (f : List Char)
    (h0 : f ≠ []) (h1 : f ≠ ['.']) (h2 : f ≠ ['.', '.']) :
    cleanStack r (comps ++ [f]) = f :: cleanStack r comps := by
  simp [cleanStack, List.foldl_append, cleanStep, h0, h1, h2]

theorem joinSlash_append_singleton (xs : List (List Char)) (f : List Char) (h : xs ≠ []) :
    joinSlash (xs ++ [f]) = joinSlash xs ++ '/' :: f := by
  induction xs with
  | nil => exact absurd rfl h
  | cons x rest ih =>
    cases rest with
    | nil => simp [joinSlash]
    | cons y rest => 
      have := ih (by simp)
      simp only [List.cons_append] at this ⊢
      simp [joinSlash, this]

/-- The text of a cleaned path whose last element is `f`. -/
theorem pathOut_cons (r : Bool) (f : List Char) (S : List (List Char)) (h0 : f ≠ []) :
    pathOut r (f :: S) =
      if S = [] then (if r then '/' :: f else f)
      else (if r then '/' :: joinSlash S.reverse else joinSlash S.reverse) ++ '/' :: f := by
  by_cases hS : S = []
  · subst hS
    cases r <;> simp [pathOut, joinSlash, h0]
  · have hrev : S.reverse ≠ [] := by simpa using hS
    cases r <;> simp [pathOut, hS, joinSlash_append_singleton _ f hrev]

theorem pathOut_cons_raw (r : Bool) (f : List Char) (S : List (List Char)) (h0 : f ≠ []) :
    pathOut r (f :: S) =
      if r = true then '/' :: joinSlash (f :: S).reverse else joinSlash (f :: S).reverse := by
  by_cases hS : S = []
  · subst hS
    cases r <;> simp [pathOut, joinSlash, h0]
  · have hrev : S.reverse ≠ [] := by simpa using hS
    cases r <;> simp [pathOut, hS, joinSlash_append_singleton _ f hrev]

theorem plainName_spec {f : String} (h : plainName f = true) :
    f.data ≠ [] ∧ '/' ∉ f.data ∧ f.data ≠ ['.'] ∧ f.data ≠ ['.', '.'] := by
  simpa [plainName] using h

/-- The join of a directory and a plain file name, as the cleaned directory followed by the
name. -/
theorem pathJoin_plain (dir f : String) (hf : plainName f = true) :
    (pathJoin dir f).data =
      if dir = "" then f.data
      else pathOut (dir.data.head? == some '/')
        (f.data :: cleanStack (dir.data.head? == some '/') (splitSlash dir.data)) := by
  obtain ⟨h0, h1, h2, h3⟩ := plainName_spec hf
  have hfe : f ≠ "" := fun h => h0 (by rw [h])
  by_cases hd : dir = ""
  · have hh : (f.data.head? == some '/') = false := by
      rcases hfd : f.data with _ | ⟨c, cs⟩
      · rfl
      · have : c ≠ '/' := fun h => h1 (by rw [hfd, h]; simp)
        simpa using this
    simp only [pathJoin, hd, if_true, hfe, if_false, pathClean, hh,
      splitSlash_plain _ h1]
    simp [cleanStack, cleanStep, h0, h2, h3, pathOut, joinSlash]
  · have hdd : dir.data ≠ [] := fun h => hd (String.ext h)
    have hh : ((dir.data ++ '/' :: f.data).head? == some '/') =
        (dir.data.head? == some '/') := by
      rcases hdata : dir.data with _ | ⟨c, cs⟩
      · exact absurd hdata hdd
      · rfl
    simp only [pathJoin, hd, if_false, hfe, pathClean, hh, splitSlash_append_slash _ _ h1,
      cleanStack_append_plain _ _ _ h0 h2 h3]

theorem pathOut_fixed_false (r : Bool) (f : List Char) (h0 : f ≠ []) (h1 : '/' ∉ f)
    (h2 : f ≠ ['.']) (h3 : f ≠ ['.', '.']) :
    ∀ (n : Nat) (d : List Char), d.length ≤ n →
      pathOut r (f :: cleanStack r (splitSlash d)) ≠ d := by
  intro n
  induction n with
  | zero =>
    intro d hd h
    have hnil : d = [] := List.length_eq_zero.mp (Nat.le_zero.mp hd)
    subst hnil
    rw [pathOut_cons _ _ _ h0] at h
    revert h
    cases r <;> simp [splitSlash, cleanStack, cleanStep, h0]
  | succ n ih =>
    intro d hd h
    rw [pathOut_cons _ _ _ h0] at h
    by_cases hS : cleanStack r (splitSlash d) = []
    · rw [if_pos hS] at h
      cases r with
      | false =>
        simp only [Bool.false_eq_true, if_false] at h
        rw [← h, splitSlash_plain f h1] at hS
        simp [cleanStack, cleanStep, h0, h2, h3] at hS
      | true =>
        simp only [if_true] at h
        rw [← h] at hS
        have := splitSlash_append_slash [] f h1
        simp only [List.nil_append] at this
        rw [this, cleanStack_append_plain _ _ _ h0 h2 h3] at hS
        simp at hS
    · rw [if_neg hS] at h
      generalize hX : (if r = true then '/' :: joinSlash (cleanStack r (splitSlash d)).reverse
        else joinSlash (cleanStack r (splitSlash d)).reverse) = X at h
      have hS2 : cleanStack r (splitSlash d) = f :: cleanStack r (splitSlash X) := by
        conv_lhs => rw [← h]
        rw [splitSlash_append_slash _ _ h1, cleanStack_append_plain _ _ _ h0 h2 h3]
      have hlen : X.length ≤ n := by
        have := congrArg List.length h
        simp at this
        omega
      apply ih X hlen
      rw [hS2] at hX
      rw [pathOut_cons_raw _ _ _ h0]
      exact hX

theorem pathJoin_ne_dir (dir file : String) (hf : plainName file = true) :
    pathJoin dir file ≠ dir := by
  intro h
  have hd := congrArg String.data h
  rw [pathJoin_plain dir file hf] at hd
  obtain ⟨h0, h1, h2, h3⟩ := plainName_spec hf
  by_cases he : dir = ""
  · rw [if_pos he, he] at hd
    exact h0 hd
  · rw [if_neg he] at hd
    exact pathOut_fixed_false _ _ h0 h1 h2 h3 _ _ (Nat.le_refl _) hd

theorem pathJoin_injective (dir f g : String) (hf : plainName f = true)
    (hg : plainName g = true) (h : pathJoin dir f = pathJoin dir g) : f = g := by
  have hd := congrArg String.data h
  rw [pathJoin_plain dir f hf, pathJoin_plain dir g hg] at hd
  obtain ⟨f0, -, -, -⟩ := plainName_spec hf
  obtain ⟨g0, -, -, -⟩ := plainName_spec hg
  by_cases he : dir = ""
  · rw [if_pos he, if_pos he] at hd
    exact String.ext hd
  · rw [if_neg he, if_neg he, pathOut_cons _ _ _ f0, pathOut_cons _ _ _ g0] at hd
    apply String.ext
    split at hd
    · split at hd
      · exact List.cons_injective hd
      · exact hd
    · have := List.append_cancel_left hd
      exact List.cons_injective this

theorem pathExists_mkdir (w : World) (dir file : String) (t : List Event)
    (hf : plainName file = true) :
    ({ w with dirs := dir :: w.dirs, trace := t } : World).pathExists (pathJoin dir file) =
      w.pathExists (pathJoin dir file) := by
  simp only [World.pathExists, List.contains_cons]
  have : (pathJoin dir file == dir) = false := by
    simpa using pathJoin_ne_dir dir file hf
  rw [this, Bool.false_or]

/-! ## The trace of each function -/

theorem IsTpmProvisioningRequired_steps (env : Env) (sp : String) :
    Steps Event.isSetup (IsTpmProvisioningRequired env sp) := by
  unfold IsTpmProvisioningRequired
  repeat (first
    | exact Steps.pure _ _ | exact Steps.emit _ _ rfl | exact Steps.osStat _ _ rfl
    | apply Steps.bind | intro _ | dsimp only | split)

theorem OpenTpm_steps (env : Env) : Steps Event.isSetup (OpenTpm env) := by
  unfold OpenTpm
  repeat (first
    | exact Steps.pure _ _ | exact Steps.fail _ _ | exact Steps.getWorld _
    | exact Steps.emit _ _ rfl
    | exact Steps.modifyWorld _ _ (fun _ => rfl) (fun _ => rfl) (fun _ => rfl)
    | apply Steps.bind | intro _ | dsimp only | split)

theorem prepare_steps (env : Env) (c : Config) : Steps Event.isSetup (prepare env c) := by
  unfold prepare checkSerializer createStorage retrievePcrs checkProvisioned
  repeat (first
    | exact Steps.pure _ _ | exact Steps.fail _ _ | exact Steps.emit _ _ rfl
    | exact Steps.osStat _ _ rfl | exact Steps.osMkdirAll _ _ _ rfl
    | exact IsTpmProvisioningRequired_steps _ _
    | exact Steps.wrapping _ (OpenTpm_steps _)
    | apply Steps.bind | intro _ | dsimp only | split)

theorem createAkCsr_steps (env : Env) (ak : AK) (params : CsrParams) :
    Steps Event.isProvisioning (createAkCsr env ak params) := by
  unfold createAkCsr
  repeat (first
    | exact Steps.pure _ _ | exact Steps.ext _ _ _ | apply Steps.bind | intro _)

theorem createIkCsr_steps (env : Env) (ik : Key) (params : CsrParams) :
    Steps Event.isProvisioning (createIkCsr env ik params) := by
  unfold createIkCsr
  repeat (first
    | exact Steps.pure _ _ | exact Steps.ext _ _ _ | apply Steps.bind | intro _)

theorem createCsrsLoop_steps (env : Env) (s : Serializer) (ak : AK) (ik : Key)
    (metadata : List Bytes) : Steps Event.isProvisioning (createCsrsLoop env s ak ik metadata) := by
  induction metadata with
  | nil => exact Steps.fail _ _
  | cons m rest ih =>
    unfold createCsrsLoop
    repeat (first
      | exact ih | exact Steps.pure _ _ | exact Steps.ext _ _ _
      | exact Steps.wrapping _ (createAkCsr_steps _ _ _)
      | exact Steps.wrapping _ (createIkCsr_steps _ _ _)
      | apply Steps.bind | intro _ | dsimp only | split)

theorem createCsrs_steps (env : Env) (c : Config) (ak : AK) (ik : Key) :
    Steps Event.isProvisioning (createCsrs env c ak ik) := by
  unfold createCsrs
  exact Steps.bind (Steps.emit _ _ rfl) (fun _ => createCsrsLoop_steps _ _ _ _ _)

theorem saveCerts_steps (env : Env) (sp : String) (akchain ikchain : List Certificate) :
    Steps Event.isSave (saveCerts env sp akchain ikchain) := by
  unfold saveCerts
  repeat (first
    | exact Steps.pure _ _ | exact Steps.fail _ _ | exact Steps.emit _ _ rfl
    | exact Steps.osWriteFile _ _ _ _ rfl
    | apply Steps.bind | intro _ | dsimp only | split)

theorem saveKeys_steps (env : Env) (sp : String) : Steps Event.isSave (saveKeys env sp) := by
  unfold saveKeys
  repeat (first
    | exact Steps.pure _ _ | exact Steps.fail _ _ | exact Steps.goPanic _ _
    | exact Steps.getWorld _ | exact Steps.ext _ _ _ | exact Steps.emit _ _ rfl
    | exact Steps.osWriteFile _ _ _ _ rfl
    | apply Steps.bind | intro _ | dsimp only | split)

theorem loadTpmKeys_steps (env : Env) (sp : String) : Steps Event.isLoad (loadTpmKeys env sp) := by
  unfold loadTpmKeys
  repeat (first
    | exact Steps.pure _ _ | exact Steps.fail _ _ | exact Steps.getWorld _
    | exact Steps.emit _ _ rfl | exact Steps.osReadFile _ _ rfl
    | exact Steps.modifyWorld _ _ (fun _ => rfl) (fun _ => rfl) (fun _ => rfl)
    | apply Steps.bind | intro _ | dsimp only | split)

theorem loadTpmCerts_steps (env : Env) (sp : String) : Steps Event.isLoad (loadTpmCerts env sp) := by
  unfold loadTpmCerts
  repeat (first
    | exact Steps.pure _ _ | exact Steps.ext _ _ _ | exact Steps.emit _ _ rfl
    | exact Steps.wrapping _ (Steps.osReadFile _ _ rfl)
    | apply Steps.bind | intro _ | dsimp only | split)

theorem load_steps (env : Env) (c : Config) : Steps Event.isLoad (load env c) := by
  unfold load
  exact Steps.bind (Steps.wrapping _ (loadTpmKeys_steps _ _))
    (fun _ => Steps.wrapping _ (loadTpmCerts_steps _ _))

theorem provision_steps (env : Env) (c : Config) :
    Steps (fun ev => ev.isProvisioning || ev.isSave) (provision env c) := by
  have hp : ∀ ev : Event, ev.isProvisioning = true → (ev.isProvisioning || ev.isSave) = true :=
    fun ev h => by simp [h]
  have hs : ∀ ev : Event, ev.isSave = true → (ev.isProvisioning || ev.isSave) = true :=
    fun ev h => by simp [h]
  unfold provision
  repeat (first
    | exact Steps.pure _ _
    | exact Steps.wrapping _ (Steps.mono hp (assignCreatedKeys_steps _ _))
    | exact Steps.wrapping _ (Steps.mono hp (createCsrs_steps _ _ _ _))
    | exact Steps.wrapping _ (Steps.mono hp (provisionTpm_steps _ _ _ _))
    | exact Steps.wrapping _ (Steps.mono hs (saveCerts_steps _ _ _ _))
    | exact Steps.wrapping _ (Steps.mono hs (saveKeys_steps _ _))
    | apply Steps.bind | intro _ | dsimp only | split)

/-! ## The two branches of `NewTpm` -/

theorem run_wrapping {α : Type} (s : Site) (m : M α) (w : World) :
    wrapping s m w = match m w with
      | (.ok a, w1) => (.ok a, w1)
      | (.error e, w1) => (.error (Err.wrap s e), w1)
      | (.panic msg, w1) => (.panic msg, w1) := rfl

/-- How a run of the provisioning branch ends: with an error of `createKeys`, `createCsrs`
or `provisionTpm` before anything was saved, with a panic, or in `saveCerts` and `saveKeys`
after those three steps succeeded. -/
theorem provision_cases (env : Env) (c : Config) (w : World) :
    (∃ e, (provision env c w).1 = .error e ∧ Step Event.isProvisioning w (provision env c w).2 ∧
      (e.sites.head? = some .createKeysFailed ∨ e.sites.head? = some .createCsrsFailed ∨
        e.sites.head? = some .provisionFailed)) ∨
    (∃ msg, (provision env c w).1 = .panic msg) ∨
    (∃ w1 akchain ikchain, Step Event.isProvisioning w w1 ∧
      ((∃ e, saveCerts env c.StoragePath akchain ikchain w1 = (.error e, (provision env c w).2) ∧
          (provision env c w).1 = .error (Err.wrap .saveCertsFailed e)) ∨
        (∃ w2, saveCerts env c.StoragePath akchain ikchain w1 = (.ok (), w2) ∧
          ((∃ e, saveKeys env c.StoragePath w2 = (.error e, (provision env c w).2) ∧
              (provision env c w).1 = .error (Err.wrap .saveKeysFailed e)) ∨
            (saveKeys env c.StoragePath w2 = (.ok (), (provision env c w).2) ∧
              (provision env c w).1 = .ok (akchain, ikchain)))))) := by
  unfold provision
  simp only [run_bind, run_wrapping]
  have s1 := (assignCreatedKeys_steps env c.KeyConfig).run w
  rcases h1 : assignCreatedKeys env c.KeyConfig w with ⟨r1, w1⟩
  rw [h1] at s1
  rcases r1 with ⟨ak, ik⟩ | e | msg
  · have s2 := (createCsrs_steps env c ak ik).run w1
    rcases h2 : createCsrs env c ak ik w1 with ⟨r2, w2⟩
    rw [h2] at s2
    have s12 := Step.trans s1 s2
    simp only [h2]
    rcases r2 with ⟨akCsr, ikCsr⟩ | e | msg
    · have s3 := (provisionTpm_steps env c.ServerAddr akCsr ikCsr).run w2
      rcases h3 : provisionTpm env c.ServerAddr akCsr ikCsr w2 with ⟨r3, w3⟩
      rw [h3] at s3
      have s123 := Step.trans s12 s3
      simp only [h3]
      rcases r3 with ⟨akchain, ikchain⟩ | e | msg
      · rcases h4 : saveCerts env c.StoragePath akchain ikchain w3 with ⟨r4, w4⟩
        simp only [h4]
        rcases r4 with _ | e | msg
        · rcases h5 : saveKeys env c.StoragePath w4 with ⟨r5, w5⟩
          simp only [h5]
          rcases r5 with _ | e | msg
          · right; right
            exact ⟨w3, akchain, ikchain, s123, Or.inr ⟨w4, h4, Or.inr ⟨h5, rfl⟩⟩⟩
          · right; right
            exact ⟨w3, akchain, ikchain, s123, Or.inr ⟨w4, h4, Or.inl ⟨e, h5, rfl⟩⟩⟩
          · right; left; exact ⟨msg, rfl⟩
        · right; right
          exact ⟨w3, akchain, ikchain, s123, Or.inl ⟨e, h4, rfl⟩⟩
        · right; left; exact ⟨msg, rfl⟩
      · left; exact ⟨_, rfl, s123, by simp [Err.wrap]⟩
      · right; left; exact ⟨msg, rfl⟩
    · left; exact ⟨_, rfl, s12, by simp [Err.wrap]⟩
    · right; left; exact ⟨msg, rfl⟩
  · left; exact ⟨_, rfl, s1, by simp [Err.wrap]⟩
  · right; left; exact ⟨msg, rfl⟩

/-! ## The preparation in `NewTpm` -/

@[simp] theorem run_osStat (path : String) (w : World) :
    osStat path w = (.ok (w.pathExists path), { w with trace := w.trace ++ [.stat path] }) := rfl

theorem run_osMkdirAll (env : Env) (path : String) (w : World) :
    osMkdirAll env path w =
      if env.mkdirAll path = true then
        (.ok true, { w with dirs := path :: w.dirs, trace := w.trace ++ [.mkdirAll path] })
      else (.ok false, { w with trace := w.trace ++ [.mkdirAll path] }) := by
  unfold osMkdirAll
  by_cases h : env.mkdirAll path = true <;> simp [h]

theorem run_OpenTpm (env : Env) (w : World) :
    OpenTpm env w =
      match w.TPM with
      | some _ => (.error (Err.new .alreadyOpen), { w with trace := w.trace ++ [.call .OpenTpm] })
      | none =>
        match env.attestOpenTPM with
        | .error msg => (.error (Err.new .attestOpenTPM msg),
            { w with TPM := none, trace := w.trace ++ [.call .OpenTpm, .attestOpenTPM] })
        | .ok h => (.ok (),
            { w with TPM := some h, trace := w.trace ++ [.call .OpenTpm, .attestOpenTPM] }) := by
  unfold OpenTpm
  cases hT : w.TPM with
  | some h => simp [hT]
  | none =>
    cases ho : env.attestOpenTPM with
    | error msg => simp [hT, ho]
    | ok h => simp [hT, ho]

theorem run_checkSerializer (c : Config) (w : World) :
    checkSerializer c w =
      if c.Serializer.kind = .uninitialized then
        (.error (Err.new .serializerNotInitialized), w)
      else (.ok (), w) := by
  unfold checkSerializer
  cases c.Serializer.kind <;> simp

theorem run_createStorage (env : Env) (c : Config) (w : World) :
    createStorage env c w =
      if w.pathExists c.StoragePath = true then
        (.ok (), { w with trace := w.trace ++ [.stat c.StoragePath] })
      else if env.mkdirAll c.StoragePath = true then
        (.ok (), { w with dirs := c.StoragePath :: w.dirs,
                          trace := w.trace ++ [.stat c.StoragePath, .mkdirAll c.StoragePath] })
      else
        (.error (Err.new .createStorage c.StoragePath),
          { w with trace := w.trace ++ [.stat c.StoragePath, .mkdirAll c.StoragePath] }) := by
  unfold createStorage
  by_cases h1 : w.pathExists c.StoragePath = true
  · simp [h1]
  · by_cases h2 : env.mkdirAll c.StoragePath = true
    · simp [h1, h2, run_osMkdirAll, run_ite]
    · simp [h1, h2, run_osMkdirAll, run_ite]

theorem run_retrievePcrs (c : Config) (w : World) :
    retrievePcrs c w =
      match getTpmPcrs c with
      | .error e => (.error (Err.wrap .retrievePcrs e),
          { w with trace := w.trace ++ [.call .getTpmPcrs] })
      | .ok pcrs => (.ok pcrs, { w with trace := w.trace ++ [.call .getTpmPcrs] }) := by
  unfold retrievePcrs
  cases getTpmPcrs c <;> simp

theorem run_checkProvisioned (env : Env) (c : Config) (w : World) :
    checkProvisioned env c w =
      match IsTpmProvisioningRequired env c.StoragePath w with
      | (.ok (b, none), w1) => (.ok b, w1)
      | (.ok (_, some e), w1) => (.error (Err.wrap .checkProvisioned e), w1)
      | (.error e, w1) => (.error e, w1)
      | (.panic msg, w1) => (.panic msg, w1) := by
  unfold checkProvisioned
  simp only [run_bind]
  rcases h : IsTpmProvisioningRequired env c.StoragePath w with ⟨r, w1⟩
  rcases r with ⟨b, _ | e⟩ | e | msg <;> simp

theorem wrapping_snd {α : Type} (s : Site) (m : M α) (w : World) :
    (wrapping s m w).2 = (m w).2 := by
  rw [run_wrapping]
  rcases m w with ⟨r, w1⟩
  cases r <;> rfl

/-- The key store and the keys are as before: same files, same answers of `os.Stat` for
the files of the store under `sp`, same package variables `ak`, `ik`, `ek`. -/
theorem sameStore_trans {sp : String} {a b c : World}
    (h1 : b.files = a.files ∧
      (∀ f, plainName f = true → b.pathExists (pathJoin sp f) = a.pathExists (pathJoin sp f)) ∧
      b.ak = a.ak ∧ b.ik = a.ik ∧ b.ek = a.ek)
    (h2 : c.files = b.files ∧
      (∀ f, plainName f = true → c.pathExists (pathJoin sp f) = b.pathExists (pathJoin sp f)) ∧
      c.ak = b.ak ∧ c.ik = b.ik ∧ c.ek = b.ek) :
    c.files = a.files ∧
      (∀ f, plainName f = true → c.pathExists (pathJoin sp f) = a.pathExists (pathJoin sp f)) ∧
      c.ak = a.ak ∧ c.ik = a.ik ∧ c.ek = a.ek :=
  ⟨h2.1.trans h1.1, fun f hf => (h2.2.1 f hf).trans (h1.2.1 f hf), h2.2.2.1.trans h1.2.2.1,
    h2.2.2.2.1.trans h1.2.2.2.1, h2.2.2.2.2.trans h1.2.2.2.2⟩

theorem prepare_frame (env : Env) (c : Config) (w : World) :
    (prepare env c w).2.files = w.files ∧
      (∀ f, plainName f = true → (prepare env c w).2.pathExists (pathJoin c.StoragePath f) =
        w.pathExists (pathJoin c.StoragePath f)) ∧
      (prepare env c w).2.ak = w.ak ∧ (prepare env c w).2.ik = w.ik ∧
      (prepare env c w).2.ek = w.ek := by
  have hrefl : ∀ a : World, a.files = a.files ∧
      (∀ f, plainName f = true → a.pathExists (pathJoin c.StoragePath f) =
        a.pathExists (pathJoin c.StoragePath f)) ∧
      a.ak = a.ak ∧ a.ik = a.ik ∧ a.ek = a.ek := fun a => ⟨rfl, fun _ _ => rfl, rfl, rfl, rfl⟩
  unfold prepare
  simp only [run_bind, run_pure]
  -- checkSerializer
  rcases h1 : checkSerializer c w with ⟨r1, w1⟩
  have f1 : w1 = w := by
    rw [run_checkSerializer] at h1
    split_ifs at h1 <;> simp at h1 <;> exact h1.2.symm
  subst f1
  rcases r1 with _ | e | msg <;> dsimp only <;> try exact hrefl _
  -- createStorage
  rcases h2 : createStorage env c w1 with ⟨r2, w2⟩
  have f2 : w2.files = w1.files ∧
      (∀ f, plainName f = true → w2.pathExists (pathJoin c.StoragePath f) =
        w1.pathExists (pathJoin c.StoragePath f)) ∧
      w2.ak = w1.ak ∧ w2.ik = w1.ik ∧ w2.ek = w1.ek := by
    rw [run_createStorage] at h2
    split_ifs at h2 <;> simp at h2 <;> obtain ⟨-, rfl⟩ := h2
    · exact hrefl _
    · exact ⟨rfl, fun f hf => pathExists_mkdir w1 _ f _ hf, rfl, rfl, rfl⟩
    · exact hrefl _
  rcases r2 with _ | e | msg <;> dsimp only <;> try exact f2
  -- retrievePcrs
  rcases h3 : retrievePcrs c w2 with ⟨r3, w3⟩
  have f3 : w3.files = w2.files ∧
      (∀ f, plainName f = true → w3.pathExists (pathJoin c.StoragePath f) =
        w2.pathExists (pathJoin c.StoragePath f)) ∧
      w3.ak = w2.ak ∧ w3.ik = w2.ik ∧ w3.ek = w2.ek := by
    rw [run_retrievePcrs] at h3
    split at h3 <;> simp at h3 <;> obtain ⟨-, rfl⟩ := h3 <;> exact hrefl _
  have f13 := sameStore_trans f2 f3
  rcases r3 with pcrs | e | msg <;> dsimp only <;> try exact f13
  -- checkProvisioned
  rcases h4 : checkProvisioned env c w3 with ⟨r4, w4⟩
  have f4 : w4.files = w3.files ∧
      (∀ f, plainName f = true → w4.pathExists (pathJoin c.StoragePath f) =
        w3.pathExists (pathJoin c.StoragePath f)) ∧
      w4.ak = w3.ak ∧ w4.ik = w3.ik ∧ w4.ek = w3.ek := by
    rw [run_checkProvisioned, IsTpmProvisioningRequired_eval] at h4
    split_ifs at h4 <;> simp at h4 <;> obtain ⟨-, rfl⟩ := h4 <;> exact hrefl _
  have f14 := sameStore_trans f13 f4
  rcases r4 with b | e | msg <;> dsimp only <;> try exact f14
  -- OpenTpm
  rcases h5 : wrapping .openTpmFailed (OpenTpm env) w4 with ⟨r5, w5⟩
  have f5 : w5.files = w4.files ∧
      (∀ f, plainName f = true → w5.pathExists (pathJoin c.StoragePath f) =
        w4.pathExists (pathJoin c.StoragePath f)) ∧
      w5.ak = w4.ak ∧ w5.ik = w4.ik ∧ w5.ek = w4.ek := by
    have hw5 : w5 = (OpenTpm env w4).2 := by rw [← wrapping_snd .openTpmFailed, h5]
    rw [hw5, run_OpenTpm]
    cases w4.TPM <;> cases env.attestOpenTPM <;> exact hrefl _
  have f15 := sameStore_trans f14 f5
  rcases r5 with _ | e | msg <;> dsimp only <;> exact f15

/-- How the preparation ends: with one of its five errors, each for its own cause, or with
the PCR set and the provisioning decision after the TPM was opened. -/
theorem prepare_result (env : Env) (c : Config) (w : World) :
    (∃ e, (prepare env c w).1 = .error e ∧
      ((e.sites.head? = some .serializerNotInitialized ∧
          c.Serializer.kind = .uninitialized) ∨
        (e.sites.head? = some .createStorage ∧
          ¬ (w.pathExists c.StoragePath = true ∨ env.mkdirAll c.StoragePath = true)) ∨
        (e.sites.head? = some .retrievePcrs ∧ ∃ e0, getTpmPcrs c = .error e0) ∨
        (e.sites.head? = some .checkProvisioned ∧
          w.pathExists (pathJoin c.StoragePath akchainFile) = true ∧
          w.pathExists (pathJoin c.StoragePath ikchainFile) = true ∧
          env.tpm2OpenTPM = false) ∨
        (e.sites.head? = some .openTpmFailed ∧
          (w.TPM ≠ none ∨ ∃ msg, env.attestOpenTPM = .error msg)))) ∨
    (∃ pcrs b h, (prepare env c w).1 = .ok (pcrs, b) ∧ getTpmPcrs c = .ok pcrs ∧
      c.Serializer.kind ≠ .uninitialized ∧ w.TPM = none ∧ env.attestOpenTPM = .ok h ∧
      (prepare env c w).2.TPM = some h ∧
      (w.pathExists c.StoragePath = true ∨ env.mkdirAll c.StoragePath = true) ∧
      (b = true ↔ (w.pathExists (pathJoin c.StoragePath akchainFile) = false ∨
        w.pathExists (pathJoin c.StoragePath ikchainFile) = false ∨
        env.tpm2ReadPublic 0x81000001 = false)) ∧
      (b = false → env.tpm2OpenTPM = true)) := by
  unfold prepare
  simp only [run_bind, run_pure]
  -- checkSerializer
  rcases h1 : checkSerializer c w with ⟨r1, w1⟩
  rw [run_checkSerializer] at h1
  by_cases hk : c.Serializer.kind = .uninitialized
  · simp only [hk, if_true, Prod.mk.injEq] at h1
    obtain ⟨rfl, rfl⟩ := h1
    exact Or.inl ⟨_, rfl, Or.inl ⟨rfl, hk⟩⟩
  simp only [hk, if_false, Prod.mk.injEq] at h1
  obtain ⟨rfl, rfl⟩ := h1
  dsimp only
  -- createStorage
  rcases h2 : createStorage env c w with ⟨r2, w2⟩
  rw [run_createStorage] at h2
  have hdir : (w.pathExists c.StoragePath = true ∨ env.mkdirAll c.StoragePath = true) ∨
      (r2 = .error (Err.new .createStorage c.StoragePath) ∧
        ¬ (w.pathExists c.StoragePath = true ∨ env.mkdirAll c.StoragePath = true)) := by
    split_ifs at h2 with ha hb
    · exact Or.inl (Or.inl ha)
    · exact Or.inl (Or.inr hb)
    · simp only [Prod.mk.injEq] at h2
      exact Or.inr ⟨h2.1.symm, fun h => h.elim ha hb⟩
  have hw2 : w2.TPM = w.TPM ∧ ∀ f, plainName f = true →
      w2.pathExists (pathJoin c.StoragePath f) = w.pathExists (pathJoin c.StoragePath f) := by
    split_ifs at h2 <;> simp only [Prod.mk.injEq] at h2 <;> obtain ⟨-, rfl⟩ := h2
    · exact ⟨rfl, fun _ _ => rfl⟩
    · exact ⟨rfl, fun f hf => pathExists_mkdir w _ f _ hf⟩
    · exact ⟨rfl, fun _ _ => rfl⟩
  rcases hdir with hdir | ⟨rfl, hno⟩
  swap
  · exact Or.inl ⟨_, rfl, Or.inr (Or.inl ⟨rfl, hno⟩)⟩
  have hr2 : r2 = .ok () := by
    split_ifs at h2 with ha hb
    · simp only [Prod.mk.injEq] at h2; exact h2.1.symm
    · simp only [Prod.mk.injEq] at h2; exact h2.1.symm
    · rcases hdir with h | h
      · exact absurd h ha
      · exact absurd h hb
  subst hr2
  dsimp only
  clear h2
  -- retrievePcrs
  rw [run_retrievePcrs]
  cases hp : getTpmPcrs c with
  | error e => exact Or.inl ⟨_, rfl, Or.inr (Or.inr (Or.inl ⟨rfl, e, rfl⟩))⟩
  | ok pcrs =>
    dsimp only
    -- checkProvisioned
    rw [run_checkProvisioned, IsTpmProvisioningRequired_eval]
    simp only [pathExists_trace, hw2.2 akchainFile (by decide), hw2.2 ikchainFile (by decide)]
    by_cases ha : w.pathExists (pathJoin c.StoragePath akchainFile) = false
    · simp only [ha, if_true]
      rw [run_wrapping, run_OpenTpm]
      dsimp only
      cases hT : w2.TPM with
      | some h =>
          exact Or.inl ⟨_, rfl, Or.inr (Or.inr (Or.inr (Or.inr
            ⟨rfl, Or.inl (by rw [← hw2.1, hT]; simp)⟩)))⟩
      | none =>
        cases ho : env.attestOpenTPM with
        | error msg =>
            exact Or.inl ⟨_, rfl, Or.inr (Or.inr (Or.inr (Or.inr ⟨rfl, Or.inr ⟨msg, rfl⟩⟩)))⟩
        | ok h =>
          refine Or.inr ⟨pcrs, true, h, rfl, rfl, hk, by rw [← hw2.1, hT], rfl, rfl, hdir, ?_, ?_⟩
          · simp
          · simp
    · simp only [Bool.not_eq_false] at ha
      by_cases hi : w.pathExists (pathJoin c.StoragePath ikchainFile) = false
      · simp only [ha, hi, Bool.true_eq_false, if_true, if_false]
        rw [run_wrapping, run_OpenTpm]
        dsimp only
        cases hT : w2.TPM with
        | some h =>
          exact Or.inl ⟨_, rfl, Or.inr (Or.inr (Or.inr (Or.inr
            ⟨rfl, Or.inl (by rw [← hw2.1, hT]; simp)⟩)))⟩
        | none =>
          cases ho : env.attestOpenTPM with
          | error msg =>
            exact Or.inl ⟨_, rfl, Or.inr (Or.inr (Or.inr (Or.inr ⟨rfl, Or.inr ⟨msg, rfl⟩⟩)))⟩
          | ok h =>
            refine Or.inr ⟨pcrs, true, h, rfl, rfl, hk, by rw [← hw2.1, hT], rfl, rfl, hdir, ?_, ?_⟩
            · simp
            · simp
      · simp only [Bool.not_eq_false] at hi
        by_cases hd : env.tpm2OpenTPM = false
        · simp only [ha, hi, hd, Bool.true_eq_false, if_true, if_false]
          exact Or.inl ⟨_, rfl, Or.inr (Or.inr (Or.inr (Or.inl ⟨rfl, trivial, trivial, trivial⟩)))⟩
        · simp only [Bool.not_eq_false] at hd
          simp only [ha, hi, hd, Bool.true_eq_false, if_false]
          rw [run_wrapping, run_OpenTpm]
          dsimp only
          cases hT : w2.TPM with
          | some h =>
          exact Or.inl ⟨_, rfl, Or.inr (Or.inr (Or.inr (Or.inr
            ⟨rfl, Or.inl (by rw [← hw2.1, hT]; simp)⟩)))⟩
          | none =>
            cases ho : env.attestOpenTPM with
            | error msg =>
            exact Or.inl ⟨_, rfl, Or.inr (Or.inr (Or.inr (Or.inr ⟨rfl, Or.inr ⟨msg, rfl⟩⟩)))⟩
            | ok h =>
              refine Or.inr ⟨pcrs, !env.tpm2ReadPublic 0x81000001, h, rfl, rfl, hk,
                by rw [← hw2.1, hT], rfl, rfl, hdir, ?_, ?_⟩
              · simp [ha, hi]
              · intro _
                trivial

/-! ## `NewTpm` -/

theorem isSetup_not_isSave (ev : Event) (h : ev.isSetup = true) : ev.isSave = false := by
  cases ev with
  | call f => cases f <;> simp_all [Event.isSetup, Event.isSave]
  | _ => simp_all [Event.isSetup, Event.isSave]

theorem isProvisioning_not_isSave (ev : Event) (h : ev.isProvisioning = true) :
    ev.isSave = false := by
  cases ev with
  | call f => cases f <;> simp_all [Event.isProvisioning, Event.isSave]
  | _ => simp_all [Event.isProvisioning, Event.isSave]

theorem isSetup_not_isLoad (ev : Event) (h : ev.isSetup = true) : ev.isLoad = false := by
  cases ev with
  | call f => cases f <;> simp_all [Event.isSetup, Event.isLoad]
  | _ => simp_all [Event.isSetup, Event.isLoad]

theorem isProvisioning_not_isLoad (ev : Event) (h : ev.isProvisioning = true) :
    ev.isLoad = false := by
  cases ev with
  | call f => cases f <;> simp_all [Event.isProvisioning, Event.isLoad]
  | _ => simp_all [Event.isProvisioning, Event.isLoad]

theorem isSave_not_isLoad (ev : Event) (h : ev.isSave = true) : ev.isLoad = false := by
  cases ev with
  | call f => cases f <;> simp_all [Event.isSave, Event.isLoad]
  | _ => simp_all [Event.isSave, Event.isLoad]

theorem isSetup_not_isProvisioning (ev : Event) (h : ev.isSetup = true) :
    ev.isProvisioning = false := by
  cases ev with
  | call f => cases f <;> simp_all [Event.isSetup, Event.isProvisioning]
  | _ => simp_all [Event.isSetup, Event.isProvisioning]

theorem isLoad_not_isProvisioning (ev : Event) (h : ev.isLoad = true) :
    ev.isProvisioning = false := by
  cases ev with
  | call f => cases f <;> simp_all [Event.isLoad, Event.isProvisioning]
  | _ => simp_all [Event.isLoad, Event.isProvisioning]

theorem Step.newEvents_eq {P : Event → Bool} {w w' : World} (h : Step P w w') :
    w'.trace = w.trace ++ newEvents w w' ∧ (∀ ev ∈ newEvents w w', P ev = true) ∧
      ((∀ ev ∈ newEvents w w', ev.isSave = false) → w'.files = w.files) := by
  obtain ⟨evs, t, p, -, f, -⟩ := h
  have : newEvents w w' = evs := by simp [newEvents, t]
  rw [this]
  exact ⟨t, p, f⟩

theorem newEvents_trans {a b c : World} {x y : List Event} (h1 : b.trace = a.trace ++ x)
    (h2 : c.trace = b.trace ++ y) : newEvents a c = x ++ y := by
  unfold newEvents
  rw [h2, h1, List.append_assoc]
  simp

/-- `NewTpm` is the preparation followed by one of the two branches. -/
theorem run_NewTpm (env : Env) (c : Config) (w : World) :
    NewTpm env c w =
      match prepare env c w with
      | (.ok (pcrs, b), w1) =>
        match (if b = true then provision env c w1 else load env c w1) with
        | (.ok (akchain, ikchain), w2) =>
          (.ok { Pcrs := pcrs, UseIma := c.UseIma, ImaPcr := c.ImaPcr, SigningCerts := ikchain,
                 MeasuringCerts := akchain }, w2)
        | (.error e, w2) => (.error e, w2)
        | (.panic msg, w2) => (.panic msg, w2)
      | (.error e, w1) => (.error e, w1)
      | (.panic msg, w1) => (.panic msg, w1) := by
  unfold NewTpm
  simp only [run_bind, run_pure, run_ite]
  rcases prepare env c w with ⟨r, w1⟩
  rcases r with ⟨pcrs, b⟩ | e | msg
  · dsimp only
    cases b
    · simp only [Bool.false_eq_true, if_false]
      rcases load env c w1 with ⟨r2, w2⟩
      rcases r2 with ⟨akchain, ikchain⟩ | e | msg <;> rfl
    · simp only [if_true]
      rcases provision env c w1 with ⟨r2, w2⟩
      rcases r2 with ⟨akchain, ikchain⟩ | e | msg <;> rfl
  · rfl
  · rfl

/-- The result of a branch of `NewTpm` as `NewTpm` returns it. -/
theorem NewTpm_of_prepare_ok (env : Env) (c : Config) (w w1 : World) (pcrs : List Int) (b : Bool)
    (hp : prepare env c w = (.ok (pcrs, b), w1)) :
    (NewTpm env c w).2 = ((if b = true then provision env c else load env c) w1).2 ∧
      (∀ e, (NewTpm env c w).1 = .error e ↔
        ((if b = true then provision env c else load env c) w1).1 = .error e) ∧
      (∀ t, (NewTpm env c w).1 = .ok t ↔
        ∃ akchain ikchain,
          ((if b = true then provision env c else load env c) w1).1 = .ok (akchain, ikchain) ∧
          t = { Pcrs := pcrs, UseIma := c.UseIma, ImaPcr := c.ImaPcr, SigningCerts := ikchain,
                MeasuringCerts := akchain }) := by
  rw [run_NewTpm, hp]
  dsimp only
  rw [run_ite]
  rcases (if b = true then provision env c w1 else load env c w1) with ⟨r2, w2⟩
  rcases r2 with ⟨akchain, ikchain⟩ | e | msg
  · refine ⟨rfl, fun e => by simp, fun t => ?_⟩
    constructor
    · intro h
      exact ⟨akchain, ikchain, rfl, by simpa using h.symm⟩
    · rintro ⟨a, i, h1, h2⟩
      simp only [Result.ok.injEq, Prod.mk.injEq] at h1
      obtain ⟨rfl, rfl⟩ := h1
      simp [h2]
  · exact ⟨rfl, fun e0 => by simp, fun t => by simp⟩
  · exact ⟨rfl, fun e' => by simp, fun t => by simp⟩

theorem nothingSaved_of_steps {w w1 w' : World} (h1 : Step Event.isSetup w w1)
    (h2 : Step Event.isProvisioning w1 w') : nothingSaved w w' := by
  obtain ⟨t1, p1, f1⟩ := Step.newEvents_eq h1
  obtain ⟨t2, p2, f2⟩ := Step.newEvents_eq h2
  have hnew := newEvents_trans t1 t2
  have hall : ∀ ev ∈ newEvents w w', ev.isSave = false := by
    intro ev hev
    rw [hnew] at hev
    rcases List.mem_append.1 hev with hev | hev
    · exact isSetup_not_isSave ev (p1 ev hev)
    · exact isProvisioning_not_isSave ev (p2 ev hev)
  refine ⟨?_, hall, fun hmem => ?_, fun hmem => ?_⟩
  · rw [f2 (fun ev hev => isProvisioning_not_isSave ev (p2 ev hev)),
      f1 (fun ev hev => isSetup_not_isSave ev (p1 ev hev))]
  · have := hall _ hmem
    simp [Event.isSave] at this
  · have := hall _ hmem
    simp [Event.isSave] at this

/-- `NewTpm` ends as its provisioning branch ends when the preparation asks for
provisioning. -/
theorem NewTpm_of_provision (env : Env) (c : Config) (w : World) (pcrs : List Int)
    (hp : (prepare env c w).1 = .ok (pcrs, true)) :
    (NewTpm env c w).2 = (provision env c (prepare env c w).2).2 ∧
      (∀ e, (provision env c (prepare env c w).2).1 = .error e →
        (NewTpm env c w).1 = .error e) ∧
      (∀ msg, (provision env c (prepare env c w).2).1 = .panic msg →
        (NewTpm env c w).1 = .panic msg) := by
  rw [run_NewTpm]
  rcases hprep : prepare env c w with ⟨r, w1⟩
  rw [hprep] at hp
  dsimp only at hp
  subst hp
  dsimp only
  rw [if_pos rfl]
  rcases provision env c w1 with ⟨r2, w2⟩
  rcases r2 with ⟨akchain, ikchain⟩ | e | msg
  · exact ⟨rfl, fun e h => by simp at h, fun m h => by simp at h⟩
  · exact ⟨rfl, fun e' h => by simpa using h, fun m h => by simp at h⟩
  · exact ⟨rfl, fun e' h => by simp at h, fun m h => by simpa using h⟩

theorem assignCreatedKeys_error (env : Env) (keyConfig : String) (w : World) (e : Err)
    (h : (createKeys env keyConfig w).1 = .error e) :
    (assignCreatedKeys env keyConfig w).1 = .error e := by
  unfold assignCreatedKeys
  rcases hc : createKeys env keyConfig w with ⟨r, w1⟩
  rw [hc] at h
  dsimp only at h
  subst h
  rfl

/-- C8: an enrollment failure leaves the store unprovisioned.  In every run of `NewTpm`
whose preparation ends with the decision to provision: if `createKeys` returns an error,
or `createKeys` succeeds and `createCsrs` returns an error, or both succeed and
`provisionTpm` returns an error, then `NewTpm` returns that error, wrapped as the failure
of the step, and up to its return no file of the store was written or changed and neither
`saveCerts` nor `saveKeys` was entered.  The one way in which a step ends without
returning, the panic of `provisionTpm` at `caCerts[len(caCerts)-1]` for an empty list of CA
certificates, ends `NewTpm` in that panic, with nothing saved either. -/
theorem NewTpm_enrollment_failure_saves_nothing (env : Env) (c : Config) (w : World)
    (pcrs : List Int) (hp : (prepare env c w).1 = .ok (pcrs, true)) :
    (∀ e, (createKeys env c.KeyConfig (prepare env c w).2).1 = .error e →
      (NewTpm env c w).1 = .error (Err.wrap .createKeysFailed e) ∧
        nothingSaved w (NewTpm env c w).2) ∧
    (∀ ak ik, (assignCreatedKeys env c.KeyConfig (prepare env c w).2).1 = .ok (ak, ik) →
      (∀ e, (createCsrs env c ak ik
            (assignCreatedKeys env c.KeyConfig (prepare env c w).2).2).1 = .error e →
        (NewTpm env c w).1 = .error (Err.wrap .createCsrsFailed e) ∧
          nothingSaved w (NewTpm env c w).2) ∧
      (∀ akCsr ikCsr, (createCsrs env c ak ik
            (assignCreatedKeys env c.KeyConfig (prepare env c w).2).2).1 = .ok (akCsr, ikCsr) →
        (∀ e, (provisionTpm env c.ServerAddr akCsr ikCsr (createCsrs env c ak ik
              (assignCreatedKeys env c.KeyConfig (prepare env c w).2).2).2).1 = .error e →
          (NewTpm env c w).1 = .error (Err.wrap .provisionFailed e) ∧
            nothingSaved w (NewTpm env c w).2) ∧
        (∀ msg, (provisionTpm env c.ServerAddr akCsr ikCsr (createCsrs env c ak ik
              (assignCreatedKeys env c.KeyConfig (prepare env c w).2).2).2).1 = .panic msg →
          (NewTpm env c w).1 = .panic msg ∧ nothingSaved w (NewTpm env c w).2))) := by
  obtain ⟨hw, herr, hpanic⟩ := NewTpm_of_provision env c w pcrs hp
  have s0 := (prepare_steps env c).run w
  generalize (prepare env c w).2 = w1 at hw herr hpanic s0 ⊢
  rw [hw]
  have s1 := (assignCreatedKeys_steps env c.KeyConfig).run w1
  refine ⟨fun e h => ?_, fun ak ik h1 => ⟨fun e h2 => ?_, fun akCsr ikCsr h2 =>
    ⟨fun e h3 => ?_, fun msg h3 => ?_⟩⟩⟩
  · have h1 := assignCreatedKeys_error env c.KeyConfig w1 e h
    rcases ha : assignCreatedKeys env c.KeyConfig w1 with ⟨r1, w2⟩
    rw [ha] at h1 s1
    dsimp only at h1
    subst h1
    have hprov : provision env c w1 = (.error (Err.wrap .createKeysFailed e), w2) := by
      unfold provision
      simp only [run_bind, run_wrapping, ha]
    rw [hprov] at herr ⊢
    exact ⟨herr _ rfl, nothingSaved_of_steps s0 s1⟩
  · rcases ha : assignCreatedKeys env c.KeyConfig w1 with ⟨r1, w2⟩
    rw [ha] at h1 h2 s1
    dsimp only at h1 h2
    subst h1
    have s2 := (createCsrs_steps env c ak ik).run w2
    rcases hb : createCsrs env c ak ik w2 with ⟨r2, w3⟩
    rw [hb] at h2 s2
    dsimp only at h2
    subst h2
    have hprov : provision env c w1 = (.error (Err.wrap .createCsrsFailed e), w3) := by
      unfold provision
      simp only [run_bind, run_wrapping, ha, hb]
    rw [hprov] at herr ⊢
    exact ⟨herr _ rfl, nothingSaved_of_steps s0 (Step.trans s1 s2)⟩
  · rcases ha : assignCreatedKeys env c.KeyConfig w1 with ⟨r1, w2⟩
    rw [ha] at h1 h2 h3 s1
    dsimp only at h1 h2 h3
    subst h1
    have s2 := (createCsrs_steps env c ak ik).run w2
    rcases hb : createCsrs env c ak ik w2 with ⟨r2, w3⟩
    rw [hb] at h2 h3 s2
    dsimp only at h2 h3
    subst h2
    have s3 := (provisionTpm_steps env c.ServerAddr akCsr ikCsr).run w3
    rcases hc : provisionTpm env c.ServerAddr akCsr ikCsr w3 with ⟨r3, w4⟩
    rw [hc] at h3 s3
    dsimp only at h3
    subst h3
    have hprov : provision env c w1 = (.error (Err.wrap .provisionFailed e), w4) := by
      unfold provision
      simp only [run_bind, run_wrapping, ha, hb, hc]
    rw [hprov] at herr ⊢
    exact ⟨herr _ rfl, nothingSaved_of_steps s0 (Step.trans (Step.trans s1 s2) s3)⟩
  · rcases ha : assignCreatedKeys env c.KeyConfig w1 with ⟨r1, w2⟩
    rw [ha] at h1 h2 h3 s1
    dsimp only at h1 h2 h3
    subst h1
    have s2 := (createCsrs_steps env c ak ik).run w2
    rcases hb : createCsrs env c ak ik w2 with ⟨r2, w3⟩
    rw [hb] at h2 h3 s2
    dsimp only at h2 h3
    subst h2
    have s3 := (provisionTpm_steps env c.ServerAddr akCsr ikCsr).run w3
    rcases hc : provisionTpm env c.ServerAddr akCsr ikCsr w3 with ⟨r3, w4⟩
    rw [hc] at h3 s3
    dsimp only at h3
    subst h3
    have hprov : provision env c w1 = (.panic msg, w4) := by
      unfold provision
      simp only [run_bind, run_wrapping, ha, hb, hc]
    rw [hprov] at hpanic ⊢
    exact ⟨hpanic _ rfl, nothingSaved_of_steps s0 (Step.trans (Step.trans s1 s2) s3)⟩

/-- C8 at three enrollments on the empty store: a TPM that cannot create an AK, an
enrollment server that does not answer, and an enrollment server that returns no CA
certificate. -/
theorem NewTpm_enrollment_failure_saves_nothing_witness :
    ((NewTpm sampleEnvNoAK (sampleConfig sampleMetadata) {}).1 =
        .error ⟨[.createKeysFailed, .newAK], "no AK"⟩ ∧
      nothingSaved {} (NewTpm sampleEnvNoAK (sampleConfig sampleMetadata) {}).2) ∧
    ((NewTpm sampleEnvNoServer (sampleConfig sampleMetadata) {}).1 =
        .error ⟨[.provisionFailed, .retrieveCaCerts], "no route"⟩ ∧
      nothingSaved {} (NewTpm sampleEnvNoServer (sampleConfig sampleMetadata) {}).2) ∧
    ((NewTpm sampleEnvNoCas (sampleConfig sampleMetadata) {}).1 =
        .panic "index out of range [-1]" ∧
      nothingSaved {} (NewTpm sampleEnvNoCas (sampleConfig sampleMetadata) {}).2) :=
  ⟨(NewTpm_enrollment_failure_saves_nothing sampleEnvNoAK (sampleConfig sampleMetadata) {}
      [0, 2, 4] (by decide!)).1 ⟨[.newAK], "no AK"⟩ (by decide!),
    (((NewTpm_enrollment_failure_saves_nothing sampleEnvNoServer (sampleConfig sampleMetadata)
      {} [0, 2, 4] (by decide!)).2 ⟨1, {}⟩ ⟨2, {}⟩ (by decide!)).2 { Raw := [4] } { Raw := [5] }
        (by decide!)).1 ⟨[.retrieveCaCerts], "no route"⟩ (by decide!),
    (((NewTpm_enrollment_failure_saves_nothing sampleEnvNoCas (sampleConfig sampleMetadata)
      {} [0, 2, 4] (by decide!)).2 ⟨1, {}⟩ ⟨2, {}⟩ (by decide!)).2 { Raw := [4] } { Raw := [5] }
        (by decide!)).2 "index out of range [-1]" (by decide!)⟩

theorem bind_trace_extends {α β : Type} {P : Event → Bool} (m : M α) (f : α → M β)
    (hf : ∀ a, Steps P (f a)) (w : World) :
    ∃ evs, ((m >>= f) w).2.trace = (m w).2.trace ++ evs := by
  rw [run_bind]
  rcases m w with ⟨r, w1⟩
  rcases r with a | e | msg
  · obtain ⟨evs, t, -⟩ := (hf a).run w1
    exact ⟨evs, t⟩
  · exact ⟨[], by simp⟩
  · exact ⟨[], by simp⟩

theorem createKeys_first_event (env : Env) (keyConfig : String) (w : World) :
    ∃ evs, (createKeys env keyConfig w).2.trace = w.trace ++ Event.call .createKeys :: evs := by
  unfold createKeys
  have := bind_trace_extends (P := Event.isProvisioning) (emit (.call .createKeys))
    (fun _ => (do
      emit .tpmEKs
      let eks ← ext .loadEKs env.tpmEKs
      emit .tpmNewAK
      let ak ← ext .newAK env.tpmNewAK
      match ikConfigOf keyConfig with
      | none => fail (Err.new .unknownKeyConfig keyConfig)
      | some ikConfig =>
        emit (.tpmNewKey ikConfig)
        let ik ← ext .newIK (env.tpmNewKey ak ikConfig)
        pure (eks, ak, ik) : M (List EK × AK × Key))) (fun _ => by
      repeat (first
        | exact Steps.pure _ _ | exact Steps.fail _ _
        | exact Steps.ext _ _ _ | exact Steps.emit _ _ rfl
        | apply Steps.bind | intro _ | dsimp only | split)) w
  obtain ⟨evs, h⟩ := this
  refine ⟨evs, h.trans ?_⟩
  simp

theorem provision_first_event (env : Env) (c : Config) (w : World) :
    Event.call .createKeys ∈ newEvents w (provision env c w).2 := by
  have hp : ∀ ev : Event, ev.isProvisioning = true → (ev.isProvisioning || ev.isSave) = true :=
    fun ev h => by simp [h]
  have hs : ∀ ev : Event, ev.isSave = true → (ev.isProvisioning || ev.isSave) = true :=
    fun ev h => by simp [h]
  unfold provision
  have h1 := bind_trace_extends (P := fun ev => ev.isProvisioning || ev.isSave)
    (wrapping .createKeysFailed (assignCreatedKeys env c.KeyConfig))
    (fun x => (match x with
      | (ak, ik) => do
        let (akCsr, ikCsr) ← wrapping .createCsrsFailed (createCsrs env c ak ik)
        let (akchain, ikchain) ←
          wrapping .provisionFailed (provisionTpm env c.ServerAddr akCsr ikCsr)
        wrapping .saveCertsFailed (saveCerts env c.StoragePath akchain ikchain)
        wrapping .saveKeysFailed (saveKeys env c.StoragePath)
        pure (akchain, ikchain) : M (List Certificate × List Certificate))) (fun _ => by
      repeat (first
        | exact Steps.pure _ _
        | exact Steps.wrapping _ (Steps.mono hp (createCsrs_steps _ _ _ _))
        | exact Steps.wrapping _ (Steps.mono hp (provisionTpm_steps _ _ _ _))
        | exact Steps.wrapping _ (Steps.mono hs (saveCerts_steps _ _ _ _))
        | exact Steps.wrapping _ (Steps.mono hs (saveKeys_steps _ _))
        | apply Steps.bind | intro _ | dsimp only | split)) w
  obtain ⟨evs, h1⟩ := h1
  have h2 : (wrapping .createKeysFailed (assignCreatedKeys env c.KeyConfig) w).2.trace =
      (createKeys env c.KeyConfig w).2.trace := by
    rw [wrapping_snd]
    unfold assignCreatedKeys
    rcases createKeys env c.KeyConfig w with ⟨r, w1⟩
    rcases r with ⟨eks, ak, ik⟩ | e | msg <;> rfl
  obtain ⟨evs0, h3⟩ := createKeys_first_event env c.KeyConfig w
  rw [h2, h3] at h1
  unfold newEvents
  refine (congrArg (fun t => Event.call .createKeys ∈ List.drop w.trace.length t) h1).mpr ?_
  simp

/-- C5 as stated fails: in a store that holds both chains and the AK blob but not
`ik_encrypted.json`, with a readable SRK, `IsTpmProvisioningRequired` reports that no
provisioning is required, and `NewTpm` enters `loadTpmKeys` and never `createKeys`. -/
theorem store_without_ik_blob_is_loaded :
    sampleStoreWithoutIkBlob.pathExists (pathJoin "s" ikFile) = false ∧
      (IsTpmProvisioningRequired sampleEnv "s" sampleStoreWithoutIkBlob).1 = .ok (false, none) ∧
      Event.call .loadTpmKeys ∈
        (NewTpm sampleEnv (sampleConfig sampleMetadata) sampleStoreWithoutIkBlob).2.trace ∧
      Event.call .createKeys ∉
        (NewTpm sampleEnv (sampleConfig sampleMetadata) sampleStoreWithoutIkBlob).2.trace ∧
      (NewTpm sampleEnv (sampleConfig sampleMetadata) sampleStoreWithoutIkBlob).1 =
        .error ⟨[.loadKeysFailed, .readFile], "s/ik_encrypted.json"⟩ := by
  decide!

/-- C5, amended: for every key-store state in which `akchain.pem` or `ikchain.pem` is
missing, the store is treated as unprovisioned: `IsTpmProvisioningRequired` returns
`(true, nil)`, a run of `NewTpm` shows no event of the load branch, and it enters
`createKeys` whenever its preparation succeeds (serializer initialised, storage folder
present or created, PCR set found, TPM closed before and opened by `OpenTpm`). -/
theorem NewTpm_provisions_when_chain_missing (env : Env) (c : Config) (w : World)
    (hmiss : w.pathExists (pathJoin c.StoragePath akchainFile) = false ∨
      w.pathExists (pathJoin c.StoragePath ikchainFile) = false) :
    (IsTpmProvisioningRequired env c.StoragePath w).1 = .ok (true, none) ∧
      (∀ ev ∈ newEvents w (NewTpm env c w).2, ev.isLoad = false) ∧
      (c.Serializer.kind ≠ .uninitialized →
        (w.pathExists c.StoragePath = true ∨ env.mkdirAll c.StoragePath = true) →
        (∃ pcrs, getTpmPcrs c = .ok pcrs) → w.TPM = none →
        (∃ h, env.attestOpenTPM = .ok h) →
        Event.call .createKeys ∈ newEvents w (NewTpm env c w).2) := by
  have hres := prepare_result env c w
  have hstep := (prepare_steps env c).run w
  obtain ⟨t1, p1, -⟩ := Step.newEvents_eq hstep
  refine ⟨provisioningRequired_of_chain_missing env c.StoragePath w hmiss, ?_, ?_⟩
  · rcases hp : prepare env c w with ⟨r, w1⟩
    rw [hp] at hres t1 p1
    dsimp only at hres t1 p1
    rcases r with ⟨pcrs, b⟩ | e | msg
    · obtain ⟨hw, -, -⟩ := NewTpm_of_prepare_ok env c w w1 pcrs b hp
      have hb : b = true := by
        rcases hres with ⟨e0, he0, -⟩ | ⟨pcrs', b', h, hr, -, -, -, -, -, -, hiff, -⟩
        · simp at he0
        · simp only [Result.ok.injEq, Prod.mk.injEq] at hr
          obtain ⟨-, rfl⟩ := hr
          exact hiff.2 (hmiss.elim Or.inl (fun h => Or.inr (Or.inl h)))
      subst hb
      simp only [if_true] at hw
      have hs2 := (provision_steps env c).run w1
      rw [← hw] at hs2
      obtain ⟨t2, p2, -⟩ := Step.newEvents_eq hs2
      intro ev hev
      rw [newEvents_trans t1 t2] at hev
      rcases List.mem_append.1 hev with hev | hev
      · exact isSetup_not_isLoad ev (p1 ev hev)
      · have := p2 ev hev
        simp only [Bool.or_eq_true] at this
        rcases this with h | h
        · exact isProvisioning_not_isLoad ev h
        · exact isSave_not_isLoad ev h
    · have hN : (NewTpm env c w).2 = w1 := by rw [run_NewTpm, hp]
      rw [hN]
      exact fun ev hev => isSetup_not_isLoad ev (p1 ev hev)
    · have hN : (NewTpm env c w).2 = w1 := by rw [run_NewTpm, hp]
      rw [hN]
      exact fun ev hev => isSetup_not_isLoad ev (p1 ev hev)
  · intro hk hdir ⟨pcrs0, hpcrs⟩ hT ⟨h0, ho⟩
    rcases hres with ⟨e0, -, hc⟩ | ⟨pcrs, b, h, hr, -, -, -, -, -, -, hiff, -⟩
    · exfalso
      rcases hc with ⟨-, h⟩ | ⟨-, h⟩ | ⟨-, e1, h⟩ | ⟨-, ha, hi, -⟩ | ⟨-, h | ⟨msg, h⟩⟩
      · exact hk h
      · exact h hdir
      · rw [hpcrs] at h; simp at h
      · rcases hmiss with hm | hm
        · rw [hm] at ha; simp at ha
        · rw [hm] at hi; simp at hi
      · exact h hT
      · rw [ho] at h; simp at h
    · have hb : b = true := hiff.2 (hmiss.elim Or.inl (fun h => Or.inr (Or.inl h)))
      subst hb
      rcases hp : prepare env c w with ⟨r, w1⟩
      rw [hp] at hr t1
      dsimp only at hr t1
      subst hr
      obtain ⟨hw, -, -⟩ := NewTpm_of_prepare_ok env c w w1 pcrs true hp
      simp only [if_true] at hw
      have hs2 := (provision_steps env c).run w1
      obtain ⟨t2, -, -⟩ := Step.newEvents_eq hs2
      rw [hw, newEvents_trans t1 t2]
      exact List.mem_append.2 (Or.inr (provision_first_event env c w1))

/-- C5, amended, on the empty store with the sample environment, for the storage paths `s`
and `s/`. -/
theorem NewTpm_provisions_when_chain_missing_witness :
    ((IsTpmProvisioningRequired sampleEnv "s" {}).1 = .ok (true, none) ∧
      (∀ ev ∈ newEvents {} (NewTpm sampleEnv (sampleConfig sampleMetadata) {}).2,
        ev.isLoad = false) ∧
      Event.call .createKeys ∈
        newEvents {} (NewTpm sampleEnv (sampleConfig sampleMetadata) {}).2) ∧
    ((IsTpmProvisioningRequired sampleEnv "s/" {}).1 = .ok (true, none) ∧
      (∀ ev ∈ newEvents {} (NewTpm sampleEnv sampleConfigSlash {}).2, ev.isLoad = false) ∧
      Event.call .createKeys ∈ newEvents {} (NewTpm sampleEnv sampleConfigSlash {}).2) :=
  have h := NewTpm_provisions_when_chain_missing sampleEnv (sampleConfig sampleMetadata) {}
    (Or.inl (by decide))
  have h2 := NewTpm_provisions_when_chain_missing sampleEnv sampleConfigSlash {}
    (Or.inl (by decide))
  ⟨⟨h.1, h.2.1, h.2.2 (by decide) (Or.inr rfl) ⟨[0, 2, 4], by decide⟩ rfl ⟨⟨1⟩, rfl⟩⟩,
    ⟨h2.1, h2.2.1, h2.2.2 (by decide) (Or.inr rfl) ⟨[0, 2, 4], by decide⟩ rfl ⟨⟨1⟩, rfl⟩⟩⟩

/-! ## Saving and the next run -/

theorem run_osWriteFile (env : Env) (path : String) (data : Bytes) (w : World) :
    osWriteFile env path data w =
      match env.writeOutcome path data with
      | .written => (.ok true, { w with files := (path, data) :: w.files,
                                        trace := w.trace ++ [.writeFile path data] })
      | .failUntouched => (.ok false, { w with trace := w.trace ++ [.writeFile path data] })
      | .failTruncated n => (.ok false, { w with files := (path, data.take n) :: w.files,
                                                 trace := w.trace ++ [.writeFile path data] }) := by
  unfold osWriteFile
  cases env.writeOutcome path data <;> simp

/-- What `saveCerts` does, by the outcomes of its two writes. -/
theorem run_saveCerts (env : Env) (sp : String) (akchain ikchain : List Certificate) (w : World) :
    saveCerts env sp akchain ikchain w =
      match env.writeOutcome (pathJoin sp akchainFile) (chainPem env akchain) with
      | .written =>
        match env.writeOutcome (pathJoin sp ikchainFile) (chainPem env ikchain) with
        | .written =>
          (.ok (), { w with
            files := (pathJoin sp ikchainFile, chainPem env ikchain) ::
              (pathJoin sp akchainFile, chainPem env akchain) :: w.files,
            trace := w.trace ++ [.call .saveCerts,
              .writeFile (pathJoin sp akchainFile) (chainPem env akchain),
              .writeFile (pathJoin sp ikchainFile) (chainPem env ikchain)] })
        | .failUntouched =>
          (.error (Err.new .writeFile (pathJoin sp ikchainFile)), { w with
            files := (pathJoin sp akchainFile, chainPem env akchain) :: w.files,
            trace := w.trace ++ [.call .saveCerts,
              .writeFile (pathJoin sp akchainFile) (chainPem env akchain),
              .writeFile (pathJoin sp ikchainFile) (chainPem env ikchain)] })
        | .failTruncated n =>
          (.error (Err.new .writeFile (pathJoin sp ikchainFile)), { w with
            files := (pathJoin sp ikchainFile, (chainPem env ikchain).take n) ::
              (pathJoin sp akchainFile, chainPem env akchain) :: w.files,
            trace := w.trace ++ [.call .saveCerts,
              .writeFile (pathJoin sp akchainFile) (chainPem env akchain),
              .writeFile (pathJoin sp ikchainFile) (chainPem env ikchain)] })
      | .failUntouched =>
        (.error (Err.new .writeFile (pathJoin sp akchainFile)), { w with
          trace := w.trace ++ [.call .saveCerts,
            .writeFile (pathJoin sp akchainFile) (chainPem env akchain)] })
      | .failTruncated n =>
        (.error (Err.new .writeFile (pathJoin sp akchainFile)), { w with
          files := (pathJoin sp akchainFile, (chainPem env akchain).take n) :: w.files,
          trace := w.trace ++ [.call .saveCerts,
            .writeFile (pathJoin sp akchainFile) (chainPem env akchain)] }) := by
  unfold saveCerts
  simp only [run_bind, run_emit, run_osWriteFile]
  cases h1 : env.writeOutcome (pathJoin sp akchainFile) (chainPem env akchain) <;>
    cases h2 : env.writeOutcome (pathJoin sp ikchainFile) (chainPem env ikchain) <;>
    simp [run_osWriteFile, run_ite, h1, h2]

theorem isProvisioning_not_isMkdir (ev : Event) (h : ev.isProvisioning = true) :
    ev.isMkdir = false := by
  cases ev with
  | call f => cases f <;> simp_all [Event.isProvisioning, Event.isMkdir]
  | _ => simp_all [Event.isProvisioning, Event.isMkdir]

@[simp] theorem pathExists_restart (w : World) (p : String) :
    w.restart.pathExists p = w.pathExists p := rfl

theorem pathExists_of_store_eq {w w' : World} (hf : w'.files = w.files) (hd : w'.dirs = w.dirs)
    (p : String) : w'.pathExists p = w.pathExists p := by
  simp [World.pathExists, hf, hd]

/-- C6 fails in the code.  When the write of `ak_encrypted.json` fails in `saveKeys`,
`NewTpm` returns the error of `saveKeys` and removes nothing: the store it leaves holds
`akchain.pem` and `ikchain.pem` but neither key blob.  On the next run (a fresh process on
the store left behind, SRK readable) `IsTpmProvisioningRequired` returns `(false, nil)`:
it looks at the two chain files and at the SRK, not at the encrypted AK blob that its
comment names, so the partial store is not treated as unprovisioned, and `NewTpm` fails
in `loadTpmKeys`. -/
theorem failed_key_write_leaves_partial_store :
    (NewTpm sampleEnvKeyWriteFails (sampleConfig sampleMetadata) {}).1 =
        .error ⟨[.saveKeysFailed, .writeFile], "s/ak_encrypted.json"⟩ ∧
      (NewTpm sampleEnvKeyWriteFails (sampleConfig sampleMetadata) {}).2.restart.files =
        [("s/ikchain.pem", [1, 8, 1, 9]), ("s/akchain.pem", [1, 6, 1, 9])] ∧
      (NewTpm sampleEnvKeyWriteFails (sampleConfig sampleMetadata) {}).2.restart.pathExists
        (pathJoin "s" akFile) = false ∧
      sampleEnv.tpm2ReadPublic 0x81000001 = true ∧
      (IsTpmProvisioningRequired sampleEnv "s"
        (NewTpm sampleEnvKeyWriteFails (sampleConfig sampleMetadata) {}).2.restart).1 =
          .ok (false, none) ∧
      (NewTpm sampleEnv (sampleConfig sampleMetadata)
        (NewTpm sampleEnvKeyWriteFails (sampleConfig sampleMetadata) {}).2.restart).1 =
          .error ⟨[.loadKeysFailed, .readFile], "s/ak_encrypted.json"⟩ := by
  decide!

/-! ## Provisioning, then loading -/

theorem saveKeys_ok (env : Env) (sp : String) (w w' : World)
    (h : saveKeys env sp w = (.ok (), w')) :
    ∃ akBytes ikBytes,
      w'.files = (pathJoin sp ikFile, ikBytes) :: (pathJoin sp akFile, akBytes) :: w.files ∧
      w'.dirs = w.dirs := by
  unfold saveKeys at h
  simp only [run_bind, run_emit, run_getWorld, run_osWriteFile] at h
  cases hak : w.ak with
  | none => simp [hak] at h
  | some ak =>
    simp only [hak, run_bind, run_emit] at h
    cases hm : env.akMarshal ak with
    | error msg => simp [hm] at h
    | ok akBytes =>
      simp only [hm, run_ext_ok, run_osWriteFile] at h
      cases ho : env.writeOutcome (pathJoin sp akFile) akBytes with
      | failUntouched => simp [ho, run_ite] at h
      | failTruncated n => simp [ho, run_ite] at h
      | written =>
        simp only [ho, run_ite] at h
        cases hik : w.ik with
        | none => simp [hik] at h
        | some ik =>
          simp only [hik, run_bind, run_emit] at h
          cases hm2 : env.ikMarshal ik with
          | error msg => simp [hm2] at h
          | ok ikBytes =>
            simp only [hm2, run_ext_ok, run_osWriteFile] at h
            cases ho2 : env.writeOutcome (pathJoin sp ikFile) ikBytes with
            | failUntouched => simp [ho2, run_ite] at h
            | failTruncated n => simp [ho2, run_ite] at h
            | written =>
              simp [ho2, run_ite] at h
              subst h
              exact ⟨akBytes, ikBytes, rfl, rfl⟩

theorem saveCerts_ok (env : Env) (sp : String) (akchain ikchain : List Certificate) (w w' : World)
    (h : saveCerts env sp akchain ikchain w = (.ok (), w')) :
    w'.files = (pathJoin sp ikchainFile, chainPem env ikchain) ::
        (pathJoin sp akchainFile, chainPem env akchain) :: w.files ∧
      w'.dirs = w.dirs := by
  rw [run_saveCerts] at h
  cases ho1 : env.writeOutcome (pathJoin sp akchainFile) (chainPem env akchain) <;>
    rw [ho1] at h <;> simp at h
  cases ho2 : env.writeOutcome (pathJoin sp ikchainFile) (chainPem env ikchain) <;>
    rw [ho2] at h <;> simp at h
  subst h
  exact ⟨rfl, rfl⟩

theorem run_osReadFile (path : String) (w : World) :
    osReadFile path w =
      match w.files.lookup path with
      | some data => (.ok data, { w with trace := w.trace ++ [.readFile path] })
      | none => (.error (Err.new .readFile path), { w with trace := w.trace ++ [.readFile path] }) := by
  unfold osReadFile
  simp only [run_bind, run_emit, run_getWorld]
  cases w.files.lookup path <;> rfl

/-- The load branch on a store that holds the four files, with a TPM that loads both blobs
and chains that parse. -/
theorem load_ok (env : Env) (c : Config) (w : World) (h : TPMHandle) (akBytes ikBytes : Bytes)
    (ak : AK) (ik : Key) (akPem ikPem : Bytes) (akchain ikchain : List Certificate)
    (hT : w.TPM = some h)
    (h1 : w.files.lookup (pathJoin c.StoragePath akFile) = some akBytes)
    (h2 : env.tpmLoadAK akBytes = .ok ak)
    (h3 : w.files.lookup (pathJoin c.StoragePath ikFile) = some ikBytes)
    (h4 : env.tpmLoadKey ikBytes = .ok ik)
    (h5 : w.files.lookup (pathJoin c.StoragePath akchainFile) = some akPem)
    (h6 : env.ParseCerts akPem = .ok akchain)
    (h7 : w.files.lookup (pathJoin c.StoragePath ikchainFile) = some ikPem)
    (h8 : env.ParseCerts ikPem = .ok ikchain) :
    load env c w = (.ok (akchain, ikchain),
      { w with
        ak := some ak
        ik := some ik
        trace := w.trace ++
          [.call .loadTpmKeys, .readFile (pathJoin c.StoragePath akFile), .tpmLoadAK akBytes,
            .readFile (pathJoin c.StoragePath ikFile), .tpmLoadKey ikBytes,
            .call .loadTpmCerts, .readFile (pathJoin c.StoragePath akchainFile),
            .readFile (pathJoin c.StoragePath ikchainFile)] }) := by
  unfold load loadTpmKeys loadTpmCerts
  simp [run_wrapping, run_osReadFile, hT, h1, h2, h3, h4, h5, h6, h7, h8]

theorem bind_pathExists_mono {α β : Type} {P : Event → Bool} (m : M α) (f : α → M β)
    (hf : ∀ a, Steps P (f a)) (w : World) (p : String)
    (h : (m w).2.pathExists p = true) : ((m >>= f) w).2.pathExists p = true := by
  rw [run_bind]
  rcases hm : m w with ⟨r, w1⟩
  rw [hm] at h
  rcases r with a | e | msg
  · obtain ⟨-, -, -, g, -⟩ := (hf a).run w1
    exact g p h
  · exact h
  · exact h

/-- After a successful preparation the storage folder exists. -/
theorem prepare_ok_dir (env : Env) (c : Config) (w : World) (x : List Int × Bool)
    (h : (prepare env c w).1 = .ok x) :
    (prepare env c w).2.pathExists c.StoragePath = true := by
  rcases prepare_result env c w with ⟨e0, he0, -⟩ | ⟨pcrs, b, hdl, -, -, hk, -, -, -, hdir, -⟩
  · rw [h] at he0; simp at he0
  · have hcs : checkSerializer c w = (.ok (), w) := by
      rw [run_checkSerializer]; simp [hk]
    have hstore : (createStorage env c w).2.pathExists c.StoragePath = true := by
      rw [run_createStorage]
      by_cases h1 : w.pathExists c.StoragePath = true
      · rw [if_pos h1]
        exact h1
      · have h2 : env.mkdirAll c.StoragePath = true := hdir.resolve_left h1
        rw [if_neg h1, if_pos h2]
        simp [World.pathExists]
    have key := bind_pathExists_mono (P := Event.isSetup) (createStorage env c)
      (fun _ => (do
        let pcrs ← retrievePcrs c
        let provisioningRequired ← checkProvisioned env c
        wrapping .openTpmFailed (OpenTpm env)
        pure (pcrs, provisioningRequired) : M (List Int × Bool)))
      (fun _ => by
        unfold retrievePcrs checkProvisioned
        repeat (first
          | exact Steps.pure _ _ | exact Steps.fail _ _ | exact Steps.emit _ _ rfl
          | exact IsTpmProvisioningRequired_steps _ _
          | exact Steps.wrapping _ (OpenTpm_steps _)
          | apply Steps.bind | intro _ | dsimp only | split)) w c.StoragePath hstore
    have hprep : prepare env c w = (createStorage env c >>= fun _ => (do
        let pcrs ← retrievePcrs c
        let provisioningRequired ← checkProvisioned env c
        wrapping .openTpmFailed (OpenTpm env)
        pure (pcrs, provisioningRequired) : M (List Int × Bool))) w := by
      show (checkSerializer c >>= fun _ => _) w = _
      rw [run_bind, hcs]
    rw [hprep]
    exact key

theorem lookup_cons_self (fs : List (String × Bytes)) (p : String) (d : Bytes) :
    ((p, d) :: fs).lookup p = some d := by
  simp [List.lookup]

theorem lookup_cons_ne (fs : List (String × Bytes)) (p q : String) (d : Bytes) (h : p ≠ q) :
    ((q, d) :: fs).lookup p = fs.lookup p := by
  have : (p == q) = false := by simpa using h
  simp [List.lookup, this]

theorem store_paths_ne (dir f g : String) (hf : plainName f = true) (hg : plainName g = true)
    (h : f ≠ g) : pathJoin dir f ≠ pathJoin dir g :=
  fun hh => h (pathJoin_injective dir f g hf hg hh)

/-- The store after a successful run of the provisioning branch holds the PEM encoding of
the two chains it returns, and both key blobs. -/
theorem provision_ok_store (env : Env) (c : Config) (w w' : World)
    (akchain ikchain : List Certificate)
    (h : provision env c w = (.ok (akchain, ikchain), w')) :
    w'.files.lookup (pathJoin c.StoragePath akchainFile) = some (chainPem env akchain) ∧
      w'.files.lookup (pathJoin c.StoragePath ikchainFile) = some (chainPem env ikchain) ∧
      (∃ akBytes, w'.files.lookup (pathJoin c.StoragePath akFile) = some akBytes) ∧
      (∃ ikBytes, w'.files.lookup (pathJoin c.StoragePath ikFile) = some ikBytes) := by
  have h1 : (provision env c w).1 = .ok (akchain, ikchain) := by rw [h]
  have h2 : (provision env c w).2 = w' := by rw [h]
  rcases provision_cases env c w with ⟨e1, he1, -⟩ | ⟨msg, hm⟩ |
      ⟨w2, ak', ik', -, ⟨e1, -, he1⟩ | ⟨w3, hsc, ⟨e1, -, he1⟩ | ⟨hsk, he1⟩⟩⟩
  · rw [he1] at h1; simp at h1
  · rw [hm] at h1; simp at h1
  · rw [he1] at h1; simp at h1
  · rw [he1] at h1; simp at h1
  · rw [he1] at h1
    simp only [Result.ok.injEq, Prod.mk.injEq] at h1
    obtain ⟨rfl, rfl⟩ := h1
    rw [h2] at hsk
    obtain ⟨f3, -⟩ := saveCerts_ok env c.StoragePath ak' ik' w2 w3 hsc
    obtain ⟨akBytes, ikBytes, f4, -⟩ := saveKeys_ok env c.StoragePath w3 w' hsk
    rw [f4, f3]
    have n1 := store_paths_ne c.StoragePath akchainFile ikFile (by decide) (by decide) (by decide)
    have n2 := store_paths_ne c.StoragePath akchainFile akFile (by decide) (by decide) (by decide)
    have n3 := store_paths_ne c.StoragePath akchainFile ikchainFile (by decide) (by decide) (by decide)
    have n4 := store_paths_ne c.StoragePath ikchainFile ikFile (by decide) (by decide) (by decide)
    have n5 := store_paths_ne c.StoragePath ikchainFile akFile (by decide) (by decide) (by decide)
    have n6 := store_paths_ne c.StoragePath akFile ikFile (by decide) (by decide) (by decide)
    refine ⟨?_, ?_, ⟨akBytes, ?_⟩, ⟨ikBytes, ?_⟩⟩
    · rw [lookup_cons_ne _ _ _ _ n1, lookup_cons_ne _ _ _ _ n2, lookup_cons_ne _ _ _ _ n3,
        lookup_cons_self]
    · rw [lookup_cons_ne _ _ _ _ n4, lookup_cons_ne _ _ _ _ n5, lookup_cons_self]
    · rw [lookup_cons_ne _ _ _ _ n6, lookup_cons_self]
    · rw [lookup_cons_self]

theorem pathExists_of_lookup (w : World) (p : String) (d : Bytes)
    (h : w.files.lookup p = some d) : w.pathExists p = true := by
  simp [World.pathExists, h]

/-- C7: provisioning is idempotent.  Let a call of `NewTpm` succeed on a store for which
provisioning was required (a chain file missing, or the SRK not readable), so that it wrote
both chains and both key blobs.  Re-run `NewTpm` with the same configuration on the store
it left, with the TPM handle closed, the TPM device and the SRK readable, a TPM that loads
the two saved blobs, and a PEM parser that reads back the two saved chains.  Then the
second call succeeds and yields the same `Tpm` object, in particular the same AK and IK
chains; it enters `loadTpmKeys` and `loadTpmCerts`; none of its events belongs to
`createKeys`, `createCsrs`, `provisionTpm` or the enrollment client; and it leaves the
files of the store unchanged. -/
theorem provisioning_is_idempotent (env1 env2 : Env) (c : Config) (w0 w1 wr : World)
    (tpm1 : Tpm) (h : TPMHandle)
    (hrun1 : NewTpm env1 c w0 = (.ok tpm1, w1))
    (hreq : w0.pathExists (pathJoin c.StoragePath akchainFile) = false ∨
      w0.pathExists (pathJoin c.StoragePath ikchainFile) = false ∨
      env1.tpm2ReadPublic 0x81000001 = false)
    (hfiles : wr.files = w1.files) (hdirs : wr.dirs = w1.dirs) (hclosed : wr.TPM = none)
    (hdev : env2.tpm2OpenTPM = true) (hsrk : env2.tpm2ReadPublic 0x81000001 = true)
    (hopen : env2.attestOpenTPM = .ok h)
    (hloadAK : ∀ blob, wr.files.lookup (pathJoin c.StoragePath akFile) = some blob →
      ∃ ak, env2.tpmLoadAK blob = .ok ak)
    (hloadIK : ∀ blob, wr.files.lookup (pathJoin c.StoragePath ikFile) = some blob →
      ∃ ik, env2.tpmLoadKey blob = .ok ik)
    (hpemAK : env2.ParseCerts (chainPem env1 tpm1.MeasuringCerts) = .ok tpm1.MeasuringCerts)
    (hpemIK : env2.ParseCerts (chainPem env1 tpm1.SigningCerts) = .ok tpm1.SigningCerts) :
    ∃ w2, NewTpm env2 c wr = (.ok tpm1, w2) ∧
      Event.call .loadTpmKeys ∈ newEvents wr w2 ∧
      Event.call .loadTpmCerts ∈ newEvents wr w2 ∧
      (∀ ev ∈ newEvents wr w2, ev.isProvisioning = false) ∧
      w2.files = wr.files := by
  -- the first run
  have r1 : (NewTpm env1 c w0).1 = .ok tpm1 := by rw [hrun1]
  have r2 : (NewTpm env1 c w0).2 = w1 := by rw [hrun1]
  obtain ⟨pcrs, hpcrs, hk, hA, hI, hakB, hikB, hdirOk⟩ :
      ∃ pcrs, getTpmPcrs c = .ok pcrs ∧ c.Serializer.kind ≠ .uninitialized ∧
        w1.files.lookup (pathJoin c.StoragePath akchainFile) =
          some (chainPem env1 tpm1.MeasuringCerts) ∧
        w1.files.lookup (pathJoin c.StoragePath ikchainFile) =
          some (chainPem env1 tpm1.SigningCerts) ∧
        (∃ akBytes, w1.files.lookup (pathJoin c.StoragePath akFile) = some akBytes) ∧
        (∃ ikBytes, w1.files.lookup (pathJoin c.StoragePath ikFile) = some ikBytes) ∧
        w1.pathExists c.StoragePath = true ∧
        tpm1.Pcrs = pcrs ∧ tpm1.UseIma = c.UseIma ∧ tpm1.ImaPcr = c.ImaPcr := by
    rcases prepare_result env1 c w0 with ⟨e0, he0, -⟩ | ⟨pcrs, b, hdl, hr, hgp, hk, -, -, -, -, hiff, -⟩
    · exfalso
      rw [run_NewTpm] at r1
      rcases hp : prepare env1 c w0 with ⟨r, wp⟩
      rw [hp] at r1 he0
      dsimp only at he0
      subst he0
      simp at r1
    · have hb : b = true := hiff.2 hreq
      subst hb
      have hd := prepare_ok_dir env1 c w0 _ hr
      rcases hp : prepare env1 c w0 with ⟨r, wp⟩
      rw [hp] at hr hd
      dsimp only at hr hd
      subst hr
      obtain ⟨hw, -, hok⟩ := NewTpm_of_prepare_ok env1 c w0 wp pcrs true hp
      rw [r2] at hw
      simp only [if_true] at hw hok
      obtain ⟨akchain, ikchain, hprov, ht⟩ := (hok tpm1).1 r1
      have hfull : provision env1 c wp = (.ok (akchain, ikchain), w1) := by
        rw [hw, ← hprov]
      obtain ⟨s1, s2, s3, s4⟩ := provision_ok_store env1 c wp w1 akchain ikchain hfull
      have hmono := (provision_steps env1 c).run wp
      rw [← hw] at hmono
      obtain ⟨-, -, -, g, -⟩ := hmono
      subst ht
      exact ⟨pcrs, hgp, hk, s1, s2, s3, s4, g _ hd, rfl, rfl, rfl⟩
  obtain ⟨hdirExists, hP, hU, hIm⟩ := hdirOk
  obtain ⟨akBytes, hakB⟩ := hakB
  obtain ⟨ikBytes, hikB⟩ := hikB
  -- the store seen by the second run
  rw [← hfiles] at hA hI hakB hikB
  have hdir2 : wr.pathExists c.StoragePath = true := by
    rw [pathExists_of_store_eq hfiles hdirs]; exact hdirExists
  obtain ⟨ak, hak⟩ := hloadAK akBytes hakB
  obtain ⟨ik, hik⟩ := hloadIK ikBytes hikB
  -- the second run
  have hframe := prepare_frame env2 c wr
  have hstep := (prepare_steps env2 c).run wr
  rcases prepare_result env2 c wr with ⟨e0, -, hc⟩ |
      ⟨pcrs2, b, h2, hr, hp2, -, -, ho2, hT2, -, hiff, -⟩
  · exfalso
    rcases hc with ⟨-, hh⟩ | ⟨-, hh⟩ | ⟨-, e1, hh⟩ | ⟨-, -, -, hh⟩ | ⟨-, hh | ⟨msg, hh⟩⟩
    · exact hk hh
    · exact hh (Or.inl hdir2)
    · rw [hpcrs] at hh; simp at hh
    · rw [hdev] at hh; simp at hh
    · exact hh hclosed
    · rw [hopen] at hh; simp at hh
  · have hb : b = false := by
      cases b
      · rfl
      · exfalso
        rcases hiff.1 rfl with hh | hh | hh
        · rw [pathExists_of_lookup wr _ _ hA] at hh; simp at hh
        · rw [pathExists_of_lookup wr _ _ hI] at hh; simp at hh
        · rw [hsrk] at hh; simp at hh
    subst hb
    have hpc : pcrs2 = pcrs := by
      rw [hpcrs] at hp2
      simpa using hp2.symm
    subst hpc
    rcases hp : prepare env2 c wr with ⟨r, wp⟩
    rw [hp] at hr hframe hstep hT2
    dsimp only at hr hframe hstep hT2
    subst hr
    obtain ⟨hw, -, hok⟩ := NewTpm_of_prepare_ok env2 c wr wp pcrs2 false hp
    simp only [Bool.false_eq_true, if_false] at hw hok
    obtain ⟨fF, -, -⟩ := hframe
    have hload := load_ok env2 c wp h2 akBytes ikBytes ak ik
      (chainPem env1 tpm1.MeasuringCerts) (chainPem env1 tpm1.SigningCerts)
      tpm1.MeasuringCerts tpm1.SigningCerts hT2
      (by rw [fF]; exact hakB) hak (by rw [fF]; exact hikB) hik
      (by rw [fF]; exact hA) hpemAK (by rw [fF]; exact hI) hpemIK
    have hres : (NewTpm env2 c wr).1 = .ok tpm1 := by
      refine (hok tpm1).2 ⟨tpm1.MeasuringCerts, tpm1.SigningCerts, by rw [hload], ?_⟩
      cases tpm1
      simp only [Tpm.mk.injEq] at hP hU hIm ⊢
      simp [hP, hU, hIm]
    obtain ⟨t1, p1, -⟩ := Step.newEvents_eq hstep
    refine ⟨(NewTpm env2 c wr).2, by rw [← hres], ?_, ?_, ?_, ?_⟩
    all_goals rw [hw, hload]
    · rw [newEvents_trans t1 rfl]
      simp
    · rw [newEvents_trans t1 rfl]
      simp
    · rw [newEvents_trans t1 rfl]
      intro ev hev
      rcases List.mem_append.1 hev with hev | hev
      · exact isSetup_not_isProvisioning ev (p1 ev hev)
      · simp only [List.mem_cons, List.mem_singleton, List.not_mem_nil, or_false] at hev
        rcases hev with rfl | rfl | rfl | rfl | rfl | rfl | rfl | rfl <;> rfl
    · exact fF

/-- C7 on the empty store with the sample environment, for the storage paths `s` and
`s/`: the second run, in a fresh process on the store of the first, loads what the first
run saved. -/
theorem provisioning_is_idempotent_witness :
    (∃ w2,
      NewTpm sampleEnv (sampleConfig sampleMetadata) sampleProvisionedStore =
        (.ok ⟨[0, 2, 4], [⟨[8]⟩, ⟨[9]⟩], [⟨[6]⟩, ⟨[9]⟩], false, 10⟩, w2) ∧
      Event.call .loadTpmKeys ∈ newEvents sampleProvisionedStore w2 ∧
      Event.call .loadTpmCerts ∈ newEvents sampleProvisionedStore w2 ∧
      (∀ ev ∈ newEvents sampleProvisionedStore w2, ev.isProvisioning = false) ∧
      w2.files = sampleProvisionedStore.files) ∧
    (∃ w2,
      NewTpm sampleEnv sampleConfigSlash (NewTpm sampleEnv sampleConfigSlash {}).2.restart =
        (.ok ⟨[0, 2, 4], [⟨[8]⟩, ⟨[9]⟩], [⟨[6]⟩, ⟨[9]⟩], false, 10⟩, w2) ∧
      Event.call .loadTpmKeys ∈
        newEvents (NewTpm sampleEnv sampleConfigSlash {}).2.restart w2 ∧
      Event.call .loadTpmCerts ∈
        newEvents (NewTpm sampleEnv sampleConfigSlash {}).2.restart w2 ∧
      (∀ ev ∈ newEvents (NewTpm sampleEnv sampleConfigSlash {}).2.restart w2,
        ev.isProvisioning = false) ∧
      w2.files = (NewTpm sampleEnv sampleConfigSlash {}).2.restart.files) :=
  ⟨provisioning_is_idempotent sampleEnv sampleEnv (sampleConfig sampleMetadata) {}
      (NewTpm sampleEnv (sampleConfig sampleMetadata) {}).2 sampleProvisionedStore
      ⟨[0, 2, 4], [⟨[8]⟩, ⟨[9]⟩], [⟨[6]⟩, ⟨[9]⟩], false, 10⟩ ⟨1⟩
      (by decide!) (Or.inl (by decide!)) (by decide!) (by decide!) (by decide!) (by decide!)
      (by decide!) (by decide!)
      (fun _ _ => ⟨⟨1, {}⟩, rfl⟩) (fun _ _ => ⟨⟨2, {}⟩, rfl⟩) (by decide!) (by decide!),
    provisioning_is_idempotent sampleEnv sampleEnv sampleConfigSlash {}
      (NewTpm sampleEnv sampleConfigSlash {}).2 (NewTpm sampleEnv sampleConfigSlash {}).2.restart
      ⟨[0, 2, 4], [⟨[8]⟩, ⟨[9]⟩], [⟨[6]⟩, ⟨[9]⟩], false, 10⟩ ⟨1⟩
      (by decide!) (Or.inl (by decide!)) (by decide!) (by decide!) (by decide!) (by decide!)
      (by decide!) (by decide!)
      (fun _ _ => ⟨⟨1, {}⟩, rfl⟩) (fun _ _ => ⟨⟨2, {}⟩, rfl⟩) (by decide!) (by decide!)⟩

/-! ## `Measure` -/

theorem run_GetTpmMeasurement (env : Env) (t : Tpm) (nonce : Bytes) (pcrs : List Int)
    (w : World) :
    GetTpmMeasurement env t nonce pcrs w =
      match w.TPM, w.ak with
      | none, _ => (.error (Err.new .notOpened),
          { w with trace := w.trace ++ [.call .GetTpmMeasurement] })
      | some _, none => (.error (Err.new .akMissing),
          { w with trace := w.trace ++ [.call .GetTpmMeasurement] })
      | some _, some ak =>
        match env.tpmPCRs .HashSHA256 with
        | .error msg => (.error (Err.new .readPcrs msg),
            { w with trace := w.trace ++
              [.call .GetTpmMeasurement, .lock, .tpmPCRs .HashSHA256, .unlock] })
        | .ok pcrValues =>
          match env.akQuotePCRs ak nonce .HashSHA256 pcrs with
          | .error msg => (.error (Err.new .quoteFailed msg),
              { w with trace := w.trace ++
                [.call .GetTpmMeasurement, .lock, .tpmPCRs .HashSHA256,
                  .akQuotePCRs nonce .HashSHA256 pcrs, .unlock] })
          | .ok quote => (.ok (pcrValues, quote),
              { w with trace := w.trace ++
                [.call .GetTpmMeasurement, .lock, .tpmPCRs .HashSHA256,
                  .akQuotePCRs nonce .HashSHA256 pcrs, .unlock] }) := by
  unfold GetTpmMeasurement
  simp only [run_bind, run_emit, run_getWorld]
  cases hT : w.TPM with
  | none => simp
  | some hdl =>
    cases hak : w.ak with
    | none => simp
    | some ak =>
      cases hp : env.tpmPCRs .HashSHA256 with
      | error msg => simp [hp]
      | ok pcrValues =>
        cases hq : env.akQuotePCRs ak nonce .HashSHA256 pcrs with
        | error msg => simp [hp, hq]
        | ok quote => simp [hp, hq]

/-- The hash chain `Measure` returns for PCR values `pcrValues`, a PCR set `t.Pcrs` and the
hash chain `chain` of the first loop. -/
theorem run_Measure (env : Env) (t : Tpm) (nonce : Bytes) (w : World) :
    Measure env (some t) nonce w =
      match GetTpmMeasurement env t nonce t.Pcrs
          { w with trace := w.trace ++ [.call .Measure] } with
      | (.ok (pcrValues, quote), w1) =>
        match buildHashChain pcrValues t.Pcrs with
        | .ok chain =>
          if t.UseIma = true then
            (.ok { Type_ := "TPM Measurement"
                   HashChain := chain.map fun elem =>
                     if elem.Pcr = t.ImaPcr then
                       { elem with Sha256 :=
                          imaDigestsHex env.loopVarPerIteration env.imaGetRuntimeDigests.1 }
                     else elem
                   Message := quote.Quote
                   Signature := quote.Signature
                   Certs := WriteCertsPem env t.MeasuringCerts },
              { w1 with trace := w1.trace ++ [.imaGetRuntimeDigests] })
          else
            (.ok { Type_ := "TPM Measurement"
                   HashChain := chain
                   Message := quote.Quote
                   Signature := quote.Signature
                   Certs := WriteCertsPem env t.MeasuringCerts }, w1)
        | .error e => (.error e, w1)
        | .panic msg => (.panic msg, w1)
      | (.error e, w1) => (.error (Err.wrap .getMeasurement e), w1)
      | (.panic msg, w1) => (.panic msg, w1) := by
  unfold Measure
  simp only [run_bind, run_emit, run_wrapping]
  rcases GetTpmMeasurement env t nonce t.Pcrs { w with trace := w.trace ++ [.call .Measure] }
    with ⟨r, w1⟩
  rcases r with ⟨pcrValues, quote⟩ | e | msg
  · dsimp only
    cases hb : buildHashChain pcrValues t.Pcrs with
    | ok chain =>
      cases hi : t.UseIma <;> simp [run_ite, hi]
    | error e => rfl
    | panic msg => rfl
  · rfl
  · rfl

theorem toInt32_of_range (n : Int) (h0 : 0 ≤ n) (h1 : n < 2 ^ 31) : toInt32 n = n := by
  unfold toInt32
  have h2 : (n + 2 ^ 31) % 2 ^ 32 = n + 2 ^ 31 := Int.emod_eq_of_lt (by omega) (by omega)
  omega

/-- The first loop of `Measure`, when it does not panic: one element per entry of the PCR
set, in order, holding the digest found at that index of the PCR values. -/
theorem buildHashChain_ok (pcrValues : List PCR) (pcrs : List Int) (chain : List HashChainElem)
    (h : buildHashChain pcrValues pcrs = .ok chain) :
    chain.length = pcrs.length ∧
      ∀ i (hi : i < pcrs.length), 0 ≤ pcrs[i] ∧
        ∃ v, pcrValues[(pcrs[i]).toNat]? = some v ∧
          chain[i]? = some ⟨"Hash Chain", toInt32 pcrs[i], [v.Digest]⟩ := by
  induction pcrs generalizing chain with
  | nil =>
    simp only [buildHashChain, Result.ok.injEq] at h
    subst h
    exact ⟨rfl, fun i hi => absurd hi (by simp)⟩
  | cons num rest ih =>
    unfold buildHashChain at h
    by_cases hneg : num < 0
    · simp [hneg] at h
    · simp only [hneg, if_false] at h
      cases hv : pcrValues[num.toNat]? with
      | none => simp [hv] at h
      | some v =>
        simp only [hv] at h
        cases hr : buildHashChain pcrValues rest with
        | error e => simp [hr] at h
        | panic msg => simp [hr] at h
        | ok elems =>
          simp only [hr, Result.ok.injEq] at h
          subst h
          obtain ⟨hl, hel⟩ := ih elems hr
          refine ⟨by simp [hl], fun i hi => ?_⟩
          cases i with
          | zero => exact ⟨by simpa using hneg, v, by simpa using hv, by simp⟩
          | succ j =>
            have hj : j < rest.length := by simpa using hi
            obtain ⟨h0, v', hv', hc⟩ := hel j hj
            exact ⟨by simpa using h0, v', by simpa using hv', by simpa using hc⟩

/-- The first loop of `Measure` does not panic when every index of the PCR set is in the
range of the PCR values. -/
theorem buildHashChain_total (pcrValues : List PCR) (pcrs : List Int)
    (h : ∀ num ∈ pcrs, 0 ≤ num ∧ num < pcrValues.length) :
    ∃ chain, buildHashChain pcrValues pcrs = .ok chain := by
  induction pcrs with
  | nil => exact ⟨[], rfl⟩
  | cons num rest ih =>
    obtain ⟨elems, he⟩ := ih (fun n hn => h n (List.mem_cons_of_mem _ hn))
    obtain ⟨h0, h1⟩ := h num (List.mem_cons_self _ _)
    have hlt : num.toNat < pcrValues.length := by omega
    unfold buildHashChain
    simp only [not_lt.2 h0, if_false, List.getElem?_eq_getElem hlt, he]
    exact ⟨_, rfl⟩

theorem Measure_quote_events (env : Env) (t : Tpm) (nonce : Bytes) (w : World)
    (n : Bytes) (alg : HashAlg) (pcrs : List Int)
    (h : Event.akQuotePCRs n alg pcrs ∈ newEvents w (Measure env (some t) nonce w).2) :
    n = nonce ∧ alg = .HashSHA256 ∧ pcrs = t.Pcrs := by
  rw [run_Measure, run_GetTpmMeasurement] at h
  dsimp only at h
  cases hT : w.TPM with
  | none => simp [newEvents, hT] at h
  | some hdl =>
    cases hak : w.ak with
    | none => simp [newEvents, hT, hak] at h
    | some ak =>
      cases hp : env.tpmPCRs .HashSHA256 with
      | error msg => simp [newEvents, hT, hak, hp] at h
      | ok pcrValues =>
        cases hq : env.akQuotePCRs ak nonce .HashSHA256 t.Pcrs with
        | error msg =>
          simp [newEvents, hT, hak, hp, hq] at h
          exact h
        | ok quote =>
          simp only [hT, hak, hp, hq] at h
          cases hb : buildHashChain pcrValues t.Pcrs with
          | error e => simp [newEvents, hb] at h; exact h
          | panic msg => simp [newEvents, hb] at h; exact h
          | ok chain =>
            cases hi : t.UseIma <;> simp [newEvents, hb, hi] at h <;> exact h

theorem Measure_ok_quote (env : Env) (t : Tpm) (nonce : Bytes) (w : World) (tm : TpmMeasurement)
    (h : (Measure env (some t) nonce w).1 = .ok tm) :
    ∃ ak quote pcrValues chain, w.ak = some ak ∧
      env.tpmPCRs .HashSHA256 = .ok pcrValues ∧
      env.akQuotePCRs ak nonce .HashSHA256 t.Pcrs = .ok quote ∧
      buildHashChain pcrValues t.Pcrs = .ok chain ∧
      Event.akQuotePCRs nonce .HashSHA256 t.Pcrs ∈
        newEvents w (Measure env (some t) nonce w).2 ∧
      tm.Message = quote.Quote ∧ tm.Signature = quote.Signature ∧
      (t.UseIma = false → tm.HashChain = chain) := by
  rw [run_Measure, run_GetTpmMeasurement] at h ⊢
  dsimp only at h ⊢
  cases hT : w.TPM with
  | none => simp [hT] at h
  | some hdl =>
    cases hak : w.ak with
    | none => simp [hT, hak] at h
    | some ak =>
      cases hp : env.tpmPCRs .HashSHA256 with
      | error msg => simp [hT, hak, hp] at h
      | ok pcrValues =>
        cases hq : env.akQuotePCRs ak nonce .HashSHA256 t.Pcrs with
        | error msg => simp [hT, hak, hp, hq] at h
        | ok quote =>
          simp only [hT, hak, hp, hq] at h ⊢
          cases hb : buildHashChain pcrValues t.Pcrs with
          | error e => simp [hb] at h
          | panic msg => simp [hb] at h
          | ok chain =>
            refine ⟨ak, quote, pcrValues, chain, rfl, rfl, hq, hb, ?_⟩
            cases hi : t.UseIma
            · simp only [hb, hi, Bool.false_eq_true, if_false, Result.ok.injEq] at h ⊢
              subst h
              simp [newEvents]
            · simp only [hb, hi, if_true, Result.ok.injEq] at h ⊢
              subst h
              simp [newEvents]

theorem Measure_total (env : Env) (t : Tpm) (nonce : Bytes) (w : World) (hdl : TPMHandle)
    (ak : AK) (pcrValues : List PCR) (quote : Quote) (hT : w.TPM = some hdl)
    (hak : w.ak = some ak) (hp : env.tpmPCRs .HashSHA256 = .ok pcrValues)
    (hq : env.akQuotePCRs ak nonce .HashSHA256 t.Pcrs = .ok quote)
    (hr : ∀ num ∈ t.Pcrs, 0 ≤ num ∧ num < pcrValues.length) :
    ∃ tm, (Measure env (some t) nonce w).1 = .ok tm := by
  obtain ⟨chain, hb⟩ := buildHashChain_total pcrValues t.Pcrs hr
  rw [run_Measure, run_GetTpmMeasurement]
  simp only [hT, hak, hp, hq, hb]
  cases hi : t.UseIma <;> simp

/-- C9: the quoted nonce equals the requested nonce.  For every nonce, every quote that
`Measure` requests from the TPM is requested with exactly the caller's nonce, SHA-256 and
the PCR set `t.Pcrs`; a measurement that `Measure` returns carries the message and the
signature of that quote unmodified; and `Measure` does return one whenever the TPM is
open, the AK exists, the PCR read and the quote succeed and every index of the PCR set is
in the range of the PCR values. -/
theorem Measure_quotes_requested_nonce (env : Env) (t : Tpm) (nonce : Bytes) (w : World) :
    (∀ n alg pcrs,
      Event.akQuotePCRs n alg pcrs ∈ newEvents w (Measure env (some t) nonce w).2 →
        n = nonce ∧ alg = .HashSHA256 ∧ pcrs = t.Pcrs) ∧
    (∀ tm, (Measure env (some t) nonce w).1 = .ok tm →
      ∃ ak quote, w.ak = some ak ∧
        env.akQuotePCRs ak nonce .HashSHA256 t.Pcrs = .ok quote ∧
        Event.akQuotePCRs nonce .HashSHA256 t.Pcrs ∈
          newEvents w (Measure env (some t) nonce w).2 ∧
        tm.Message = quote.Quote ∧ tm.Signature = quote.Signature) ∧
    (∀ hdl ak pcrValues quote, w.TPM = some hdl → w.ak = some ak →
      env.tpmPCRs .HashSHA256 = .ok pcrValues →
      env.akQuotePCRs ak nonce .HashSHA256 t.Pcrs = .ok quote →
      (∀ num ∈ t.Pcrs, 0 ≤ num ∧ num < pcrValues.length) →
      ∃ tm, (Measure env (some t) nonce w).1 = .ok tm ∧
        tm.Message = quote.Quote ∧ tm.Signature = quote.Signature) := by
  refine ⟨fun n alg pcrs h => Measure_quote_events env t nonce w n alg pcrs h, ?_, ?_⟩
  · intro tm h
    obtain ⟨ak, quote, -, -, h1, -, h3, -, h5, h6, h7, -⟩ := Measure_ok_quote env t nonce w tm h
    exact ⟨ak, quote, h1, h3, h5, h6, h7⟩
  · intro hdl ak pcrValues quote hT hak hp hq hr
    obtain ⟨tm, h⟩ := Measure_total env t nonce w hdl ak pcrValues quote hT hak hp hq hr
    obtain ⟨ak', quote', -, -, h1, -, h3, -, -, h6, h7, -⟩ := Measure_ok_quote env t nonce w tm h
    rw [hak] at h1
    injection h1 with h1
    subst h1
    rw [hq] at h3
    injection h3 with h3
    subst h3
    exact ⟨tm, h, h6, h7⟩

/-- C9 at the sample driver with nonce `[1, 2, 3]`: the quote comes back with that nonce. -/
theorem Measure_quotes_requested_nonce_witness :
    ∃ tm, (Measure sampleEnv (some sampleTpm) [1, 2, 3] sampleOpenWorld).1 = .ok tm ∧
      tm.Message = [1, 2, 3] ∧ tm.Signature = [7] :=
  (Measure_quotes_requested_nonce sampleEnv sampleTpm [1, 2, 3] sampleOpenWorld).2.2
    ⟨1⟩ ⟨1, {}⟩ samplePcrValues ⟨[1, 2, 3], [7]⟩ rfl rfl rfl rfl (by decide)

/-- C10: with IMA disabled, the hash chain that `Measure` returns has exactly one element
per index of `t.Pcrs`, in the same order: element `i` has `Pcr` equal to `t.Pcrs[i]` and a
digest list of length one holding the SHA-256 value read for that PCR (the entry of the
PCR values at that index; the TPM returns at most `2 ^ 31` of them).  `Measure` does
return whenever the TPM is open, the AK exists, the PCR read and the quote succeed and
every index is in the range of the PCR values. -/
theorem Measure_hash_chain_without_ima (env : Env) (t : Tpm) (nonce : Bytes) (w : World)
    (hima : t.UseIma = false) :
    (∀ tm pcrValues, (Measure env (some t) nonce w).1 = .ok tm →
      env.tpmPCRs .HashSHA256 = .ok pcrValues → pcrValues.length ≤ 2 ^ 31 →
      tm.HashChain.length = t.Pcrs.length ∧
        ∀ i (hi : i < t.Pcrs.length),
          ∃ v, pcrValues[(t.Pcrs[i]).toNat]? = some v ∧ 0 ≤ t.Pcrs[i] ∧
            tm.HashChain[i]? = some ⟨"Hash Chain", t.Pcrs[i], [v.Digest]⟩) ∧
    (∀ hdl ak pcrValues quote, w.TPM = some hdl → w.ak = some ak →
      env.tpmPCRs .HashSHA256 = .ok pcrValues →
      env.akQuotePCRs ak nonce .HashSHA256 t.Pcrs = .ok quote →
      (∀ num ∈ t.Pcrs, 0 ≤ num ∧ num < pcrValues.length) →
      ∃ tm, (Measure env (some t) nonce w).1 = .ok tm) := by
  refine ⟨?_, fun hdl ak pcrValues quote hT hak hp hq hr =>
    Measure_total env t nonce w hdl ak pcrValues quote hT hak hp hq hr⟩
  intro tm pcrValues h hp hlen
  obtain ⟨ak, quote, pv, chain, -, hp', -, hb, -, -, -, hchain⟩ :=
    Measure_ok_quote env t nonce w tm h
  rw [hp] at hp'
  injection hp' with hp'
  subst hp'
  rw [hchain hima]
  obtain ⟨hl, hel⟩ := buildHashChain_ok pcrValues t.Pcrs chain hb
  refine ⟨hl, fun i hi => ?_⟩
  obtain ⟨h0, v, hv, hc⟩ := hel i hi
  refine ⟨v, hv, h0, ?_⟩
  have hlt : (t.Pcrs[i]).toNat < pcrValues.length := by
    by_contra hcon
    rw [List.getElem?_eq_none (by omega)] at hv
    simp at hv
  rw [hc, toInt32_of_range _ h0 (by omega)]

/-- C10 at the sample driver: PCRs 0, 2 and 4 with their digests. -/
theorem Measure_hash_chain_without_ima_witness :
    (Measure sampleEnv (some sampleTpm) [1, 2, 3] sampleOpenWorld).1 =
        .ok ⟨"TPM Measurement",
          [⟨"Hash Chain", 0, [[0]]⟩, ⟨"Hash Chain", 2, [[2]]⟩, ⟨"Hash Chain", 4, [[4]]⟩],
          [1, 2, 3], [7], [[1, 6], [1, 9]]⟩ ∧
      (([⟨"Hash Chain", 0, [[0]]⟩, ⟨"Hash Chain", 2, [[2]]⟩, ⟨"Hash Chain", 4, [[4]]⟩] :
          List HashChainElem).length = sampleTpm.Pcrs.length ∧
        ∀ i (hi : i < sampleTpm.Pcrs.length),
          ∃ v, samplePcrValues[(sampleTpm.Pcrs[i]).toNat]? = some v ∧ 0 ≤ sampleTpm.Pcrs[i] ∧
            ([⟨"Hash Chain", 0, [[0]]⟩, ⟨"Hash Chain", 2, [[2]]⟩, ⟨"Hash Chain", 4, [[4]]⟩] :
              List HashChainElem)[i]? = some ⟨"Hash Chain", sampleTpm.Pcrs[i], [v.Digest]⟩) :=
  ⟨by decide!,
    (Measure_hash_chain_without_ima sampleEnv sampleTpm [1, 2, 3] sampleOpenWorld rfl).1
      ⟨"TPM Measurement",
        [⟨"Hash Chain", 0, [[0]]⟩, ⟨"Hash Chain", 2, [[2]]⟩, ⟨"Hash Chain", 4, [[4]]⟩],
        [1, 2, 3], [7], [[1, 6], [1, 9]]⟩
      samplePcrValues (by decide!) rfl (by decide)⟩

/-! ## `Measure` with IMA -/

theorem foldl_append_singleton {α : Type} (l init : List α) :
    l.foldl (fun acc elem => acc ++ [elem]) init = init ++ l := by
  induction l generalizing init with
  | nil => simp
  | cons a l ih => simp [ih]

/-- A measurement that `Measure` returns: its hash chain is the chain of the first loop,
with the IMA digests put in when IMA is enabled, and its certificates are those of
`MeasuringCerts`. -/
theorem Measure_ok_chain (env : Env) (t : Tpm) (nonce : Bytes) (w : World) (tm : TpmMeasurement)
    (h : (Measure env (some t) nonce w).1 = .ok tm) :
    ∃ pcrValues chain, env.tpmPCRs .HashSHA256 = .ok pcrValues ∧
      buildHashChain pcrValues t.Pcrs = .ok chain ∧
      tm.HashChain = (if t.UseIma = true then
        chain.map fun elem =>
          if elem.Pcr = t.ImaPcr then
            { elem with Sha256 := imaDigestsHex env.loopVarPerIteration env.imaGetRuntimeDigests.1 }
          else elem
        else chain) ∧
      tm.Certs = WriteCertsPem env t.MeasuringCerts := by
  rw [run_Measure, run_GetTpmMeasurement] at h
  dsimp only at h
  cases hT : w.TPM with
  | none => simp [hT] at h
  | some hdl =>
    cases hak : w.ak with
    | none => simp [hT, hak] at h
    | some ak =>
      cases hp : env.tpmPCRs .HashSHA256 with
      | error msg => simp [hT, hak, hp] at h
      | ok pcrValues =>
        cases hq : env.akQuotePCRs ak nonce .HashSHA256 t.Pcrs with
        | error msg => simp [hT, hak, hp, hq] at h
        | ok quote =>
          simp only [hT, hak, hp, hq] at h
          cases hb : buildHashChain pcrValues t.Pcrs with
          | error e => simp [hb] at h
          | panic msg => simp [hb] at h
          | ok chain =>
            refine ⟨pcrValues, chain, rfl, hb, ?_⟩
            cases hi : t.UseIma
            · simp only [hb, hi, Bool.false_eq_true, if_false, Result.ok.injEq] at h ⊢
              subst h
              exact ⟨rfl, rfl⟩
            · simp only [hb, hi, if_true, Result.ok.injEq] at h ⊢
              subst h
              exact ⟨rfl, rfl⟩

theorem imaDigestsHex_nil (perIteration : Bool) : imaDigestsHex perIteration [] = [] := by
  cases perIteration <;> rfl

theorem foldl_append_const {α β : Type} (l : List β) (init : List α) (a : α) :
    l.foldl (fun acc _ => acc ++ [a]) init = init ++ List.replicate l.length a := by
  induction l generalizing init with
  | nil => simp
  | cons b l ih => simp [ih, List.replicate_succ]

/-- C11 fails in the code, for a package built with a go directive below 1.22.  The loop
that fills `imaDigestsHex` appends `elem[:]`, a slice of the one loop variable, so every
entry of the list shows the digest of the last iteration.  At the sample driver with IMA
on PCR 2 in the PCR set 0, 2, 4 and the IMA digests `05 00 .. 00` and `06 00 .. 00`, the
element of PCR 2 carries `06 00 .. 00` twice, not the two digests in their order; the
elements of PCRs 0 and 4 are the PCR values.  In general every element of the IMA PCR
carries the list `imaDigestsHex`, which is the IMA digest list when each iteration has its
own variable, and as many copies of the last digest as there are digests when it has
not. -/
theorem Measure_repeats_last_ima_digest :
    sampleEnvIma.loopVarPerIteration = false ∧
    sampleEnvIma.imaGetRuntimeDigests.1 = [5 :: List.replicate 31 0, 6 :: List.replicate 31 0] ∧
    sampleTpmIma.UseIma = true ∧ sampleTpmIma.ImaPcr = 2 ∧ sampleTpmIma.Pcrs = [0, 2, 4] ∧
    (Measure sampleEnvIma (some sampleTpmIma) [1, 2, 3] sampleOpenWorld).1 =
      .ok ⟨"TPM Measurement",
        [⟨"Hash Chain", 0, [[0]]⟩,
          ⟨"Hash Chain", 2, [6 :: List.replicate 31 0, 6 :: List.replicate 31 0]⟩,
          ⟨"Hash Chain", 4, [[4]]⟩],
        [1, 2, 3], [7], [[1, 6], [1, 9]]⟩ ∧
    (∀ (env : Env) (t : Tpm) (nonce : Bytes) (w : World) (tm : TpmMeasurement),
      t.UseIma = true → (Measure env (some t) nonce w).1 = .ok tm →
      ∀ e ∈ tm.HashChain, e.Pcr = t.ImaPcr →
        e.Sha256 = imaDigestsHex env.loopVarPerIteration env.imaGetRuntimeDigests.1) ∧
    (∀ digests : List Bytes, imaDigestsHex true digests = digests) ∧
    (∀ (digests : List Bytes) (last : Bytes), digests.getLast? = some last →
      imaDigestsHex false digests = List.replicate digests.length last) := by
  refine ⟨rfl, rfl, rfl, rfl, rfl, by decide!, ?_, ?_, ?_⟩
  · intro env t nonce w tm hima h e he hpcr
    obtain ⟨pv, chain, -, -, hchain, -⟩ := Measure_ok_chain env t nonce w tm h
    simp only [hima, if_true] at hchain
    rw [hchain, List.mem_map] at he
    obtain ⟨e0, -, rfl⟩ := he
    by_cases hc : e0.Pcr = t.ImaPcr
    · simp [hc]
    · simp only [hc, if_false] at hpcr
  · intro digests
    simp [imaDigestsHex, foldl_append_singleton]
  · intro digests last hlast
    simp [imaDigestsHex, hlast, foldl_append_const]

/-! ## The two chains of the driver -/

/-- A successful run of the provisioning branch returns the two chains of its call of
`provisionTpm`. -/
theorem provision_ok_chains (env : Env) (c : Config) (w w' : World)
    (akchain ikchain : List Certificate)
    (h : provision env c w = (.ok (akchain, ikchain), w')) :
    ∃ akCsr ikCsr w1 w2,
      provisionTpm env c.ServerAddr akCsr ikCsr w1 = (.ok (akchain, ikchain), w2) := by
  unfold provision at h
  simp only [run_bind, run_wrapping] at h
  rcases h1 : assignCreatedKeys env c.KeyConfig w with ⟨r1, w1⟩
  rw [h1] at h
  rcases r1 with ⟨ak, ik⟩ | e | msg
  · dsimp only at h
    rcases h2 : createCsrs env c ak ik w1 with ⟨r2, w2⟩
    rw [h2] at h
    rcases r2 with ⟨akCsr, ikCsr⟩ | e | msg
    · dsimp only at h
      rcases h3 : provisionTpm env c.ServerAddr akCsr ikCsr w2 with ⟨r3, w3⟩
      rw [h3] at h
      rcases r3 with ⟨a, i⟩ | e | msg
      · dsimp only at h
        rcases h4 : saveCerts env c.StoragePath a i w3 with ⟨r4, w4⟩
        rw [h4] at h
        rcases r4 with _ | e | msg
        · dsimp only at h
          rcases h5 : saveKeys env c.StoragePath w4 with ⟨r5, w5⟩
          rw [h5] at h
          rcases r5 with _ | e | msg
          · simp only [run_pure, Prod.mk.injEq, Result.ok.injEq] at h
            obtain ⟨⟨rfl, rfl⟩, -⟩ := h
            exact ⟨akCsr, ikCsr, w2, w3, h3⟩
          · simp at h
          · simp at h
        · simp at h
        · simp at h
      · simp at h
      · simp at h
    · simp at h
    · simp at h
  · simp at h
  · simp at h

/-- A successful run of `loadTpmCerts` returns what `ParseCerts` reads from `akchain.pem`
and from `ikchain.pem`, in this order. -/
theorem loadTpmCerts_ok (env : Env) (sp : String) (w w' : World)
    (akchain ikchain : List Certificate)
    (h : loadTpmCerts env sp w = (.ok (akchain, ikchain), w')) :
    ∃ akPem ikPem,
      w.files.lookup (pathJoin sp akchainFile) = some akPem ∧
      env.ParseCerts akPem = .ok akchain ∧
      w.files.lookup (pathJoin sp ikchainFile) = some ikPem ∧
      env.ParseCerts ikPem = .ok ikchain := by
  unfold loadTpmCerts at h
  simp only [run_bind, run_emit, run_wrapping, run_osReadFile] at h
  cases h5 : w.files.lookup (pathJoin sp akchainFile) with
  | none => simp [h5] at h
  | some akPem =>
    simp only [h5] at h
    cases h6 : env.ParseCerts akPem with
    | error msg => simp [h6] at h
    | ok a =>
      simp only [h6, run_ext_ok, run_wrapping, run_osReadFile] at h
      cases h7 : w.files.lookup (pathJoin sp ikchainFile) with
      | none => simp [h7] at h
      | some ikPem =>
        simp only [h7] at h
        cases h8 : env.ParseCerts ikPem with
        | error msg => simp [h8] at h
        | ok i =>
          simp only [h8, run_ext_ok, run_pure, Prod.mk.injEq, Result.ok.injEq] at h
          obtain ⟨⟨rfl, rfl⟩, -⟩ := h
          exact ⟨akPem, ikPem, rfl, h6, rfl, h8⟩

theorem isLoad_not_isSave (ev : Event) (h : ev.isLoad = true) : ev.isSave = false := by
  cases hs : ev.isSave with
  | false => rfl
  | true => rw [isSave_not_isLoad ev hs] at h; exact absurd h (by simp)

/-- The load branch writes no file. -/
theorem load_files (env : Env) (c : Config) (w : World) : (load env c w).2.files = w.files := by
  obtain ⟨evs, -, p, -, f, -⟩ := (load_steps env c).run w
  exact f fun ev hev => isLoad_not_isSave ev (p ev hev)

/-- A successful run of the load branch returns what `ParseCerts` reads from `akchain.pem`
and from `ikchain.pem`, in this order, and leaves the files as they are. -/
theorem load_ok_chains (env : Env) (c : Config) (w w' : World)
    (akchain ikchain : List Certificate)
    (h : load env c w = (.ok (akchain, ikchain), w')) :
    ∃ akPem ikPem,
      w.files.lookup (pathJoin c.StoragePath akchainFile) = some akPem ∧
      env.ParseCerts akPem = .ok akchain ∧
      w.files.lookup (pathJoin c.StoragePath ikchainFile) = some ikPem ∧
      env.ParseCerts ikPem = .ok ikchain ∧ w'.files = w.files := by
  have hf := load_files env c w
  rw [h] at hf
  unfold load at h
  simp only [run_bind, run_wrapping] at h
  have hk := (loadTpmKeys_steps env c.StoragePath).run w
  rcases h1 : loadTpmKeys env c.StoragePath w with ⟨r1, w1⟩
  rw [h1] at h hk
  rcases r1 with _ | e | msg
  · dsimp only at h
    rcases h2 : loadTpmCerts env c.StoragePath w1 with ⟨r2, w2⟩
    rw [h2] at h
    rcases r2 with ⟨a, i⟩ | e | msg
    · simp only [Prod.mk.injEq, Result.ok.injEq] at h
      obtain ⟨⟨rfl, rfl⟩, rfl⟩ := h
      obtain ⟨akPem, ikPem, g1, g2, g3, g4⟩ := loadTpmCerts_ok env c.StoragePath w1 _ a i h2
      obtain ⟨evs, -, p, -, f, -⟩ := hk
      have hw1 : w1.files = w.files := f fun ev hev => isLoad_not_isSave ev (p ev hev)
      rw [hw1] at g1 g3
      exact ⟨akPem, ikPem, g1, g2, g3, g4, hf⟩
    · simp at h
    · simp at h
  · simp at h
  · simp at h

/-- C12: the measurement's certificate chain is the AK chain.  A `Tpm` object that `NewTpm`
returns holds in `MeasuringCerts` the AK chain and in `SigningCerts` the IK chain, never
the other way round: after provisioning these are the first and the second chain that
`provisionTpm` returned, saved in `akchain.pem` and in `ikchain.pem`; after loading they
are what the PEM parser read from `akchain.pem` and from `ikchain.pem`.  The `Certs` of a
measurement that `Measure` returns are the PEM encodings of the certificates of
`MeasuringCerts`, in order, and `Measure` does return such a measurement whenever the TPM
is open, the AK exists, the PCR read and the quote succeed and every index of the PCR set
is in the range of the PCR values.  `GetCertChain` returns `SigningCerts`. -/
theorem NewTpm_chain_roles (env : Env) (c : Config) (w w' : World) (tpm : Tpm)
    (h : NewTpm env c w = (.ok tpm, w')) :
    (∃ akPem ikPem,
      w'.files.lookup (pathJoin c.StoragePath akchainFile) = some akPem ∧
      w'.files.lookup (pathJoin c.StoragePath ikchainFile) = some ikPem ∧
      ((akPem = chainPem env tpm.MeasuringCerts ∧ ikPem = chainPem env tpm.SigningCerts ∧
          ∃ akCsr ikCsr w1 w2, provisionTpm env c.ServerAddr akCsr ikCsr w1 =
            (.ok (tpm.MeasuringCerts, tpm.SigningCerts), w2)) ∨
        (env.ParseCerts akPem = .ok tpm.MeasuringCerts ∧
          env.ParseCerts ikPem = .ok tpm.SigningCerts))) ∧
    (∀ nonce w2 tm, (Measure env (some tpm) nonce w2).1 = .ok tm →
      tm.Certs = tpm.MeasuringCerts.map env.WriteCertPem) ∧
    (∀ nonce w2 hdl ak pcrValues quote, w2.TPM = some hdl → w2.ak = some ak →
      env.tpmPCRs .HashSHA256 = .ok pcrValues →
      env.akQuotePCRs ak nonce .HashSHA256 tpm.Pcrs = .ok quote →
      (∀ num ∈ tpm.Pcrs, 0 ≤ num ∧ num < pcrValues.length) →
      ∃ tm, (Measure env (some tpm) nonce w2).1 = .ok tm ∧
        tm.Certs = tpm.MeasuringCerts.map env.WriteCertPem) ∧
    GetCertChain tpm = tpm.SigningCerts := by
  have hcerts : ∀ nonce w2 tm, (Measure env (some tpm) nonce w2).1 = .ok tm →
      tm.Certs = tpm.MeasuringCerts.map env.WriteCertPem := by
    intro nonce w2 tm hm
    obtain ⟨-, -, -, -, -, hc⟩ := Measure_ok_chain env tpm nonce w2 tm hm
    rw [hc]
    rfl
  refine ⟨?_, hcerts, fun nonce w2 hdl ak pcrValues quote hT hak hpv hq hr => ?_, rfl⟩
  swap
  · obtain ⟨tm, hm⟩ := Measure_total env tpm nonce w2 hdl ak pcrValues quote hT hak hpv hq hr
    exact ⟨tm, hm, hcerts nonce w2 tm hm⟩
  · have r1 : (NewTpm env c w).1 = .ok tpm := by rw [h]
    have r2 : (NewTpm env c w).2 = w' := by rw [h]
    rcases prepare_result env c w with ⟨e0, he0, -⟩ | ⟨pcrs, b, hdl, hr, -⟩
    · exfalso
      rw [run_NewTpm] at r1
      rcases hp : prepare env c w with ⟨r, wp⟩
      rw [hp] at r1 he0
      dsimp only at he0
      subst he0
      simp at r1
    · rcases hp : prepare env c w with ⟨r, wp⟩
      rw [hp] at hr
      dsimp only at hr
      subst hr
      obtain ⟨hw, -, hok⟩ := NewTpm_of_prepare_ok env c w wp pcrs b hp
      rw [r2] at hw
      obtain ⟨akchain, ikchain, hbranch, ht⟩ := (hok tpm).1 r1
      subst ht
      dsimp only
      cases b
      · simp only [Bool.false_eq_true, if_false] at hw hbranch
        have hfull : load env c wp = (.ok (akchain, ikchain), w') := by rw [hw, ← hbranch]
        obtain ⟨akPem, ikPem, g1, g2, g3, g4, g5⟩ := load_ok_chains env c wp w' akchain ikchain hfull
        rw [← g5] at g1 g3
        exact ⟨akPem, ikPem, g1, g3, Or.inr ⟨g2, g4⟩⟩
      · simp only [if_true] at hw hbranch
        have hfull : provision env c wp = (.ok (akchain, ikchain), w') := by rw [hw, ← hbranch]
        obtain ⟨s1, s2, -, -⟩ := provision_ok_store env c wp w' akchain ikchain hfull
        exact ⟨_, _, s1, s2, Or.inl ⟨rfl, rfl, provision_ok_chains env c wp w' akchain ikchain hfull⟩⟩

/-- C12 on the store that provisioning left in the sample environment: the loaded driver
holds the chain of `akchain.pem` in `MeasuringCerts` and the chain of `ikchain.pem` in
`SigningCerts`; in the world that `NewTpm` left, `Measure` returns a measurement, the one
shown, whose `Certs` are the PEM encodings `[1, 6]`, `[1, 9]` of the AK chain; and
`GetCertChain` returns the IK chain. -/
theorem NewTpm_chain_roles_witness :
    (∃ akPem ikPem,
      (NewTpm sampleEnv (sampleConfig sampleMetadata) sampleProvisionedStore).2.files.lookup
        (pathJoin (sampleConfig sampleMetadata).StoragePath akchainFile) = some akPem ∧
      (NewTpm sampleEnv (sampleConfig sampleMetadata) sampleProvisionedStore).2.files.lookup
        (pathJoin (sampleConfig sampleMetadata).StoragePath ikchainFile) = some ikPem ∧
      ((akPem = chainPem sampleEnv sampleTpm.MeasuringCerts ∧
          ikPem = chainPem sampleEnv sampleTpm.SigningCerts ∧
          ∃ akCsr ikCsr w1 w2,
            provisionTpm sampleEnv (sampleConfig sampleMetadata).ServerAddr akCsr ikCsr w1 =
              (.ok (sampleTpm.MeasuringCerts, sampleTpm.SigningCerts), w2)) ∨
        (sampleEnv.ParseCerts akPem = .ok sampleTpm.MeasuringCerts ∧
          sampleEnv.ParseCerts ikPem = .ok sampleTpm.SigningCerts))) ∧
    (∃ tm, (Measure sampleEnv (some sampleTpm) [1, 2, 3]
        (NewTpm sampleEnv (sampleConfig sampleMetadata) sampleProvisionedStore).2).1 = .ok tm ∧
      tm.Certs = sampleTpm.MeasuringCerts.map sampleEnv.WriteCertPem) ∧
    (Measure sampleEnv (some sampleTpm) [1, 2, 3]
        (NewTpm sampleEnv (sampleConfig sampleMetadata) sampleProvisionedStore).2).1 =
      .ok ⟨"TPM Measurement",
        [⟨"Hash Chain", 0, [[0]]⟩, ⟨"Hash Chain", 2, [[2]]⟩, ⟨"Hash Chain", 4, [[4]]⟩],
        [1, 2, 3], [7], [[1, 6], [1, 9]]⟩ ∧
    sampleTpm.MeasuringCerts.map sampleEnv.WriteCertPem = [[1, 6], [1, 9]] ∧
    GetCertChain sampleTpm = [⟨[8]⟩, ⟨[9]⟩] :=
  have h := NewTpm_chain_roles sampleEnv (sampleConfig sampleMetadata) sampleProvisionedStore
    (NewTpm sampleEnv (sampleConfig sampleMetadata) sampleProvisionedStore).2 sampleTpm
    (by decide!)
  ⟨h.1,
    h.2.2.1 [1, 2, 3] (NewTpm sampleEnv (sampleConfig sampleMetadata) sampleProvisionedStore).2
      ⟨1⟩ ⟨1, {}⟩ samplePcrValues ⟨[1, 2, 3], [7]⟩ (by decide!) (by decide!) rfl rfl
      (by decide),
    by decide!, by decide!, h.2.2.2⟩

/-! ## The chains that `provisionTpm` returns -/

theorem bind_ok {α β : Type} {m : M α} {f : α → M β} {w w' : World} {b : β}
    (h : (m >>= f) w = (.ok b, w')) : ∃ a w1, m w = (.ok a, w1) ∧ f a w1 = (.ok b, w') := by
  rw [run_bind] at h
  rcases hm : m w with ⟨r, w1⟩
  rw [hm] at h
  rcases r with a | e | msg
  · exact ⟨a, w1, rfl, h⟩
  · simp at h
  · simp at h

theorem ext_ok {α : Type} {s : Site} {r : Except String α} {w w' : World} {a : α}
    (h : ext s r w = (.ok a, w')) : r = .ok a ∧ w' = w := by
  cases r with
  | error msg => simp at h
  | ok a' =>
    simp only [run_ext_ok, Prod.mk.injEq, Result.ok.injEq] at h
    exact ⟨by rw [h.1], h.2.symm⟩

theorem wrapping_ok {α : Type} {s : Site} {m : M α} {w w' : World} {a : α}
    (h : wrapping s m w = (.ok a, w')) : m w = (.ok a, w') := by
  rw [run_wrapping] at h
  rcases hm : m w with ⟨r, w1⟩
  rw [hm] at h
  rcases r with a' | e | msg
  · exact h
  · simp at h
  · simp at h

theorem provisionTpm_ok (env : Env) (url : String) (akCsr ikCsr : CertificateRequest)
    (w w' : World) (akchain ikchain : List Certificate)
    (h : provisionTpm env url akCsr ikCsr w = (.ok (akchain, ikchain), w')) :
    ∃ caCerts akCert ikCert certDer req,
      env.estCaCerts url = .ok caCerts ∧
      env.x509ParseCertificate certDer = .ok akCert ∧
      req.csr = ikCsr ∧ env.estTpmCertifyEnroll req = .ok ikCert ∧
      akchain = [akCert] ++ caCerts ∧ ikchain = [ikCert] ++ caCerts := by
  unfold provisionTpm at h
  obtain ⟨_, w1, h1, h⟩ := bind_ok h
  obtain ⟨w0, w2, h2, h⟩ := bind_ok h
  dsimp only at h
  rcases hT : w0.TPM with _ | hdl
  · simp [hT, fail] at h
  rcases hek : w0.ek with _ | ⟨ek0, eks⟩
  · simp [hT, hek, fail] at h
  rcases hak0 : w0.ak with _ | ak
  · simp [hT, hek, hak0, fail] at h
  rcases hik0 : w0.ik with _ | ik
  · simp [hT, hek, hak0, hik0, fail] at h
  simp only [hT, hek, hak0, hik0] at h
  obtain ⟨tpmInfo, w3, -, h⟩ := bind_ok h
  obtain ⟨_, w4, -, h⟩ := bind_ok h
  obtain ⟨_, w5, -, h⟩ := bind_ok h
  obtain ⟨caCerts, w6, h6, h⟩ := bind_ok h
  obtain ⟨hca, -⟩ := ext_ok h6
  rcases hl : caCerts.getLast? with _ | lastCa
  · simp [hl, goPanic] at h
  simp only [hl] at h
  obtain ⟨_, w7, -, h⟩ := bind_ok h
  obtain ⟨_, w8, -, h⟩ := bind_ok h
  obtain ⟨ekPub, w9, -, h⟩ := bind_ok h
  obtain ⟨_, w10, -, h⟩ := bind_ok h
  obtain ⟨discr, w11, -, h⟩ := bind_ok h
  obtain ⟨secret, w12, -, h⟩ := bind_ok h
  obtain ⟨encryptedCert, w13, -, h⟩ := bind_ok h
  obtain ⟨certDer, w14, -, h⟩ := bind_ok h
  obtain ⟨akCert, w15, h15, h⟩ := bind_ok h
  obtain ⟨hak, -⟩ := ext_ok h15
  obtain ⟨_, w16, -, h⟩ := bind_ok h
  obtain ⟨ikCert, w17, h17, h⟩ := bind_ok h
  obtain ⟨hik, -⟩ := ext_ok h17
  simp only [run_pure, Prod.mk.injEq, Result.ok.injEq] at h
  obtain ⟨⟨rfl, rfl⟩, -⟩ := h
  exact ⟨caCerts, akCert, ikCert, certDer, _, hca, hak, rfl, hik, rfl, rfl⟩

/-- C13: on success `provisionTpm` returns `akchain = [AK-cert] ++ CA-chain` and
`ikchain = [IK-cert] ++ CA-chain`, where the CA chain is the list the enrollment server
returned, the AK certificate is the parsed certificate of the credential activation and
the IK certificate is the answer to the certify-enroll request for the IK CSR.  Each chain
has length `len(caCerts) + 1`, starts with its leaf and continues with the CA certificates
in the server's order; both equations hold of the two returned chains at once, so neither
chain holds an element of the other in place of its own. -/
theorem provisionTpm_returns_leaf_then_cas (env : Env) (url : String)
    (akCsr ikCsr : CertificateRequest) (w w' : World) (akchain ikchain : List Certificate)
    (h : provisionTpm env url akCsr ikCsr w = (.ok (akchain, ikchain), w')) :
    ∃ caCerts akCert ikCert,
      env.estCaCerts url = .ok caCerts ∧
      (∃ certDer, env.x509ParseCertificate certDer = .ok akCert) ∧
      (∃ req, req.csr = ikCsr ∧ env.estTpmCertifyEnroll req = .ok ikCert) ∧
      akchain = [akCert] ++ caCerts ∧ ikchain = [ikCert] ++ caCerts ∧
      akchain.length = caCerts.length + 1 ∧ ikchain.length = caCerts.length + 1 ∧
      akchain.head? = some akCert ∧ ikchain.head? = some ikCert ∧
      akchain.tail = caCerts ∧ ikchain.tail = caCerts := by
  obtain ⟨caCerts, akCert, ikCert, certDer, req, h1, h2, h3, h4, rfl, rfl⟩ :=
    provisionTpm_ok env url akCsr ikCsr w w' akchain ikchain h
  exact ⟨caCerts, akCert, ikCert, h1, ⟨certDer, h2⟩, ⟨req, h3, h4⟩, rfl, rfl, by simp, by simp,
    rfl, rfl, rfl, rfl⟩

/-- C13 with an enrollment server that returns three CA certificates: both chains have
four elements, the leaf first. -/
theorem provisionTpm_returns_leaf_then_cas_witness :
    ∃ caCerts akCert ikCert,
      sampleEnvThreeCas.estCaCerts "est" = .ok caCerts ∧
      (∃ certDer, sampleEnvThreeCas.x509ParseCertificate certDer = .ok akCert) ∧
      (∃ req, req.csr = {} ∧ sampleEnvThreeCas.estTpmCertifyEnroll req = .ok ikCert) ∧
      ([⟨[6]⟩, ⟨[9]⟩, ⟨[10]⟩, ⟨[11]⟩] : List Certificate) = [akCert] ++ caCerts ∧
      ([⟨[8]⟩, ⟨[9]⟩, ⟨[10]⟩, ⟨[11]⟩] : List Certificate) = [ikCert] ++ caCerts ∧
      ([⟨[6]⟩, ⟨[9]⟩, ⟨[10]⟩, ⟨[11]⟩] : List Certificate).length = caCerts.length + 1 ∧
      ([⟨[8]⟩, ⟨[9]⟩, ⟨[10]⟩, ⟨[11]⟩] : List Certificate).length = caCerts.length + 1 ∧
      ([⟨[6]⟩, ⟨[9]⟩, ⟨[10]⟩, ⟨[11]⟩] : List Certificate).head? = some akCert ∧
      ([⟨[8]⟩, ⟨[9]⟩, ⟨[10]⟩, ⟨[11]⟩] : List Certificate).head? = some ikCert ∧
      ([⟨[6]⟩, ⟨[9]⟩, ⟨[10]⟩, ⟨[11]⟩] : List Certificate).tail = caCerts ∧
      ([⟨[8]⟩, ⟨[9]⟩, ⟨[10]⟩, ⟨[11]⟩] : List Certificate).tail = caCerts :=
  provisionTpm_returns_leaf_then_cas sampleEnvThreeCas "est" {} {}
    { sampleOpenWorld with ek := [{}] }
    (provisionTpm sampleEnvThreeCas "est" {} {} { sampleOpenWorld with ek := [{}] }).2
    [⟨[6]⟩, ⟨[9]⟩, ⟨[10]⟩, ⟨[11]⟩] [⟨[8]⟩, ⟨[9]⟩, ⟨[10]⟩, ⟨[11]⟩] (by decide!)

/-! ## The key configuration of `createKeys` -/

theorem run_createKeys (env : Env) (keyConfig : String) (w : World) :
    createKeys env keyConfig w =
      match env.tpmEKs with
      | .error msg => (.error (Err.new .loadEKs msg),
          { w with trace := w.trace ++ [.call .createKeys, .tpmEKs] })
      | .ok eks =>
        match env.tpmNewAK with
        | .error msg => (.error (Err.new .newAK msg),
            { w with trace := w.trace ++ [.call .createKeys, .tpmEKs, .tpmNewAK] })
        | .ok ak =>
          match ikConfigOf keyConfig with
          | none => (.error (Err.new .unknownKeyConfig keyConfig),
              { w with trace := w.trace ++ [.call .createKeys, .tpmEKs, .tpmNewAK] })
          | some ikConfig =>
            match env.tpmNewKey ak ikConfig with
            | .error msg => (.error (Err.new .newIK msg),
                { w with trace := w.trace ++
                  [.call .createKeys, .tpmEKs, .tpmNewAK, .tpmNewKey ikConfig] })
            | .ok ik => (.ok (eks, ak, ik),
                { w with trace := w.trace ++
                  [.call .createKeys, .tpmEKs, .tpmNewAK, .tpmNewKey ikConfig] }) := by
  unfold createKeys
  simp only [run_bind, run_emit]
  cases h1 : env.tpmEKs with
  | error msg => simp
  | ok eks =>
    cases h2 : env.tpmNewAK with
    | error msg => simp
    | ok ak =>
      cases h3 : ikConfigOf keyConfig with
      | none => simp [fail]
      | some ikConfig =>
        cases h4 : env.tpmNewKey ak ikConfig with
        | error msg => simp [h4]
        | ok ik => simp [h4]

theorem ikConfigOf_table (name : String) (cfg : AttestKeyConfig)
    (h : (name, cfg) ∈ [("EC256", (⟨.ECDSA, 256⟩ : AttestKeyConfig)), ("EC384", ⟨.ECDSA, 384⟩),
      ("EC521", ⟨.ECDSA, 521⟩), ("RSA2048", ⟨.RSA, 2048⟩), ("RSA4096", ⟨.RSA, 4096⟩)]) :
    ikConfigOf name = some cfg := by
  simp only [List.mem_cons, Prod.mk.injEq, List.mem_singleton, List.not_mem_nil, or_false] at h
  rcases h with ⟨rfl, rfl⟩ | ⟨rfl, rfl⟩ | ⟨rfl, rfl⟩ | ⟨rfl, rfl⟩ | ⟨rfl, rfl⟩ <;> decide

theorem ikConfigOf_other (name : String)
    (h : name ∉ ["EC256", "EC384", "EC521", "RSA2048", "RSA4096"]) : ikConfigOf name = none := by
  simp only [List.mem_cons, List.mem_singleton, List.not_mem_nil, or_false, not_or] at h
  obtain ⟨h1, h2, h3, h4, h5⟩ := h
  simp [ikConfigOf, h1, h2, h3, h4, h5]

/-- C14: `createKeys` maps the key configuration string to the IK key configuration by the
table `EC256 -> (ECDSA, 256)`, `EC384 -> (ECDSA, 384)`, `EC521 -> (ECDSA, 521)`,
`RSA2048 -> (RSA, 2048)`, `RSA4096 -> (RSA, 4096)`: for a string of the table, once the EKs
are loaded and the AK is created, the one IK it asks the TPM for has the configuration of
the table, and the result is the result of that call.  For every other string the call
returns no keys and asks the TPM for no IK, and the error it returns where the switch is
reached is the unknown-key-configuration error naming the string. -/
theorem createKeys_key_configuration (env : Env) (w : World) :
    (∀ name cfg,
      (name, cfg) ∈ [("EC256", (⟨.ECDSA, 256⟩ : AttestKeyConfig)), ("EC384", ⟨.ECDSA, 384⟩),
        ("EC521", ⟨.ECDSA, 521⟩), ("RSA2048", ⟨.RSA, 2048⟩), ("RSA4096", ⟨.RSA, 4096⟩)] →
      ∀ eks ak, env.tpmEKs = .ok eks → env.tpmNewAK = .ok ak →
        (createKeys env name w).1 =
            (match env.tpmNewKey ak cfg with
              | .ok ik => .ok (eks, ak, ik)
              | .error msg => .error (Err.new .newIK msg)) ∧
          newEvents w (createKeys env name w).2 =
            [.call .createKeys, .tpmEKs, .tpmNewAK, .tpmNewKey cfg]) ∧
    (∀ name, name ∉ ["EC256", "EC384", "EC521", "RSA2048", "RSA4096"] →
      (∀ keys, (createKeys env name w).1 ≠ .ok keys) ∧
      (∀ cfg, Event.tpmNewKey cfg ∉ newEvents w (createKeys env name w).2) ∧
      (∀ eks ak, env.tpmEKs = .ok eks → env.tpmNewAK = .ok ak →
        (createKeys env name w).1 = .error (Err.new .unknownKeyConfig name))) := by
  constructor
  · intro name cfg hmem eks ak h1 h2
    rw [run_createKeys, h1, h2, ikConfigOf_table name cfg hmem]
    dsimp only
    cases h4 : env.tpmNewKey ak cfg <;> simp [newEvents]
  · intro name hnot
    have h3 := ikConfigOf_other name hnot
    rw [run_createKeys, h3]
    refine ⟨fun keys => ?_, fun cfg => ?_, fun eks ak h1 h2 => ?_⟩
    · cases h1 : env.tpmEKs with
      | error msg => simp
      | ok eks => cases h2 : env.tpmNewAK <;> simp
    · cases h1 : env.tpmEKs with
      | error msg => simp [newEvents]
      | ok eks => cases h2 : env.tpmNewAK <;> simp [newEvents]
    · rw [h1, h2]

/-- C14 at the sample TPM: `EC384` makes an ECDSA key of 384 bits, and `ec384`, which is
not in the table, ends in the error without a request for an IK. -/
theorem createKeys_key_configuration_witness :
    ((createKeys sampleEnv "EC384" sampleOpenWorld).1 =
          (match sampleEnv.tpmNewKey ⟨1, {}⟩ ⟨.ECDSA, 384⟩ with
            | .ok ik => .ok ([{}], ⟨1, {}⟩, ik)
            | .error msg => .error (Err.new .newIK msg)) ∧
        newEvents sampleOpenWorld (createKeys sampleEnv "EC384" sampleOpenWorld).2 =
          [.call .createKeys, .tpmEKs, .tpmNewAK, .tpmNewKey ⟨.ECDSA, 384⟩]) ∧
      ((∀ keys, (createKeys sampleEnv "ec384" sampleOpenWorld).1 ≠ .ok keys) ∧
        (∀ cfg, Event.tpmNewKey cfg ∉
          newEvents sampleOpenWorld (createKeys sampleEnv "ec384" sampleOpenWorld).2) ∧
        (∀ eks ak, sampleEnv.tpmEKs = .ok eks → sampleEnv.tpmNewAK = .ok ak →
          (createKeys sampleEnv "ec384" sampleOpenWorld).1 =
            .error (Err.new .unknownKeyConfig "ec384"))) :=
  ⟨(createKeys_key_configuration sampleEnv sampleOpenWorld).1 "EC384" ⟨.ECDSA, 384⟩
      (by decide) [{}] ⟨1, {}⟩ rfl rfl,
    (createKeys_key_configuration sampleEnv sampleOpenWorld).2 "ec384" (by decide)⟩

/-! ## The TPM handle after a failed `NewTpm` -/

theorem keepsTpm_pure {α : Type} (a : α) : KeepsTpm (pure a : M α) := ⟨fun _ => rfl⟩

theorem keepsTpm_fail {α : Type} (e : Err) : KeepsTpm (fail e : M α) := ⟨fun _ => rfl⟩

theorem keepsTpm_goPanic {α : Type} (msg : String) : KeepsTpm (goPanic msg : M α) :=
  ⟨fun _ => rfl⟩

theorem keepsTpm_getWorld : KeepsTpm getWorld := ⟨fun _ => rfl⟩

theorem keepsTpm_emit (ev : Event) : KeepsTpm (emit ev) := ⟨fun _ => rfl⟩

theorem keepsTpm_ext {α : Type} (s : Site) (r : Except String α) : KeepsTpm (ext s r) := by
  constructor
  intro w
  cases r <;> rfl

theorem keepsTpm_bind {α β : Type} {m : M α} {f : α → M β}
    (hm : KeepsTpm m) (hf : ∀ a, KeepsTpm (f a)) : KeepsTpm (m >>= f) := by
  constructor
  intro w
  have h1 := hm.run w
  rw [run_bind]
  rcases hmw : m w with ⟨r, w1⟩
  rw [hmw] at h1
  cases r with
  | ok a => exact ((hf a).run w1).trans h1
  | error e => exact h1
  | panic msg => exact h1

theorem keepsTpm_wrapping {α : Type} {m : M α} (s : Site) (hm : KeepsTpm m) :
    KeepsTpm (wrapping s m) := by
  constructor
  intro w
  rw [wrapping_snd]
  exact hm.run w

theorem keepsTpm_modifyWorld (f : World → World) (hf : ∀ w, (f w).TPM = w.TPM) :
    KeepsTpm (modifyWorld f) :=
  ⟨fun w => hf w⟩

theorem keepsTpm_osReadFile (path : String) : KeepsTpm (osReadFile path) := by
  constructor
  intro w
  rw [run_osReadFile]
  cases w.files.lookup path <;> rfl

theorem keepsTpm_osWriteFile (env : Env) (path : String) (data : Bytes) :
    KeepsTpm (osWriteFile env path data) := by
  constructor
  intro w
  unfold Cmc.osWriteFile
  simp only [run_bind, run_emit]
  cases env.writeOutcome path data <;> rfl

theorem createKeys_keepsTpm (env : Env) (keyConfig : String) :
    KeepsTpm (createKeys env keyConfig) := by
  unfold createKeys
  repeat (first
    | exact keepsTpm_pure _ | exact keepsTpm_fail _ | exact keepsTpm_goPanic _
    | exact keepsTpm_ext _ _ | exact keepsTpm_getWorld
    | exact keepsTpm_emit _
    | apply keepsTpm_bind | intro _ | split)

theorem assignCreatedKeys_keepsTpm (env : Env) (keyConfig : String) :
    KeepsTpm (assignCreatedKeys env keyConfig) := by
  constructor
  intro w
  have h := (createKeys_keepsTpm env keyConfig).run w
  unfold assignCreatedKeys
  rcases hc : createKeys env keyConfig w with ⟨r, w1⟩
  rw [hc] at h
  cases r <;> exact h

theorem provisionTpm_keepsTpm (env : Env) (url : String) (akCsr ikCsr : CertificateRequest) :
    KeepsTpm (provisionTpm env url akCsr ikCsr) := by
  unfold provisionTpm GetTpmInfo ActivateCredential
  repeat (first
    | exact keepsTpm_pure _ | exact keepsTpm_fail _ | exact keepsTpm_goPanic _
    | exact keepsTpm_ext _ _ | exact keepsTpm_getWorld
    | exact keepsTpm_emit _
    | apply keepsTpm_wrapping
    | apply keepsTpm_bind | intro _ | split)

theorem createAkCsr_keepsTpm (env : Env) (ak : AK) (params : CsrParams) :
    KeepsTpm (createAkCsr env ak params) := by
  unfold createAkCsr
  repeat (first
    | exact keepsTpm_pure _ | exact keepsTpm_ext _ _ | apply keepsTpm_bind | intro _)

theorem createIkCsr_keepsTpm (env : Env) (ik : Key) (params : CsrParams) :
    KeepsTpm (createIkCsr env ik params) := by
  unfold createIkCsr
  repeat (first
    | exact keepsTpm_pure _ | exact keepsTpm_ext _ _ | apply keepsTpm_bind | intro _)

theorem createCsrsLoop_keepsTpm (env : Env) (s : Serializer) (ak : AK) (ik : Key)
    (metadata : List Bytes) : KeepsTpm (createCsrsLoop env s ak ik metadata) := by
  induction metadata with
  | nil => exact keepsTpm_fail _
  | cons m rest ih =>
    unfold createCsrsLoop
    repeat (first
      | exact ih | exact keepsTpm_pure _ | exact keepsTpm_ext _ _
      | exact keepsTpm_wrapping _ (createAkCsr_keepsTpm _ _ _)
      | exact keepsTpm_wrapping _ (createIkCsr_keepsTpm _ _ _)
      | apply keepsTpm_bind | intro _ | dsimp only | split)

theorem createCsrs_keepsTpm (env : Env) (c : Config) (ak : AK) (ik : Key) :
    KeepsTpm (createCsrs env c ak ik) := by
  unfold createCsrs
  exact keepsTpm_bind (keepsTpm_emit _) (fun _ => createCsrsLoop_keepsTpm _ _ _ _ _)

theorem saveCerts_keepsTpm (env : Env) (sp : String) (akchain ikchain : List Certificate) :
    KeepsTpm (saveCerts env sp akchain ikchain) := by
  unfold saveCerts
  repeat (first
    | exact keepsTpm_pure _ | exact keepsTpm_fail _ | exact keepsTpm_emit _
    | exact keepsTpm_osWriteFile _ _ _
    | apply keepsTpm_bind | intro _ | dsimp only | split)

theorem saveKeys_keepsTpm (env : Env) (sp : String) : KeepsTpm (saveKeys env sp) := by
  unfold saveKeys
  repeat (first
    | exact keepsTpm_pure _ | exact keepsTpm_fail _ | exact keepsTpm_goPanic _
    | exact keepsTpm_getWorld | exact keepsTpm_ext _ _ | exact keepsTpm_emit _
    | exact keepsTpm_osWriteFile _ _ _
    | apply keepsTpm_bind | intro _ | dsimp only | split)

theorem loadTpmKeys_keepsTpm (env : Env) (sp : String) : KeepsTpm (loadTpmKeys env sp) := by
  unfold loadTpmKeys
  repeat (first
    | exact keepsTpm_pure _ | exact keepsTpm_fail _ | exact keepsTpm_getWorld
    | exact keepsTpm_emit _ | exact keepsTpm_osReadFile _
    | exact keepsTpm_modifyWorld _ (fun _ => rfl)
    | apply keepsTpm_bind | intro _ | dsimp only | split)

theorem loadTpmCerts_keepsTpm (env : Env) (sp : String) : KeepsTpm (loadTpmCerts env sp) := by
  unfold loadTpmCerts
  repeat (first
    | exact keepsTpm_pure _ | exact keepsTpm_ext _ _ | exact keepsTpm_emit _
    | exact keepsTpm_wrapping _ (keepsTpm_osReadFile _)
    | apply keepsTpm_bind | intro _ | dsimp only | split)

theorem load_keepsTpm (env : Env) (c : Config) : KeepsTpm (load env c) := by
  unfold load
  exact keepsTpm_bind (keepsTpm_wrapping _ (loadTpmKeys_keepsTpm _ _))
    (fun _ => keepsTpm_wrapping _ (loadTpmCerts_keepsTpm _ _))

theorem provision_keepsTpm (env : Env) (c : Config) : KeepsTpm (provision env c) := by
  unfold provision
  repeat (first
    | exact keepsTpm_pure _
    | exact keepsTpm_wrapping _ (assignCreatedKeys_keepsTpm _ _)
    | exact keepsTpm_wrapping _ (createCsrs_keepsTpm _ _ _ _)
    | exact keepsTpm_wrapping _ (provisionTpm_keepsTpm _ _ _ _)
    | exact keepsTpm_wrapping _ (saveCerts_keepsTpm _ _ _ _)
    | exact keepsTpm_wrapping _ (saveKeys_keepsTpm _ _)
    | apply keepsTpm_bind | intro _ | dsimp only | split)

theorem run_CloseTpm (w : World) :
    CloseTpm w =
      match w.TPM with
      | none => (.error (Err.new .closeNotOpened),
          { w with trace := w.trace ++ [.call .CloseTpm] })
      | some _ => (.ok (),
          { w with TPM := none, trace := w.trace ++ [.call .CloseTpm, .tpmClose] }) := by
  unfold CloseTpm
  cases hT : w.TPM <;> simp [hT]

/-- A call of `NewTpm` that finds the package variable `TPM` set does not return a driver:
it ends in an error, and where the steps before `OpenTpm` pass, in the error of
`OpenTpm`. -/
theorem NewTpm_open_rejected (env : Env) (c : Config) (w : World) (hT : w.TPM ≠ none) :
    ∃ e, (NewTpm env c w).1 = .error e ∧
      (c.Serializer.kind ≠ .uninitialized →
        (w.pathExists c.StoragePath = true ∨ env.mkdirAll c.StoragePath = true) →
        (∃ pcrs, getTpmPcrs c = .ok pcrs) → env.tpm2OpenTPM = true →
        e.sites.head? = some .openTpmFailed) := by
  rcases prepare_result env c w with ⟨e, he, hc⟩ | ⟨pcrs, b, h, -, -, -, hnone, -⟩
  · refine ⟨e, ?_, fun hk hd hp hdev => ?_⟩
    · rw [run_NewTpm]
      rcases hp : prepare env c w with ⟨r, wp⟩
      rw [hp] at he
      dsimp only at he
      subst he
      rfl
    · rcases hc with ⟨-, hh⟩ | ⟨-, hh⟩ | ⟨-, hh⟩ | ⟨-, -, -, hh⟩ | ⟨hh, -⟩
      · exact absurd hh hk
      · exact absurd hd hh
      · obtain ⟨pcrs, hp⟩ := hp
        obtain ⟨e0, he0⟩ := hh
        rw [hp] at he0
        simp at he0
      · rw [hdev] at hh
        simp at hh
      · exact hh
  · exact absurd hnone hT

/-- A call of `NewTpm` that fails after `OpenTpm` leaves the TPM open. -/
theorem NewTpm_failure_keeps_handle (env : Env) (c : Config) (w w' : World) (e : Err)
    (h : NewTpm env c w = (.error e, w'))
    (hsite : e.sites.head? ∈ [some Site.createKeysFailed, some .createCsrsFailed,
      some .provisionFailed, some .saveCertsFailed, some .saveKeysFailed,
      some .loadKeysFailed, some .loadCertsFailed]) :
    (∃ hdl, w'.TPM = some hdl) ∧ (∃ pcrs, getTpmPcrs c = .ok pcrs) ∧
      c.Serializer.kind ≠ .uninitialized := by
  have r1 : (NewTpm env c w).1 = .error e := by rw [h]
  have r2 : (NewTpm env c w).2 = w' := by rw [h]
  rcases prepare_result env c w with ⟨e0, he0, hc⟩ | ⟨pcrs, b, hdl, hr, hgp, hk, -, -, hT, -⟩
  · exfalso
    rw [run_NewTpm] at r1
    rcases hp : prepare env c w with ⟨r, wp⟩
    rw [hp] at r1 he0
    dsimp only at he0
    subst he0
    simp only [Result.error.injEq] at r1
    subst r1
    rcases hc with ⟨hh, -⟩ | ⟨hh, -⟩ | ⟨hh, -⟩ | ⟨hh, -⟩ | ⟨hh, -⟩ <;>
      · rw [hh] at hsite
        simp at hsite
  · rcases hp : prepare env c w with ⟨r, wp⟩
    rw [hp] at hr hT
    dsimp only at hr hT
    subst hr
    obtain ⟨hw, -, -⟩ := NewTpm_of_prepare_ok env c w wp pcrs b hp
    rw [r2] at hw
    refine ⟨⟨hdl, ?_⟩, ⟨pcrs, hgp⟩, hk⟩
    rw [hw, ← hT]
    cases b
    · exact (load_keepsTpm env c).run wp
    · exact (provision_keepsTpm env c).run wp

/-- With the TPM closed, `NewTpm` loads a store that holds the four files, with a TPM that
loads both blobs and chains that parse; the package variables `ak` and `ik` that an
earlier call left do not matter. -/
theorem NewTpm_loads_store (env : Env) (c : Config) (w : World) (h : TPMHandle)
    (pcrs : List Int) (akBytes ikBytes : Bytes) (ak : AK) (ik : Key) (akPem ikPem : Bytes)
    (akchain ikchain : List Certificate)
    (hclosed : w.TPM = none) (hk : c.Serializer.kind ≠ .uninitialized)
    (hpcrs : getTpmPcrs c = .ok pcrs) (hdir : w.pathExists c.StoragePath = true)
    (hdev : env.tpm2OpenTPM = true) (hsrk : env.tpm2ReadPublic 0x81000001 = true)
    (hopen : env.attestOpenTPM = .ok h)
    (h1 : w.files.lookup (pathJoin c.StoragePath akFile) = some akBytes)
    (h2 : env.tpmLoadAK akBytes = .ok ak)
    (h3 : w.files.lookup (pathJoin c.StoragePath ikFile) = some ikBytes)
    (h4 : env.tpmLoadKey ikBytes = .ok ik)
    (h5 : w.files.lookup (pathJoin c.StoragePath akchainFile) = some akPem)
    (h6 : env.ParseCerts akPem = .ok akchain)
    (h7 : w.files.lookup (pathJoin c.StoragePath ikchainFile) = some ikPem)
    (h8 : env.ParseCerts ikPem = .ok ikchain) :
    (NewTpm env c w).1 = .ok ⟨pcrs, ikchain, akchain, c.UseIma, c.ImaPcr⟩ := by
  have hframe := prepare_frame env c w
  rcases prepare_result env c w with ⟨e0, -, hc⟩ |
      ⟨pcrs2, b, h', hr, hp2, -, -, ho2, hT2, -, hiff, -⟩
  · exfalso
    rcases hc with ⟨-, hh⟩ | ⟨-, hh⟩ | ⟨-, e1, hh⟩ | ⟨-, -, -, hh⟩ | ⟨-, hh | ⟨msg, hh⟩⟩
    · exact hk hh
    · exact hh (Or.inl hdir)
    · rw [hpcrs] at hh; simp at hh
    · rw [hdev] at hh; simp at hh
    · exact hh hclosed
    · rw [hopen] at hh; simp at hh
  · have hb : b = false := by
      cases b
      · rfl
      · exfalso
        rcases hiff.1 rfl with hh | hh | hh
        · rw [pathExists_of_lookup w _ _ h5] at hh; simp at hh
        · rw [pathExists_of_lookup w _ _ h7] at hh; simp at hh
        · rw [hsrk] at hh; simp at hh
    subst hb
    have hpc : pcrs2 = pcrs := by
      rw [hpcrs] at hp2
      simpa using hp2.symm
    subst hpc
    rcases hp : prepare env c w with ⟨r, wp⟩
    rw [hp] at hr hframe hT2
    dsimp only at hr hframe hT2
    subst hr
    obtain ⟨-, -, hok⟩ := NewTpm_of_prepare_ok env c w wp pcrs2 false hp
    simp only [Bool.false_eq_true, if_false] at hok
    obtain ⟨fF, -, -⟩ := hframe
    have hload := load_ok env c wp h' akBytes ikBytes ak ik akPem ikPem akchain ikchain hT2
      (by rw [fF]; exact h1) h2 (by rw [fF]; exact h3) h4
      (by rw [fF]; exact h5) h6 (by rw [fF]; exact h7) h8
    exact (hok _).2 ⟨akchain, ikchain, by rw [hload], rfl⟩

/-- C15 as stated fails: on the provisioned sample store, a first `NewTpm` whose TPM does
not load the AK blob fails in `loadTpmKeys` after `OpenTpm` and leaves the files as they
were; the next `NewTpm` in the same process, with a TPM that loads everything, is rejected
by `OpenTpm` as already open, although the same call on the same store without the state
of the failed call returns the driver. -/
theorem NewTpm_rejected_after_failed_load :
    (NewTpm sampleEnvLoadAkFails (sampleConfig sampleMetadata) sampleProvisionedStore).1 =
        .error ⟨[.loadKeysFailed, .loadAK], "bad blob"⟩ ∧
      (NewTpm sampleEnvLoadAkFails (sampleConfig sampleMetadata) sampleProvisionedStore).2.files =
        sampleProvisionedStore.files ∧
      (NewTpm sampleEnv (sampleConfig sampleMetadata)
        (NewTpm sampleEnvLoadAkFails (sampleConfig sampleMetadata) sampleProvisionedStore).2).1 =
        .error ⟨[.openTpmFailed, .alreadyOpen], ""⟩ ∧
      (NewTpm sampleEnv (sampleConfig sampleMetadata) sampleProvisionedStore).1 =
        .ok sampleTpm := by
  decide!

/-- C15, amended: a `NewTpm` call that fails after the TPM was opened leaves the handle
open, so the next `NewTpm` call in the same process ends in the error of `OpenTpm`, also
with a TPM that opens and on a provisioned store; once `CloseTpm` has closed the handle,
`NewTpm` on the provisioned store (the four files under the storage folder, a TPM that
loads both blobs, chains that parse) returns the driver with the two chains of the store,
whatever else the failed call left behind. -/
theorem NewTpm_retry_needs_CloseTpm (env1 env2 : Env) (c : Config) (w0 w1 : World) (e : Err)
    (h : TPMHandle) (akBytes ikBytes : Bytes) (ak : AK) (ik : Key) (akPem ikPem : Bytes)
    (akchain ikchain : List Certificate)
    (hrun1 : NewTpm env1 c w0 = (.error e, w1))
    (hsite : e.sites.head? ∈ [some Site.createKeysFailed, some .createCsrsFailed,
      some .provisionFailed, some .saveCertsFailed, some .saveKeysFailed,
      some .loadKeysFailed, some .loadCertsFailed])
    (hdir : w1.pathExists c.StoragePath = true)
    (hdev : env2.tpm2OpenTPM = true) (hsrk : env2.tpm2ReadPublic 0x81000001 = true)
    (hopen : env2.attestOpenTPM = .ok h)
    (h1 : w1.files.lookup (pathJoin c.StoragePath akFile) = some akBytes)
    (h2 : env2.tpmLoadAK akBytes = .ok ak)
    (h3 : w1.files.lookup (pathJoin c.StoragePath ikFile) = some ikBytes)
    (h4 : env2.tpmLoadKey ikBytes = .ok ik)
    (h5 : w1.files.lookup (pathJoin c.StoragePath akchainFile) = some akPem)
    (h6 : env2.ParseCerts akPem = .ok akchain)
    (h7 : w1.files.lookup (pathJoin c.StoragePath ikchainFile) = some ikPem)
    (h8 : env2.ParseCerts ikPem = .ok ikchain) :
    (∃ hdl, w1.TPM = some hdl) ∧
    (∃ e2, (NewTpm env2 c w1).1 = .error e2 ∧ e2.sites.head? = some .openTpmFailed) ∧
    (∃ pcrs, getTpmPcrs c = .ok pcrs ∧ (CloseTpm w1).1 = .ok () ∧
      (NewTpm env2 c (CloseTpm w1).2).1 = .ok ⟨pcrs, ikchain, akchain, c.UseIma, c.ImaPcr⟩) := by
  obtain ⟨⟨hdl, hT⟩, ⟨pcrs, hpcrs⟩, hk⟩ := NewTpm_failure_keeps_handle env1 c w0 w1 e hrun1 hsite
  refine ⟨⟨hdl, hT⟩, ?_, pcrs, hpcrs, ?_, ?_⟩
  · obtain ⟨e2, he2, hhead⟩ := NewTpm_open_rejected env2 c w1 (by rw [hT]; simp)
    exact ⟨e2, he2, hhead hk (Or.inl hdir) ⟨pcrs, hpcrs⟩ hdev⟩
  · rw [run_CloseTpm, hT]
  · have hc : (CloseTpm w1).2 =
        { w1 with TPM := none, trace := w1.trace ++ [.call .CloseTpm, .tpmClose] } := by
      rw [run_CloseTpm, hT]
    rw [hc]
    exact NewTpm_loads_store env2 c _ h pcrs akBytes ikBytes ak ik akPem ikPem akchain ikchain
      rfl hk hpcrs (by simpa [World.pathExists] using hdir) hdev hsrk hopen h1 h2 h3 h4 h5 h6 h7 h8

/-- C15, amended, on the provisioned sample store: after the failed load the handle is
open and the retry is rejected; after `CloseTpm` the retry returns the sample driver. -/
theorem NewTpm_retry_needs_CloseTpm_witness :
    (∃ hdl, (NewTpm sampleEnvLoadAkFails (sampleConfig sampleMetadata)
      sampleProvisionedStore).2.TPM = some hdl) ∧
    (∃ e2, (NewTpm sampleEnv (sampleConfig sampleMetadata)
      (NewTpm sampleEnvLoadAkFails (sampleConfig sampleMetadata) sampleProvisionedStore).2).1 =
        .error e2 ∧ e2.sites.head? = some .openTpmFailed) ∧
    (∃ pcrs, getTpmPcrs (sampleConfig sampleMetadata) = .ok pcrs ∧
      (CloseTpm (NewTpm sampleEnvLoadAkFails (sampleConfig sampleMetadata)
        sampleProvisionedStore).2).1 = .ok () ∧
      (NewTpm sampleEnv (sampleConfig sampleMetadata)
        (CloseTpm (NewTpm sampleEnvLoadAkFails (sampleConfig sampleMetadata)
          sampleProvisionedStore).2).2).1 =
        .ok ⟨pcrs, [⟨[8]⟩, ⟨[9]⟩], [⟨[6]⟩, ⟨[9]⟩], (sampleConfig sampleMetadata).UseIma,
          (sampleConfig sampleMetadata).ImaPcr⟩) :=
  NewTpm_retry_needs_CloseTpm sampleEnvLoadAkFails sampleEnv (sampleConfig sampleMetadata)
    sampleProvisionedStore
    (NewTpm sampleEnvLoadAkFails (sampleConfig sampleMetadata) sampleProvisionedStore).2
    ⟨[.loadKeysFailed, .loadAK], "bad blob"⟩ ⟨1⟩ [1] [2] ⟨1, {}⟩ ⟨2, {}⟩
    [1, 6, 1, 9] [1, 8, 1, 9] [⟨[6]⟩, ⟨[9]⟩] [⟨[8]⟩, ⟨[9]⟩]
    (by decide!) (by decide) (by decide!) (by decide!) (by decide!) (by decide!)
    (by decide!) (by decide!) (by decide!) (by decide!) (by decide!) (by decide!)
    (by decide!) (by decide!)

/-! ## The CoAP handlers -/

/-- How `Attest` ends: with one error response for one of its five diagnostics, or with one
content response whose body is the CBOR encoding of the response that holds the signed
report. -/
theorem Attest_cases (env : CoapEnv) (serverConfig : ServerConfig) (r : CoapRequest) :
    (Attest env serverConfig r).fault = none ∧
    ((∃ text, (Attest env serverConfig r).responses = [internalServerError r text]) ∨
      (∃ req report signer data payload,
        unmarshalCoapPayload env.cborUnmarshalAttestationRequest r = .ok req ∧
        env.arGenerate req.Nonce serverConfig.Metadata serverConfig.MeasurementInterfaces
          serverConfig.Serializer = .ok report ∧
        serverConfig.Signer = some signer ∧
        env.arSign report signer serverConfig.Serializer = .ok data ∧
        env.cborMarshalAttestationResponse { AttestationReport := data } = .ok payload ∧
        (Attest env serverConfig r).responses = [⟨.Content, r.Token, .TextPlain, payload⟩])) := by
  unfold Attest
  dsimp only
  repeat' split
  all_goals first
    | exact ⟨rfl, Or.inl ⟨_, rfl⟩⟩
    | exact ⟨rfl, Or.inr ⟨_, _, _, _, _, by assumption, by assumption, by assumption,
        by assumption, by assumption, rfl⟩⟩

/-- How `Verify` ends. -/
theorem Verify_cases (env : CoapEnv) (serverConfig : ServerConfig) (r : CoapRequest) :
    (Verify env serverConfig r).fault = none ∧
    ((∃ text, (Verify env serverConfig r).responses = [internalServerError r text]) ∨
      (∃ req data payload,
        unmarshalCoapPayload env.cborUnmarshalVerificationRequest r = .ok req ∧
        env.jsonMarshal (env.arVerify req.AttestationReport req.Nonce req.Ca req.Policies
          serverConfig.PolicyEngineSelect serverConfig.Serializer) = .ok data ∧
        env.cborMarshalVerificationResponse { VerificationResult := data } = .ok payload ∧
        (Verify env serverConfig r).responses = [⟨.Content, r.Token, .TextPlain, payload⟩])) := by
  unfold Verify
  dsimp only
  repeat' split
  all_goals first
    | exact ⟨rfl, Or.inl ⟨_, rfl⟩⟩
    | exact ⟨rfl, Or.inr ⟨_, _, _, by assumption, by assumption, by assumption, rfl⟩⟩

/-- How `TlsSign` ends; without a signer it panics before it writes a response. -/
theorem TlsSign_cases (env : CoapEnv) (serverConfig : ServerConfig) (r : CoapRequest) :
    ((TlsSign env serverConfig r).fault ≠ none ∧ (TlsSign env serverConfig r).responses = [] ∧
      serverConfig.Signer = none) ∨
    ((TlsSign env serverConfig r).fault = none ∧
      ((∃ text, (TlsSign env serverConfig r).responses = [internalServerError r text]) ∨
        (∃ req opts signer keys signature payload,
          unmarshalCoapPayload env.cborUnmarshalTLSSignRequest r = .ok req ∧
          env.HashToSignerOpts req.Hashtype req.PssOpts = .ok opts ∧
          serverConfig.Signer = some signer ∧
          signer.GetSigningKeys = .ok keys ∧
          env.Sign keys.1 req.Content opts = .ok signature ∧
          env.cborMarshalTLSSignResponse { SignedContent := signature } = .ok payload ∧
          (TlsSign env serverConfig r).responses =
            [⟨.Content, r.Token, .TextPlain, payload⟩]))) := by
  unfold TlsSign
  dsimp only
  repeat' split
  all_goals first
    | exact Or.inr ⟨rfl, Or.inl ⟨_, rfl⟩⟩
    | exact Or.inl ⟨by simp, rfl, by assumption⟩
    | exact Or.inr ⟨rfl, Or.inr ⟨_, _, _, _, _, _, by assumption, by assumption, by assumption,
        by assumption, by assumption, by assumption, rfl⟩⟩

/-- How `TlsCert` ends; without a signer it panics before it writes a response. -/
theorem TlsCert_cases (env : CoapEnv) (serverConfig : ServerConfig) (r : CoapRequest) :
    ((TlsCert env serverConfig r).fault ≠ none ∧ (TlsCert env serverConfig r).responses = [] ∧
      serverConfig.Signer = none) ∨
    ((TlsCert env serverConfig r).fault = none ∧
      ((∃ text, (TlsCert env serverConfig r).responses = [internalServerError r text]) ∨
        (∃ req signer payload,
          unmarshalCoapPayload env.cborUnmarshalTLSCertRequest r = .ok req ∧
          serverConfig.Signer = some signer ∧
          env.cborMarshalTLSCertResponse
            { Certificate := WriteCertsPem env.lib signer.GetCertChain } = .ok payload ∧
          (TlsCert env serverConfig r).responses =
            [⟨.Content, r.Token, .TextPlain, payload⟩]))) := by
  unfold TlsCert
  dsimp only
  repeat' split
  all_goals first
    | exact Or.inr ⟨rfl, Or.inl ⟨_, rfl⟩⟩
    | exact Or.inl ⟨by simp, rfl, by assumption⟩
    | exact Or.inr ⟨rfl, Or.inr ⟨_, _, _, by assumption, by assumption, by assumption, rfl⟩⟩

/-- C16 as stated fails: `Attest` has no check of the nonce length.  With a report
generator that accepts the nonce `[1, 2, 3]` of three bytes, the handler generates and
signs a report and answers with the content response; with a generator that rejects the
nonce, the answer has the code 5.00 and not the bad-request code. -/
theorem Attest_short_nonce_not_bad_request :
    Attest sampleCoapEnv sampleServerConfig (sampleRequest [1, 2, 3]) =
        { events := [.arGenerate [1, 2, 3], .arSign ⟨[1, 2, 3, 42]⟩,
            .WriteMessage ⟨.Content, [7, 7], .TextPlain, [161, 1, 2, 3, 42, 99]⟩] } ∧
      (Attest sampleCoapEnvStrict sampleServerConfig (sampleRequest [1, 2, 3])).events.head? =
        some (.arGenerate [1, 2, 3]) ∧
      (Attest sampleCoapEnvStrict sampleServerConfig (sampleRequest [1, 2, 3])).responses.map
        (fun m => m.code) = [.InternalServerError] := by
  decide!

/-- C16, amended: `Attest` does not look at the length of the nonce and never answers with
the bad-request code.  For every request that unmarshals, also one with a nonce shorter
than 8 bytes, the first thing the handler does is to call the report generator with the
nonce of the request; when the generator fails, the one response is the 5.00 error with
the generator's message. -/
theorem Attest_never_bad_request (env : CoapEnv) (serverConfig : ServerConfig)
    (r : CoapRequest) :
    (∀ m ∈ (Attest env serverConfig r).responses, m.code ≠ .BadRequest) ∧
    (∀ req, unmarshalCoapPayload env.cborUnmarshalAttestationRequest r = .ok req →
      (Attest env serverConfig r).events.head? = some (.arGenerate req.Nonce)) ∧
    (∀ req err, unmarshalCoapPayload env.cborUnmarshalAttestationRequest r = .ok req →
      env.arGenerate req.Nonce serverConfig.Metadata serverConfig.MeasurementInterfaces
        serverConfig.Serializer = .error err →
      (Attest env serverConfig r).responses =
        [internalServerError r ("failed to generate attestation report: " ++ err)]) := by
  refine ⟨?_, ?_, ?_⟩
  · intro m hm
    rcases (Attest_cases env serverConfig r).2 with ⟨text, h⟩ |
      ⟨_, _, _, _, payload, -, -, -, -, -, h⟩
    · rw [h, List.mem_singleton] at hm
      subst hm
      simp [internalServerError]
    · rw [h, List.mem_singleton] at hm
      subst hm
      simp
  · intro req hreq
    unfold Attest
    rw [hreq]
    dsimp only
    repeat' split
    all_goals rfl
  · intro req err hreq hgen
    unfold Attest
    rw [hreq]
    dsimp only
    rw [hgen]
    rfl

/-- C16, amended, at a nonce of three bytes. -/
theorem Attest_never_bad_request_witness :
    (Attest sampleCoapEnvStrict sampleServerConfig (sampleRequest [1, 2, 3])).responses =
      [internalServerError (sampleRequest [1, 2, 3])
        ("failed to generate attestation report: " ++ "nonce too short")] :=
  (Attest_never_bad_request sampleCoapEnvStrict sampleServerConfig (sampleRequest [1, 2, 3])).2.2
    ⟨[1, 2, 3]⟩ "nonce too short" rfl rfl

/-- C17: every response of the four handlers that is not the content response is a 5.00
Internal Server Error with the content format text/plain, the token of the request and a
text as body; and on each failure the handlers report, the payload that does not
unmarshal, the report that is not generated or not signed, the missing signer, the bad
hash type, the key that is not retrieved, the signature that fails, the result or the
response that does not marshal, the handler writes exactly one such response, whose text
is the diagnostic message of that failure. -/
theorem handlers_report_internal_server_error (env : CoapEnv) (serverConfig : ServerConfig)
    (r : CoapRequest) :
    (∀ (hd : Handler) (m : CoapMessage), m ∈ (hd.serve env serverConfig r).responses →
      m.code ≠ .Content →
      m.code = .InternalServerError ∧ m.contentFormat = .TextPlain ∧ m.token = r.Token ∧
        ∃ text, m.body = stringBytes text) ∧
    -- the payload does not unmarshal
    (∀ err, unmarshalCoapPayload env.cborUnmarshalAttestationRequest r = .error err →
      (Attest env serverConfig r).responses =
        [internalServerError r ("failed to unmarshal CoAP payload: " ++ err)]) ∧
    (∀ err, unmarshalCoapPayload env.cborUnmarshalVerificationRequest r = .error err →
      (Verify env serverConfig r).responses =
        [internalServerError r ("failed to unmarshal CoAP payload: " ++ err)]) ∧
    (∀ err, unmarshalCoapPayload env.cborUnmarshalTLSSignRequest r = .error err →
      (TlsSign env serverConfig r).responses =
        [internalServerError r ("failed to unmarshal CoAP payload: " ++ err)]) ∧
    (∀ err, unmarshalCoapPayload env.cborUnmarshalTLSCertRequest r = .error err →
      (TlsCert env serverConfig r).responses =
        [internalServerError r ("failed to unmarshal CoAP payload: " ++ err)]) ∧
    -- `Attest`: generation, missing signer, signing, marshalling
    (∀ req err, unmarshalCoapPayload env.cborUnmarshalAttestationRequest r = .ok req →
      env.arGenerate req.Nonce serverConfig.Metadata serverConfig.MeasurementInterfaces
        serverConfig.Serializer = .error err →
      (Attest env serverConfig r).responses =
        [internalServerError r ("failed to generate attestation report: " ++ err)]) ∧
    (∀ req report, unmarshalCoapPayload env.cborUnmarshalAttestationRequest r = .ok req →
      env.arGenerate req.Nonce serverConfig.Metadata serverConfig.MeasurementInterfaces
        serverConfig.Serializer = .ok report →
      serverConfig.Signer = none →
      (Attest env serverConfig r).responses =
        [internalServerError r
          "Failed to sign attestation report: No valid signer specified in config"]) ∧
    (∀ req report signer err,
      unmarshalCoapPayload env.cborUnmarshalAttestationRequest r = .ok req →
      env.arGenerate req.Nonce serverConfig.Metadata serverConfig.MeasurementInterfaces
        serverConfig.Serializer = .ok report →
      serverConfig.Signer = some signer →
      env.arSign report signer serverConfig.Serializer = .error err →
      (Attest env serverConfig r).responses =
        [internalServerError r ("Failed to sign attestation report: " ++ err)]) ∧
    (∀ req report signer data err,
      unmarshalCoapPayload env.cborUnmarshalAttestationRequest r = .ok req →
      env.arGenerate req.Nonce serverConfig.Metadata serverConfig.MeasurementInterfaces
        serverConfig.Serializer = .ok report →
      serverConfig.Signer = some signer →
      env.arSign report signer serverConfig.Serializer = .ok data →
      env.cborMarshalAttestationResponse { AttestationReport := data } = .error err →
      (Attest env serverConfig r).responses =
        [internalServerError r ("failed to marshal message: " ++ err)]) ∧
    -- `Verify`: marshalling of the result and of the response
    (∀ req err, unmarshalCoapPayload env.cborUnmarshalVerificationRequest r = .ok req →
      env.jsonMarshal (env.arVerify req.AttestationReport req.Nonce req.Ca req.Policies
        serverConfig.PolicyEngineSelect serverConfig.Serializer) = .error err →
      (Verify env serverConfig r).responses =
        [internalServerError r ("Verifier: failed to marshal Attestation Result: " ++ err)]) ∧
    (∀ req data err, unmarshalCoapPayload env.cborUnmarshalVerificationRequest r = .ok req →
      env.jsonMarshal (env.arVerify req.AttestationReport req.Nonce req.Ca req.Policies
        serverConfig.PolicyEngineSelect serverConfig.Serializer) = .ok data →
      env.cborMarshalVerificationResponse { VerificationResult := data } = .error err →
      (Verify env serverConfig r).responses =
        [internalServerError r ("failed to marshal message: " ++ err)]) ∧
    -- `TlsSign`: hash type, key retrieval, signing, marshalling
    (∀ req err, unmarshalCoapPayload env.cborUnmarshalTLSSignRequest r = .ok req →
      env.HashToSignerOpts req.Hashtype req.PssOpts = .error err →
      (TlsSign env serverConfig r).responses =
        [internalServerError r ("failed to choose requested hash function: " ++ err)]) ∧
    (∀ req opts signer err, unmarshalCoapPayload env.cborUnmarshalTLSSignRequest r = .ok req →
      env.HashToSignerOpts req.Hashtype req.PssOpts = .ok opts →
      serverConfig.Signer = some signer → signer.GetSigningKeys = .error err →
      (TlsSign env serverConfig r).responses =
        [internalServerError r ("failed to get IK: " ++ err)]) ∧
    (∀ req opts signer keys err,
      unmarshalCoapPayload env.cborUnmarshalTLSSignRequest r = .ok req →
      env.HashToSignerOpts req.Hashtype req.PssOpts = .ok opts →
      serverConfig.Signer = some signer → signer.GetSigningKeys = .ok keys →
      env.Sign keys.1 req.Content opts = .error err →
      (TlsSign env serverConfig r).responses =
        [internalServerError r ("failed to sign: " ++ err)]) ∧
    (∀ req opts signer keys signature err,
      unmarshalCoapPayload env.cborUnmarshalTLSSignRequest r = .ok req →
      env.HashToSignerOpts req.Hashtype req.PssOpts = .ok opts →
      serverConfig.Signer = some signer → signer.GetSigningKeys = .ok keys →
      env.Sign keys.1 req.Content opts = .ok signature →
      env.cborMarshalTLSSignResponse { SignedContent := signature } = .error err →
      (TlsSign env serverConfig r).responses =
        [internalServerError r ("failed to marshal message: " ++ err)]) ∧
    -- `TlsCert`: marshalling
    (∀ req signer err, unmarshalCoapPayload env.cborUnmarshalTLSCertRequest r = .ok req →
      serverConfig.Signer = some signer →
      env.cborMarshalTLSCertResponse
        { Certificate := WriteCertsPem env.lib signer.GetCertChain } = .error err →
      (TlsCert env serverConfig r).responses =
        [internalServerError r ("failed to marshal message: " ++ err)]) := by
  refine ⟨?_, ?_, ?_, ?_, ?_, ?_, ?_, ?_, ?_, ?_, ?_, ?_, ?_, ?_, ?_, ?_⟩
  · intro hd m hm hcode
    have key : (∃ text, (hd.serve env serverConfig r).responses = [internalServerError r text]) ∨
        (∃ payload, (hd.serve env serverConfig r).responses =
          [⟨.Content, r.Token, .TextPlain, payload⟩]) ∨
        (hd.serve env serverConfig r).responses = [] := by
      cases hd
      · rcases Attest_cases env serverConfig r with ⟨-, ⟨text, h⟩ | ⟨_, _, _, _, payload, -, -, -, -, -, h⟩⟩
        · exact Or.inl ⟨text, h⟩
        · exact Or.inr (Or.inl ⟨payload, h⟩)
      · rcases Verify_cases env serverConfig r with ⟨-, ⟨text, h⟩ | ⟨_, _, payload, -, -, -, h⟩⟩
        · exact Or.inl ⟨text, h⟩
        · exact Or.inr (Or.inl ⟨payload, h⟩)
      · rcases TlsSign_cases env serverConfig r with ⟨-, h, -⟩ |
          ⟨-, ⟨text, h⟩ | ⟨_, _, _, _, _, payload, -, -, -, -, -, -, h⟩⟩
        · exact Or.inr (Or.inr h)
        · exact Or.inl ⟨text, h⟩
        · exact Or.inr (Or.inl ⟨payload, h⟩)
      · rcases TlsCert_cases env serverConfig r with ⟨-, h, -⟩ |
          ⟨-, ⟨text, h⟩ | ⟨_, _, payload, -, -, -, h⟩⟩
        · exact Or.inr (Or.inr h)
        · exact Or.inl ⟨text, h⟩
        · exact Or.inr (Or.inl ⟨payload, h⟩)
    rcases key with ⟨text, h⟩ | ⟨payload, h⟩ | h
    · rw [h, List.mem_singleton] at hm
      subst hm
      exact ⟨rfl, rfl, rfl, text, rfl⟩
    · rw [h, List.mem_singleton] at hm
      subst hm
      exact absurd rfl hcode
    · rw [h] at hm
      exact absurd hm (List.not_mem_nil _)
  all_goals intros
  all_goals simp only [Attest, Verify, TlsSign, TlsCert, *]
  all_goals rfl

/-- C17 at a TLSCert request whose payload does not unmarshal. -/
theorem handlers_report_internal_server_error_witness :
    (TlsCert sampleCoapEnv sampleServerConfig (sampleRequest [3])).responses =
      [internalServerError (sampleRequest [3])
        ("failed to unmarshal CoAP payload: " ++
          "failed to unmarshal CoAP message body: unexpected EOF")] :=
  (handlers_report_internal_server_error sampleCoapEnv sampleServerConfig
    (sampleRequest [3])).2.2.2.2.1 _ rfl

/-- C18 fails on the content format: the content response of each handler, whose body is
the CBOR encoding of the handler's response, is sent with the content format text/plain and
not application/cbor, as the successful `Attest` run of the sample server shows. -/
theorem content_responses_are_text_plain (env : CoapEnv) (serverConfig : ServerConfig)
    (r : CoapRequest) :
    (∀ (hd : Handler) (m : CoapMessage), m ∈ (hd.serve env serverConfig r).responses →
      m.code = .Content → m.contentFormat = .TextPlain ∧ m.contentFormat ≠ .AppCBOR) ∧
    (Attest sampleCoapEnv sampleServerConfig (sampleRequest [1, 2, 3])).responses =
      [⟨.Content, [7, 7], .TextPlain, [161, 1, 2, 3, 42, 99]⟩] := by
  refine ⟨fun hd m hm hcode => ?_, by decide!⟩
  have key : (∃ text, (hd.serve env serverConfig r).responses = [internalServerError r text]) ∨
      (∃ payload, (hd.serve env serverConfig r).responses =
        [⟨.Content, r.Token, .TextPlain, payload⟩]) ∨
      (hd.serve env serverConfig r).responses = [] := by
    cases hd
    · rcases Attest_cases env serverConfig r with ⟨-, ⟨text, h⟩ | ⟨_, _, _, _, payload, -, -, -, -, -, h⟩⟩
      · exact Or.inl ⟨text, h⟩
      · exact Or.inr (Or.inl ⟨payload, h⟩)
    · rcases Verify_cases env serverConfig r with ⟨-, ⟨text, h⟩ | ⟨_, _, payload, -, -, -, h⟩⟩
      · exact Or.inl ⟨text, h⟩
      · exact Or.inr (Or.inl ⟨payload, h⟩)
    · rcases TlsSign_cases env serverConfig r with ⟨-, h, -⟩ |
        ⟨-, ⟨text, h⟩ | ⟨_, _, _, _, _, payload, -, -, -, -, -, -, h⟩⟩
      · exact Or.inr (Or.inr h)
      · exact Or.inl ⟨text, h⟩
      · exact Or.inr (Or.inl ⟨payload, h⟩)
    · rcases TlsCert_cases env serverConfig r with ⟨-, h, -⟩ |
        ⟨-, ⟨text, h⟩ | ⟨_, _, payload, -, -, -, h⟩⟩
      · exact Or.inr (Or.inr h)
      · exact Or.inl ⟨text, h⟩
      · exact Or.inr (Or.inl ⟨payload, h⟩)
  rcases key with ⟨text, h⟩ | ⟨payload, h⟩ | h
  · rw [h, List.mem_singleton] at hm
    subst hm
    exact absurd hcode (by simp [internalServerError])
  · rw [h, List.mem_singleton] at hm
    subst hm
    exact ⟨rfl, by simp⟩
  · rw [h] at hm
    exact absurd hm (List.not_mem_nil _)

/-- C19: for every Verify request that unmarshals and every configured serializer, the
handler calls `ar.Verify` with the report, the nonce, the CA and the policies of the
request and marshals its result with `json.Marshal`; the `VerificationResult` field of the
response whose CBOR encoding is the body of the content response is that JSON
serialization, and the handler does send this response whenever the two marshal calls
succeed.  The configured serializer goes to `ar.Verify` only: with another serializer for
which `ar.Verify` returns the same result, the run of the handler is the same. -/
theorem Verify_result_is_json (env : CoapEnv) (serverConfig : ServerConfig) (r : CoapRequest)
    (req : VerificationRequest)
    (hreq : unmarshalCoapPayload env.cborUnmarshalVerificationRequest r = .ok req) :
    (Verify env serverConfig r).fault = none ∧
    (Verify env serverConfig r).events.take 2 =
      [.arVerify req.AttestationReport req.Nonce req.Ca req.Policies,
        .jsonMarshal (env.arVerify req.AttestationReport req.Nonce req.Ca req.Policies
          serverConfig.PolicyEngineSelect serverConfig.Serializer)] ∧
    (∀ m ∈ (Verify env serverConfig r).responses, m.code = .Content →
      ∃ data,
        env.jsonMarshal (env.arVerify req.AttestationReport req.Nonce req.Ca req.Policies
          serverConfig.PolicyEngineSelect serverConfig.Serializer) = .ok data ∧
        env.cborMarshalVerificationResponse { VerificationResult := data } = .ok m.body) ∧
    (∀ data payload,
      env.jsonMarshal (env.arVerify req.AttestationReport req.Nonce req.Ca req.Policies
        serverConfig.PolicyEngineSelect serverConfig.Serializer) = .ok data →
      env.cborMarshalVerificationResponse { VerificationResult := data } = .ok payload →
      (Verify env serverConfig r).responses = [⟨.Content, r.Token, .TextPlain, payload⟩]) ∧
    (∀ s : Serializer,
      env.arVerify req.AttestationReport req.Nonce req.Ca req.Policies
          serverConfig.PolicyEngineSelect s =
        env.arVerify req.AttestationReport req.Nonce req.Ca req.Policies
          serverConfig.PolicyEngineSelect serverConfig.Serializer →
      Verify env { serverConfig with Serializer := s } r = Verify env serverConfig r) := by
  refine ⟨(Verify_cases env serverConfig r).1, ?_, ?_, ?_, ?_⟩
  · unfold Verify
    rw [hreq]
    dsimp only
    repeat' split
    all_goals rfl
  · intro m hm hcode
    rcases (Verify_cases env serverConfig r).2 with ⟨text, h⟩ | ⟨req', data, payload, h1, h2, h3, h⟩
    · rw [h, List.mem_singleton] at hm
      subst hm
      exact absurd hcode (by simp [internalServerError])
    · rw [h, List.mem_singleton] at hm
      subst hm
      rw [hreq] at h1
      injection h1 with h1
      subst h1
      exact ⟨data, h2, h3⟩
  · intro data payload h2 h3
    simp only [Verify, hreq, h2, h3]
    rfl
  · intro s hs
    simp only [Verify, hreq, hs]

/-- C19 at the sample server: the body is the toy CBOR of the toy JSON of the result. -/
theorem Verify_result_is_json_witness :
    (Verify sampleCoapEnv sampleServerConfig (sampleRequest [1, 2, 3, 4])).responses =
      [⟨.Content, [7, 7], .TextPlain, [161, 123, 1, 2, 1, 125]⟩] :=
  (Verify_result_is_json sampleCoapEnv sampleServerConfig (sampleRequest [1, 2, 3, 4])
    ⟨[1], [2], [3], [4]⟩ rfl).2.2.2.1 [123, 1, 2, 1, 125] [161, 123, 1, 2, 1, 125] rfl rfl

theorem foldl_pem (f : Certificate → Bytes) (chain : List Certificate) (init : Bytes) :
    chain.foldl (fun pem cert => pem ++ f cert) init = init ++ (chain.map f).flatten := by
  induction chain generalizing init with
  | nil => simp
  | cons c rest ih => simp [ih]

/-- C20: two TLSCert requests that unmarshal and carry the same token get the same run of
the handler, whatever their ids are.  The certificate of the response whose CBOR encoding
is the body of the content response is the list of the PEM encodings of the certificates
of the signer's chain, in chain order, whose concatenation is the PEM bundle of the chain;
the handler does send this response whenever there is a signer and the response marshals;
and the chain of the driver as signer is its `SigningCerts`. -/
theorem TlsCert_ignores_request_id (env : CoapEnv) (serverConfig : ServerConfig)
    (r1 r2 : CoapRequest) (req1 req2 : TLSCertRequest)
    (h1 : unmarshalCoapPayload env.cborUnmarshalTLSCertRequest r1 = .ok req1)
    (h2 : unmarshalCoapPayload env.cborUnmarshalTLSCertRequest r2 = .ok req2)
    (htoken : r1.Token = r2.Token) :
    TlsCert env serverConfig r1 = TlsCert env serverConfig r2 ∧
    (∀ m ∈ (TlsCert env serverConfig r1).responses, m.code = .Content →
      ∃ signer, serverConfig.Signer = some signer ∧
        env.cborMarshalTLSCertResponse
          { Certificate := signer.GetCertChain.map env.lib.WriteCertPem } = .ok m.body) ∧
    (∀ signer payload, serverConfig.Signer = some signer →
      env.cborMarshalTLSCertResponse
        { Certificate := signer.GetCertChain.map env.lib.WriteCertPem } = .ok payload →
      (TlsCert env serverConfig r1).responses = [⟨.Content, r1.Token, .TextPlain, payload⟩]) ∧
    (∀ chain : List Certificate,
      (chain.map env.lib.WriteCertPem).flatten = chainPem env.lib chain) ∧
    (∀ (t : Tpm) (w : World), (t.asSigner env.lib w).GetCertChain = t.SigningCerts) := by
  refine ⟨?_, ?_, ?_, ?_, fun t w => rfl⟩
  · simp only [TlsCert, h1, h2, SendCoapError, SendCoapResponse, htoken]
  · intro m hm hcode
    rcases TlsCert_cases env serverConfig r1 with ⟨-, h, -⟩ |
      ⟨-, ⟨text, h⟩ | ⟨req', signer, payload, -, g2, g3, h⟩⟩
    · rw [h] at hm
      exact absurd hm (List.not_mem_nil _)
    · rw [h, List.mem_singleton] at hm
      subst hm
      exact absurd hcode (by simp [internalServerError])
    · rw [h, List.mem_singleton] at hm
      subst hm
      exact ⟨signer, g2, g3⟩
  · intro signer payload hs hm
    have hm' : env.cborMarshalTLSCertResponse
        { Certificate := WriteCertsPem env.lib signer.GetCertChain } = .ok payload := hm
    simp only [TlsCert, h1, hs, hm']
    rfl
  · intro chain
    unfold chainPem
    rw [foldl_pem]
    rfl

/-- C20 at the sample server: the requests with the ids `one` and `two` get the same
response, the toy CBOR of the two PEM blocks of the IK chain. -/
theorem TlsCert_ignores_request_id_witness :
    TlsCert sampleCoapEnv sampleServerConfig (sampleRequest [1]) =
        TlsCert sampleCoapEnv sampleServerConfig (sampleRequest [2]) ∧
      (TlsCert sampleCoapEnv sampleServerConfig (sampleRequest [1])).responses =
        [⟨.Content, [7, 7], .TextPlain, [161, 1, 8, 1, 9]⟩] :=
  ⟨(TlsCert_ignores_request_id sampleCoapEnv sampleServerConfig (sampleRequest [1])
      (sampleRequest [2]) ⟨"one"⟩ ⟨"two"⟩ rfl rfl rfl).1,
    (TlsCert_ignores_request_id sampleCoapEnv sampleServerConfig (sampleRequest [1])
      (sampleRequest [2]) ⟨"one"⟩ ⟨"two"⟩ rfl rfl rfl).2.2.1
      (sampleTpm.asSigner sampleEnv sampleOpenWorld) [161, 1, 8, 1, 9] rfl rfl⟩

/-! ## The mutex of the driver and the handlers -/

/-- The operations of `GetTpmMeasurement`: nothing, or the lock, one or two commands and
the unlock. -/
theorem GetTpmMeasurement_ops (env : Env) (t : Tpm) (nonce : Bytes) (pcrs : List Int)
    (w : World) :
    (newEvents w (GetTpmMeasurement env t nonce pcrs w).2).filterMap Event.op = [] ∨
    (newEvents w (GetTpmMeasurement env t nonce pcrs w).2).filterMap Event.op =
      [.lock, .command, .unlock] ∨
    (newEvents w (GetTpmMeasurement env t nonce pcrs w).2).filterMap Event.op =
      [.lock, .command, .command, .unlock] := by
  rw [run_GetTpmMeasurement]
  cases hT : w.TPM with
  | none => left; simp [newEvents, Event.op, Event.touchesTpm]
  | some hdl =>
    cases hak : w.ak with
    | none => left; simp [newEvents, Event.op, Event.touchesTpm]
    | some ak =>
      cases hp : env.tpmPCRs .HashSHA256 with
      | error msg => right; left; simp [newEvents, Event.op, Event.touchesTpm]
      | ok pcrValues =>
        cases hq : env.akQuotePCRs ak nonce .HashSHA256 pcrs with
        | error msg => right; right; simp [hq, newEvents, Event.op, Event.touchesTpm]
        | ok quote => right; right; simp [hq, newEvents, Event.op, Event.touchesTpm]

/-- The operations of `TlsSign`: it never locks, and it issues one command when it reaches
the signature. -/
theorem TlsSign_ops (env : CoapEnv) (serverConfig : ServerConfig) (r : CoapRequest) :
    ((TlsSign env serverConfig r).events.filterMap CoapEvent.op = [] ∧
      ∀ content, CoapEvent.Sign content ∉ (TlsSign env serverConfig r).events) ∨
    ((TlsSign env serverConfig r).events.filterMap CoapEvent.op = [.command] ∧
      ∃ req opts signer keys,
        unmarshalCoapPayload env.cborUnmarshalTLSSignRequest r = .ok req ∧
        env.HashToSignerOpts req.Hashtype req.PssOpts = .ok opts ∧
        serverConfig.Signer = some signer ∧ signer.GetSigningKeys = .ok keys ∧
        CoapEvent.Sign req.Content ∈ (TlsSign env serverConfig r).events) := by
  unfold TlsSign
  dsimp only
  repeat' split
  all_goals first
    | exact Or.inl ⟨rfl, fun content => by simp [SendCoapError, SendCoapResponse]⟩
    | exact Or.inr ⟨rfl, _, _, _, _, by assumption, by assumption, by assumption,
        by assumption, by simp⟩

/-- C21 fails for `TlsSign`.  `GetTpmMeasurement` reads the PCRs and quotes between
`Lock` and `Unlock`, so every command it issues is issued under the mutex; `TlsSign` signs
with the IK and never locks, so whenever it reaches the signature the command is issued
without the mutex.  In the sample schedule, which the mutex permits and whose two threads
run the operations of the sample attestation and of the sample signature, the signature
falls between the PCR read and the quote of the attestation. -/
theorem TlsSign_signs_without_mutex :
    (∀ (env : Env) (t : Tpm) (nonce : Bytes) (pcrs : List Int) (w : World),
      underMutex false
        ((newEvents w (GetTpmMeasurement env t nonce pcrs w).2).filterMap Event.op) = true) ∧
    (∀ (env : CoapEnv) (serverConfig : ServerConfig) (r : CoapRequest) (content : Bytes),
      CoapEvent.Sign content ∈ (TlsSign env serverConfig r).events →
      underMutex false ((TlsSign env serverConfig r).events.filterMap CoapEvent.op) = false) ∧
    ((newEvents sampleOpenWorld
        (GetTpmMeasurement sampleEnv sampleTpm [1] [0] sampleOpenWorld).2).filterMap Event.op =
        opsOf 1 sampleSchedule ∧
      (TlsSign sampleCoapEnv sampleServerConfig (sampleRequest [1, 2, 3, 4])).events.filterMap
        CoapEvent.op = opsOf 2 sampleSchedule ∧
      permitted none sampleSchedule = true ∧ exclusive none sampleSchedule = false) := by
  refine ⟨fun env t nonce pcrs w => ?_, fun env serverConfig r content hc => ?_, ?_⟩
  · rcases GetTpmMeasurement_ops env t nonce pcrs w with h | h | h <;> rw [h] <;> rfl
  · rcases TlsSign_ops env serverConfig r with ⟨-, h⟩ | ⟨h, -⟩
    · exact absurd hc (h content)
    · rw [h]
      rfl
  · decide!

/-! ## The connection options -/

/-- C22: each connection option sets its own field of `cmcConfig` and leaves the other four
fields as they are: `WithCmcAddr` sets `cmcAddr` to its argument, `WithCmcCa` sets `ca`,
`WithCmcPolicies` sets `policies`, `WithMtls` sets `mtls`, and `WithCmcApi` sets `cmcApi`
to the entry of `cmcApis` for its argument.  Hence two options for different fields give
the same configuration in either order, and of two options for the same field the one
applied last decides. -/
theorem connection_options_set_their_own_field (cmcApis : Nat → Option CmcApi)
    (c : cmcConfig) :
    (∀ v, WithCmcAddr v c = ⟨v, c.cmcApi, c.ca, c.policies, c.mtls⟩) ∧
    (∀ v, WithCmcApi cmcApis v c = ⟨c.cmcAddr, cmcApis v, c.ca, c.policies, c.mtls⟩) ∧
    (∀ v, WithCmcCa v c = ⟨c.cmcAddr, c.cmcApi, v, c.policies, c.mtls⟩) ∧
    (∀ v, WithCmcPolicies v c = ⟨c.cmcAddr, c.cmcApi, c.ca, v, c.mtls⟩) ∧
    (∀ v, WithMtls v c = ⟨c.cmcAddr, c.cmcApi, c.ca, c.policies, v⟩) ∧
    -- options for different fields commute
    (∀ a b, WithCmcApi cmcApis b (WithCmcAddr a c) = WithCmcAddr a (WithCmcApi cmcApis b c)) ∧
    (∀ a b, WithCmcCa b (WithCmcAddr a c) = WithCmcAddr a (WithCmcCa b c)) ∧
    (∀ a b, WithCmcPolicies b (WithCmcAddr a c) = WithCmcAddr a (WithCmcPolicies b c)) ∧
    (∀ a b, WithMtls b (WithCmcAddr a c) = WithCmcAddr a (WithMtls b c)) ∧
    (∀ a b, WithCmcCa b (WithCmcApi cmcApis a c) = WithCmcApi cmcApis a (WithCmcCa b c)) ∧
    (∀ a b, WithCmcPolicies b (WithCmcApi cmcApis a c) =
      WithCmcApi cmcApis a (WithCmcPolicies b c)) ∧
    (∀ a b, WithMtls b (WithCmcApi cmcApis a c) = WithCmcApi cmcApis a (WithMtls b c)) ∧
    (∀ a b, WithCmcPolicies b (WithCmcCa a c) = WithCmcCa a (WithCmcPolicies b c)) ∧
    (∀ a b, WithMtls b (WithCmcCa a c) = WithCmcCa a (WithMtls b c)) ∧
    (∀ a b, WithMtls b (WithCmcPolicies a c) = WithCmcPolicies a (WithMtls b c)) ∧
    -- for the same field the last option wins
    (∀ a b, WithCmcAddr b (WithCmcAddr a c) = WithCmcAddr b c) ∧
    (∀ a b, WithCmcApi cmcApis b (WithCmcApi cmcApis a c) = WithCmcApi cmcApis b c) ∧
    (∀ a b, WithCmcCa b (WithCmcCa a c) = WithCmcCa b c) ∧
    (∀ a b, WithCmcPolicies b (WithCmcPolicies a c) = WithCmcPolicies b c) ∧
    (∀ a b, WithMtls b (WithMtls a c) = WithMtls b c) := by
  refine ⟨?_, ?_, ?_, ?_, ?_, ?_, ?_, ?_, ?_, ?_, ?_, ?_, ?_, ?_, ?_, ?_, ?_, ?_, ?_, ?_⟩
  all_goals intros
  all_goals rfl

/-- C22 at the sample configuration: switching on mutual TLS after the choice of CoAP
changes `mtls` only, in either order. -/
theorem connection_options_set_their_own_field_witness :
    WithMtls true (WithCmcApi sampleCmcApis 1 sampleCmcConfig) =
        ⟨"127.0.0.1:9955", some ⟨"coap"⟩, [], [], true⟩ ∧
      WithMtls true (WithCmcApi sampleCmcApis 1 sampleCmcConfig) =
        WithCmcApi sampleCmcApis 1 (WithMtls true sampleCmcConfig) :=
  ⟨by decide,
    (connection_options_set_their_own_field sampleCmcApis sampleCmcConfig).2.2.2.2.2.2.2.2.2.2.2.1
      1 true⟩

/-! ## The qualified name of the AK -/

theorem putUint16_bigEndian (v : Nat) (hv : v < 65536) :
    ∃ hi lo, putUint16 v = [hi, lo] ∧ hi < 256 ∧ lo < 256 ∧ 256 * hi + lo = v := by
  refine ⟨v / 256, v % 256, ?_, by omega, by omega, by omega⟩
  unfold putUint16
  rw [Nat.mod_eq_of_lt hv]

theorem run_GetAkQualifiedName (env : Env) (w : World) :
    GetAkQualifiedName env w =
      match w.TPM, w.ak with
      | none, _ => (.error (Err.new .notOpened), w)
      | some _, none => (.error (Err.new .akMissing), w)
      | some _, some ak =>
        match env.tpm2DecodePublic ak.params.Public with
        | .error msg => (.error (Err.new .decodePublic msg), w)
        | .ok tpm2Pub =>
          if tpm2Pub.NameAlg ≠ AlgSHA256 then (.error (Err.new .unsupportedNameAlg), w)
          else
            match env.tpm2DecodeCreationData ak.params.CreateData with
            | .error msg => (.error (Err.new .decodeCreationData msg), w)
            | .ok tpm2CreateData =>
              match tpm2CreateData.ParentQualifiedName.Digest with
              | none => (.panic "nil pointer dereference", w)
              | some digest =>
                (.ok (putUint16 tpm2Pub.NameAlg ++
                  (env.sha256Sum256
                    ((putUint16 tpm2CreateData.ParentNameAlg ++ digest.Value) ++
                      (putUint16 tpm2Pub.NameAlg ++
                        (env.sha256Sum256 ak.params.Public).val))).val), w) := by
  unfold GetAkQualifiedName
  simp only [run_bind, run_getWorld]
  cases hT : w.TPM with
  | none => rfl
  | some hdl =>
    cases hak : w.ak with
    | none => rfl
    | some ak =>
      dsimp only
      cases hp : env.tpm2DecodePublic ak.params.Public with
      | error msg => rfl
      | ok tpm2Pub =>
        by_cases ha : tpm2Pub.NameAlg = AlgSHA256
        · cases hc : env.tpm2DecodeCreationData ak.params.CreateData with
          | error msg => simp [run_ite, ha]
          | ok cd =>
            cases hd : cd.ParentQualifiedName.Digest with
            | none => simp [run_ite, ha, hd, goPanic]
            | some digest => simp [run_ite, ha, hd]
        · simp [run_ite, ha, fail]

/-- C23: with the TPM open and an AK whose public area decodes with the name algorithm
SHA-256 and whose creation data decode with a parent qualified name given as a digest,
`GetAkQualifiedName` returns `nameAlg || SHA-256(QName_parent || Name)` with
`Name = nameAlg || SHA-256(public area)` and
`QName_parent = parentNameAlg || parent qualified-name digest`, the algorithm identifiers
written as two bytes, high byte first (`nameAlg` is `00 0B`); the result is 34 bytes long.
It returns an error when the TPM is not open, when the AK does not exist, when the name
algorithm is not SHA-256, and when the public area or the creation data do not decode. -/
theorem GetAkQualifiedName_value (env : Env) (w : World) :
    (∀ hdl ak tpm2Pub creationData digest, w.TPM = some hdl → w.ak = some ak →
      env.tpm2DecodePublic ak.params.Public = .ok tpm2Pub → tpm2Pub.NameAlg = AlgSHA256 →
      env.tpm2DecodeCreationData ak.params.CreateData = .ok creationData →
      creationData.ParentQualifiedName.Digest = some digest →
      ∃ qualifiedName, GetAkQualifiedName env w = (.ok qualifiedName, w) ∧
        qualifiedName = [0, 11] ++ (env.sha256Sum256
          ((putUint16 creationData.ParentNameAlg ++ digest.Value) ++
            ([0, 11] ++ (env.sha256Sum256 ak.params.Public).val))).val ∧
        qualifiedName.length = 34) ∧
    (∀ v, v < 65536 →
      ∃ hi lo, putUint16 v = [hi, lo] ∧ hi < 256 ∧ lo < 256 ∧ 256 * hi + lo = v) ∧
    (w.TPM = none → (GetAkQualifiedName env w).1 = .error (Err.new .notOpened)) ∧
    (∀ hdl, w.TPM = some hdl → w.ak = none →
      (GetAkQualifiedName env w).1 = .error (Err.new .akMissing)) ∧
    (∀ hdl ak tpm2Pub, w.TPM = some hdl → w.ak = some ak →
      env.tpm2DecodePublic ak.params.Public = .ok tpm2Pub → tpm2Pub.NameAlg ≠ AlgSHA256 →
      (GetAkQualifiedName env w).1 = .error (Err.new .unsupportedNameAlg)) ∧
    (∀ hdl ak msg, w.TPM = some hdl → w.ak = some ak →
      env.tpm2DecodePublic ak.params.Public = .error msg →
      (GetAkQualifiedName env w).1 = .error (Err.new .decodePublic msg)) ∧
    (∀ hdl ak tpm2Pub msg, w.TPM = some hdl → w.ak = some ak →
      env.tpm2DecodePublic ak.params.Public = .ok tpm2Pub → tpm2Pub.NameAlg = AlgSHA256 →
      env.tpm2DecodeCreationData ak.params.CreateData = .error msg →
      (GetAkQualifiedName env w).1 = .error (Err.new .decodeCreationData msg)) := by
  refine ⟨?_, putUint16_bigEndian, ?_, ?_, ?_, ?_, ?_⟩
  · intro hdl ak tpm2Pub cd digest hT hak hp ha hc hd
    refine ⟨_, ?_, rfl, ?_⟩
    · rw [run_GetAkQualifiedName, hT, hak]
      simp only [hp, ha, hc, hd, ne_eq, not_true_eq_false, if_false]
      rfl
    · simp [(env.sha256Sum256 _).property]
  · intro hT
    rw [run_GetAkQualifiedName, hT]
  · intro hdl hT hak
    rw [run_GetAkQualifiedName, hT, hak]
  · intro hdl ak tpm2Pub hT hak hp ha
    rw [run_GetAkQualifiedName, hT, hak]
    simp only [hp, ha, ne_eq, not_false_eq_true, if_true]
  · intro hdl ak msg hT hak hp
    rw [run_GetAkQualifiedName, hT, hak]
    simp only [hp]
  · intro hdl ak tpm2Pub msg hT hak hp ha hc
    rw [run_GetAkQualifiedName, hT, hak]
    simp only [hp, ha, hc, ne_eq, not_true_eq_false, if_false]

/-- C23 at the sample AK: public area `[11, 5]`, parent algorithm `11`, parent digest
`[1, 2, 3]`. -/
theorem GetAkQualifiedName_value_witness :
    ∃ qualifiedName, GetAkQualifiedName sampleEnv sampleNamedWorld =
        (.ok qualifiedName, sampleNamedWorld) ∧
      qualifiedName = [0, 11] ++ (sampleEnv.sha256Sum256
        ((putUint16 11 ++ [1, 2, 3]) ++
          ([0, 11] ++ (sampleEnv.sha256Sum256 [11, 5]).val))).val ∧
      qualifiedName.length = 34 :=
  (GetAkQualifiedName_value sampleEnv sampleNamedWorld).1 ⟨1⟩
    ⟨1, { Public := [11, 5], CreateData := [11, 1, 2, 3] }⟩ ⟨11⟩ ⟨11, ⟨none, some ⟨11, [1, 2, 3]⟩⟩⟩
    ⟨11, [1, 2, 3]⟩ rfl rfl rfl rfl rfl rfl

/-! ## `getTpmPcrs`: the manifests it needs -/

theorem parsedTypes_cons (s : Serializer) (m : Bytes) (rest : List Bytes) :
    parsedTypes s (m :: rest) =
      match s.GetPayload m with
      | .error _ => parsedTypes s rest
      | .ok payload =>
        match s.UnmarshalType payload with
        | .error _ => parsedTypes s rest
        | .ok t => t :: parsedTypes s rest := by
  unfold parsedTypes
  rw [List.filterMap_cons]
  cases hp : s.GetPayload m with
  | error e => rfl
  | ok payload =>
    cases ht : s.UnmarshalType payload with
    | error e => simp [ht]
    | ok t => simp [ht]

/-- The types of the two manifests after the first loop, for a serializer that reads the
same `Type` from a payload into the manifest as into `ar.Type`. -/
theorem loadManifests_types (s : Serializer)
    (hR : ∀ payload prev man, s.UnmarshalType payload = .ok "RTM Manifest" →
      s.UnmarshalRtmManifest payload prev = .ok man → man.Type_ = "RTM Manifest")
    (hO : ∀ payload prev man, s.UnmarshalType payload = .ok "OS Manifest" →
      s.UnmarshalOsManifest payload prev = .ok man → man.Type_ = "OS Manifest")
    (metadata : List Bytes) (rtmMan : RtmManifest) (osMan : OsManifest)
    (rtmMan' : RtmManifest) (osMan' : OsManifest)
    (h : loadManifests s metadata rtmMan osMan = .ok (rtmMan', osMan')) :
    (rtmMan'.Type_ = "RTM Manifest" ↔
      "RTM Manifest" ∈ parsedTypes s metadata ∨ rtmMan.Type_ = "RTM Manifest") ∧
    (osMan'.Type_ = "OS Manifest" ↔
      "OS Manifest" ∈ parsedTypes s metadata ∨ osMan.Type_ = "OS Manifest") := by
  induction metadata generalizing rtmMan osMan with
  | nil =>
    simp only [loadManifests, Except.ok.injEq, Prod.mk.injEq] at h
    obtain ⟨rfl, rfl⟩ := h
    simp [parsedTypes]
  | cons m rest ih =>
    unfold loadManifests at h
    rw [parsedTypes_cons]
    cases hp : s.GetPayload m with
    | error e =>
      simp only [hp] at h ⊢
      exact ih rtmMan osMan h
    | ok payload =>
      simp only [hp] at h ⊢
      cases ht : s.UnmarshalType payload with
      | error e =>
        simp only [ht] at h ⊢
        exact ih rtmMan osMan h
      | ok t =>
        simp only [ht] at h ⊢
        by_cases h1 : t = "RTM Manifest"
        · subst h1
          simp only [if_true] at h
          cases hu : s.UnmarshalRtmManifest payload rtmMan with
          | error e => simp [hu] at h
          | ok man =>
            simp only [hu] at h
            have hty := hR payload rtmMan man ht hu
            obtain ⟨i1, i2⟩ := ih man osMan h
            refine ⟨?_, ?_⟩
            · simp only [List.mem_cons, true_or, iff_true]
              exact i1.2 (Or.inr hty)
            · rw [i2]
              simp
        · simp only [h1, if_false] at h
          by_cases h2 : t = "OS Manifest"
          · subst h2
            simp only [if_true] at h
            cases hu : s.UnmarshalOsManifest payload osMan with
            | error e => simp [hu] at h
            | ok man =>
              simp only [hu] at h
              have hty := hO payload osMan man ht hu
              obtain ⟨i1, i2⟩ := ih rtmMan man h
              refine ⟨?_, ?_⟩
              · rw [i1]
                simp
              · simp only [List.mem_cons, true_or, iff_true]
                exact i2.2 (Or.inr hty)
          · simp only [h2, if_false] at h
            obtain ⟨i1, i2⟩ := ih rtmMan osMan h
            refine ⟨?_, ?_⟩
            · rw [i1]
              simp [Ne.symm h1]
            · rw [i2]
              simp [Ne.symm h2]

/-- Metadata objects whose payload or `Type` cannot be parsed do not matter to the first
loop. -/
theorem loadManifests_filter_parses (s : Serializer) (metadata : List Bytes)
    (rtmMan : RtmManifest) (osMan : OsManifest) :
    loadManifests s (metadata.filter (parses s)) rtmMan osMan =
      loadManifests s metadata rtmMan osMan := by
  induction metadata generalizing rtmMan osMan with
  | nil => rfl
  | cons m rest ih =>
    cases hp : s.GetPayload m with
    | error e =>
      have hf : parses s m = false := by simp [parses, hp]
      rw [List.filter_cons_of_neg (by simp [hf])]
      rw [ih]
      conv_rhs => unfold loadManifests
      simp only [hp]
    | ok payload =>
      cases ht : s.UnmarshalType payload with
      | error e =>
        have hf : parses s m = false := by simp [parses, hp, ht]
        rw [List.filter_cons_of_neg (by simp [hf])]
        rw [ih]
        conv_rhs => unfold loadManifests
        simp only [hp, ht]
      | ok t =>
        have hf : parses s m = true := by simp [parses, hp, ht]
        rw [List.filter_cons_of_pos hf]
        unfold loadManifests
        simp only [hp, ht]
        split
        · cases s.UnmarshalRtmManifest payload rtmMan with
          | error e => rfl
          | ok man => exact ih man osMan
        · split
          · cases s.UnmarshalOsManifest payload osMan with
            | error e => rfl
            | ok man => exact ih rtmMan man
          · exact ih rtmMan osMan

theorem loadManifests_error (s : Serializer) (metadata : List Bytes) (rtmMan : RtmManifest)
    (osMan : OsManifest) (e : Err) (h : loadManifests s metadata rtmMan osMan = .error e) :
    e.sites = [.unmarshalRtmManifest] ∨ e.sites = [.unmarshalOsManifest] := by
  induction metadata generalizing rtmMan osMan with
  | nil => simp [loadManifests] at h
  | cons m rest ih =>
    unfold loadManifests at h
    split at h
    · exact ih _ _ h
    · split at h
      · exact ih _ _ h
      · split at h
        · split at h
          · simp only [Except.error.injEq] at h
            subst h
            exact Or.inl rfl
          · exact ih _ _ h
        · split at h
          · split at h
            · simp only [Except.error.injEq] at h
              subst h
              exact Or.inr rfl
            · exact ih _ _ h
          · exact ih _ _ h

/-- C24 as stated fails: with the strict sample serializer and a single metadata object
that is an OS manifest whose body does not unmarshal, no RTM manifest is among the objects
that parse, and yet `getTpmPcrs` returns the error of the OS manifest and not the error
`failed to find all manifests`. -/
theorem getTpmPcrs_unmarshal_error_comes_first :
    getTpmPcrs { sampleConfig [[0, 2, 1]] with Serializer := sampleSerializerStrict } =
        .error ⟨[.unmarshalOsManifest], "unexpected end of input"⟩ ∧
      parsedTypes sampleSerializerStrict [[0, 2, 1]] = ["OS Manifest"] ∧
      "RTM Manifest" ∉ parsedTypes sampleSerializerStrict [[0, 2, 1]] ∧
      getTpmPcrs { sampleConfig [[0, 2, 1]] with Serializer := sampleSerializerStrict } ≠
        .error (Err.new .manifestsNotFound) := by
  decide

/-- C24, amended: for a serializer that reads the same `Type` from a payload into a
manifest as into `ar.Type`, `getTpmPcrs` returns the error `failed to find all manifests`
if and only if no RTM or OS manifest fails to unmarshal and, among the metadata objects
whose payload and `Type` can be parsed, there is no RTM manifest or no OS manifest; an App
manifest plays no part.  Metadata objects whose payload or `Type` cannot be parsed are
skipped: without them the result is the same.  The only other errors are those of an RTM
or OS manifest that does not unmarshal. -/
theorem getTpmPcrs_manifests_not_found_iff (c : Config)
    (hR : ∀ payload prev man, c.Serializer.UnmarshalType payload = .ok "RTM Manifest" →
      c.Serializer.UnmarshalRtmManifest payload prev = .ok man → man.Type_ = "RTM Manifest")
    (hO : ∀ payload prev man, c.Serializer.UnmarshalType payload = .ok "OS Manifest" →
      c.Serializer.UnmarshalOsManifest payload prev = .ok man → man.Type_ = "OS Manifest") :
    (getTpmPcrs c = .error (Err.new .manifestsNotFound) ↔
      (∃ mans, loadManifests c.Serializer c.Metadata {} {} = .ok mans) ∧
        ("RTM Manifest" ∉ parsedTypes c.Serializer c.Metadata ∨
          "OS Manifest" ∉ parsedTypes c.Serializer c.Metadata)) ∧
    getTpmPcrs { c with Metadata := c.Metadata.filter (parses c.Serializer) } = getTpmPcrs c ∧
    (∀ e, getTpmPcrs c = .error e →
      e = Err.new .manifestsNotFound ∨ e.sites = [.unmarshalRtmManifest] ∨
        e.sites = [.unmarshalOsManifest]) := by
  refine ⟨?_, ?_, ?_⟩
  · unfold getTpmPcrs
    cases hl : loadManifests c.Serializer c.Metadata {} {} with
    | error e =>
      dsimp only
      constructor
      · intro he
        simp only [Except.error.injEq] at he
        subst he
        rcases loadManifests_error _ _ _ _ _ hl with h | h <;> simp [Err.new] at h
      · rintro ⟨⟨mans, h⟩, -⟩
        simp at h
    | ok mans =>
      obtain ⟨rtmMan, osMan⟩ := mans
      obtain ⟨i1, i2⟩ := loadManifests_types c.Serializer hR hO c.Metadata {} {} rtmMan osMan hl
      have e1 : ¬ (({} : RtmManifest).Type_ = "RTM Manifest") := by decide
      have e2 : ¬ (({} : OsManifest).Type_ = "OS Manifest") := by decide
      simp only [e1, or_false] at i1
      simp only [e2, or_false] at i2
      dsimp only
      by_cases hc : osMan.Type_ ≠ "OS Manifest" ∨ rtmMan.Type_ ≠ "RTM Manifest"
      · simp only [hc, if_true, true_iff]
        refine ⟨⟨_, rfl⟩, ?_⟩
        rcases hc with hc | hc
        · exact Or.inr fun hm => hc (i2.2 hm)
        · exact Or.inl fun hm => hc (i1.2 hm)
      · simp only [hc, if_false]
        simp only [not_or, not_not] at hc
        constructor
        · intro h
          simp at h
        · rintro ⟨-, hm | hm⟩
          · exact absurd (i1.1 hc.2) hm
          · exact absurd (i2.1 hc.1) hm
  · unfold getTpmPcrs
    dsimp only
    rw [loadManifests_filter_parses]
  · intro e he
    unfold getTpmPcrs at he
    cases hl : loadManifests c.Serializer c.Metadata {} {} with
    | error e' =>
      simp only [hl, Except.error.injEq] at he
      subst he
      exact Or.inr (loadManifests_error _ _ _ _ _ hl)
    | ok mans =>
      simp only [hl] at he
      split at he
      · simp only [Except.error.injEq] at he
        exact Or.inl he.symm
      · simp at he

theorem sampleSerializer_rtm_type (payload : Bytes) (prev man : RtmManifest)
    (ht : sampleSerializer.UnmarshalType payload = .ok "RTM Manifest")
    (hu : sampleSerializer.UnmarshalRtmManifest payload prev = .ok man) :
    man.Type_ = "RTM Manifest" := by
  cases payload with
  | nil => simp [sampleSerializer] at ht
  | cons tag body =>
    simp only [sampleSerializer, Except.ok.injEq] at ht hu
    subst hu
    exact ht

theorem sampleSerializer_os_type (payload : Bytes) (prev man : OsManifest)
    (ht : sampleSerializer.UnmarshalType payload = .ok "OS Manifest")
    (hu : sampleSerializer.UnmarshalOsManifest payload prev = .ok man) :
    man.Type_ = "OS Manifest" := by
  cases payload with
  | nil => simp [sampleSerializer] at ht
  | cons tag body =>
    simp only [sampleSerializer, Except.ok.injEq] at ht hu
    subst hu
    exact ht

/-- C24, amended, at metadata that hold an RTM manifest, an App manifest and an object
without envelope, but no OS manifest. -/
theorem getTpmPcrs_manifests_not_found_iff_witness :
    getTpmPcrs (sampleConfig [[0, 1, 1, 5], [0, 3, 1, 6], [9]]) =
        .error (Err.new .manifestsNotFound) ∧
      getTpmPcrs { sampleConfig [[0, 1, 1, 5], [0, 3, 1, 6], [9]] with
          Metadata := [[0, 1, 1, 5], [0, 3, 1, 6], [9]].filter (parses sampleSerializer) } =
        getTpmPcrs (sampleConfig [[0, 1, 1, 5], [0, 3, 1, 6], [9]]) :=
  ⟨(getTpmPcrs_manifests_not_found_iff (sampleConfig [[0, 1, 1, 5], [0, 3, 1, 6], [9]])
      sampleSerializer_rtm_type sampleSerializer_os_type).1.2
      ⟨⟨({ Type_ := "RTM Manifest", ReferenceValues := sampleReferenceValues [1, 5] }, {}),
        by decide⟩, Or.inr (by decide)⟩,
    (getTpmPcrs_manifests_not_found_iff (sampleConfig [[0, 1, 1, 5], [0, 3, 1, 6], [9]])
      sampleSerializer_rtm_type sampleSerializer_os_type).2.1⟩

/-! ## `getTpmPcrs`: where the indices come from -/

/-- Reference values of another type or without a PCR do not matter to the loop. -/
theorem collectPcrs_filter (rvs : List ReferenceValue) (pcrs : List Int) :
    collectPcrs
        (rvs.filter fun ver => decide (ver.Type_ = "TPM Reference Value") && ver.Pcr.isSome)
        pcrs =
      collectPcrs rvs pcrs := by
  induction rvs generalizing pcrs with
  | nil => rfl
  | cons ver rest ih =>
    by_cases ht : ver.Type_ = "TPM Reference Value"
    · cases hp : ver.Pcr with
      | none =>
        rw [List.filter_cons_of_neg (by simp [hp])]
        conv_rhs => unfold collectPcrs
        simp [hp, ih]
      | some p =>
        rw [List.filter_cons_of_pos (by simp [ht, hp])]
        unfold collectPcrs
        simp [ht, hp, ih]
    · rw [List.filter_cons_of_neg (by simp [ht])]
      conv_rhs => unfold collectPcrs
      simp [ht, ih]

/-- C25: whenever `getTpmPcrs` succeeds, every index of its result is the `Pcr` of a
reference value of the RTM manifest or of the OS manifest, as the first loop left them,
whose type is `TPM Reference Value`; conversely the `Pcr` of every such reference value is
in the result; and reference values of another type or without a `Pcr` contribute
nothing: the result is the one computed from the other reference values alone. -/
theorem getTpmPcrs_indices_of_tpm_reference_values (c : Config) (pcrs : List Int)
    (h : getTpmPcrs c = .ok pcrs) :
    ∃ rtmMan osMan, loadManifests c.Serializer c.Metadata {} {} = .ok (rtmMan, osMan) ∧
      (∀ i ∈ pcrs, ∃ ver, (ver ∈ rtmMan.ReferenceValues ∨ ver ∈ osMan.ReferenceValues) ∧
        ver.Type_ = "TPM Reference Value" ∧ ver.Pcr = some i) ∧
      (∀ ver i, ver ∈ rtmMan.ReferenceValues ∨ ver ∈ osMan.ReferenceValues →
        ver.Type_ = "TPM Reference Value" → ver.Pcr = some i → i ∈ pcrs) ∧
      pcrs = sortInts
        (collectPcrs
          (osMan.ReferenceValues.filter fun ver =>
            decide (ver.Type_ = "TPM Reference Value") && ver.Pcr.isSome)
          (collectPcrs
            (rtmMan.ReferenceValues.filter fun ver =>
              decide (ver.Type_ = "TPM Reference Value") && ver.Pcr.isSome) [])) := by
  obtain ⟨rtmMan, osMan, hl, -, -, rfl⟩ := getTpmPcrs_ok c pcrs h
  refine ⟨rtmMan, osMan, hl, ?_, ?_, ?_⟩
  · intro i hi
    rw [sortInts_mem, collectPcrs_mem, collectPcrs_mem] at hi
    rcases hi with (hi | ⟨v, hv, hh⟩) | ⟨v, hv, hh⟩
    · exact absurd hi (List.not_mem_nil _)
    · exact ⟨v, Or.inl hv, hh⟩
    · exact ⟨v, Or.inr hv, hh⟩
  · intro ver i hv ht hp
    rw [sortInts_mem, collectPcrs_mem, collectPcrs_mem]
    rcases hv with hv | hv
    · exact Or.inl (Or.inr ⟨ver, hv, ht, hp⟩)
    · exact Or.inr ⟨ver, hv, ht, hp⟩
  · rw [collectPcrs_filter, collectPcrs_filter]

/-- C25 at metadata whose RTM manifest holds a TPM reference value for PCR 4, an SNP
reference value for PCR 7 and a TPM reference value without PCR, and whose OS manifest
holds a TPM reference value for PCR 2: the result is `[2, 4]`. -/
theorem getTpmPcrs_indices_of_tpm_reference_values_witness :
    ∃ rtmMan osMan,
      loadManifests (sampleConfig [[0, 1, 1, 5, 2, 8, 1, 0], [0, 2, 1, 3]]).Serializer
        (sampleConfig [[0, 1, 1, 5, 2, 8, 1, 0], [0, 2, 1, 3]]).Metadata {} {} =
          .ok (rtmMan, osMan) ∧
      (∀ i ∈ ([2, 4] : List Int),
        ∃ ver, (ver ∈ rtmMan.ReferenceValues ∨ ver ∈ osMan.ReferenceValues) ∧
          ver.Type_ = "TPM Reference Value" ∧ ver.Pcr = some i) ∧
      (∀ ver i, ver ∈ rtmMan.ReferenceValues ∨ ver ∈ osMan.ReferenceValues →
        ver.Type_ = "TPM Reference Value" → ver.Pcr = some i → i ∈ ([2, 4] : List Int)) ∧
      ([2, 4] : List Int) = sortInts
        (collectPcrs
          (osMan.ReferenceValues.filter fun ver =>
            decide (ver.Type_ = "TPM Reference Value") && ver.Pcr.isSome)
          (collectPcrs
            (rtmMan.ReferenceValues.filter fun ver =>
              decide (ver.Type_ = "TPM Reference Value") && ver.Pcr.isSome) [])) :=
  getTpmPcrs_indices_of_tpm_reference_values
    (sampleConfig [[0, 1, 1, 5, 2, 8, 1, 0], [0, 2, 1, 3]]) [2, 4] (by decide)

/-! ## The TPM handle -/

theorem run_GetTpmInfo_closed (env : Env) (w : World) (h : w.TPM = none) :
    (GetTpmInfo env w).1 = .error (Err.new .notOpened) := by
  unfold GetTpmInfo
  simp [run_bind, run_emit, run_getWorld, h, fail]

/-- C26: the TPM handle is closed or open.  `OpenTpm` succeeds only from the closed state,
and then the handle is open; from the open state it fails with the already-open error and
leaves the handle open; when the underlying open fails the handle stays closed.  `CloseTpm`
fails exactly in the closed state, and after it the handle is closed.  Hence a second
`OpenTpm` after a successful one, with only steps that keep the handle in between, fails;
and in the closed state `GetTpmInfo`, `GetAkQualifiedName` and `GetTpmMeasurement` return
the not-opened error. -/
theorem TPM_handle_is_a_two_state_machine (env : Env) (w : World) :
    ((OpenTpm env w).1 = .ok () →
      w.TPM = none ∧ ∃ hdl, env.attestOpenTPM = .ok hdl ∧ (OpenTpm env w).2.TPM = some hdl) ∧
    (∀ hdl, w.TPM = none → env.attestOpenTPM = .ok hdl →
      (OpenTpm env w).1 = .ok () ∧ (OpenTpm env w).2.TPM = some hdl) ∧
    (∀ hdl, w.TPM = some hdl →
      (OpenTpm env w).1 = .error (Err.new .alreadyOpen) ∧ (OpenTpm env w).2.TPM = some hdl) ∧
    (∀ msg, w.TPM = none → env.attestOpenTPM = .error msg →
      (OpenTpm env w).1 = .error (Err.new .attestOpenTPM msg) ∧ (OpenTpm env w).2.TPM = none) ∧
    ((CloseTpm w).1 = .error (Err.new .closeNotOpened) ↔ w.TPM = none) ∧
    ((CloseTpm w).1 = .ok () ↔ w.TPM ≠ none) ∧
    (CloseTpm w).2.TPM = none ∧
    (∀ (env2 : Env) (α : Type) (m : M α), KeepsTpm m → (OpenTpm env w).1 = .ok () →
      (OpenTpm env2 (m (OpenTpm env w).2).2).1 = .error (Err.new .alreadyOpen)) ∧
    (w.TPM = none →
      (GetTpmInfo env w).1 = .error (Err.new .notOpened) ∧
      (GetAkQualifiedName env w).1 = .error (Err.new .notOpened) ∧
      ∀ t nonce pcrs, (GetTpmMeasurement env t nonce pcrs w).1 = .error (Err.new .notOpened)) := by
  have hopen : (OpenTpm env w).1 = .ok () →
      w.TPM = none ∧ ∃ hdl, env.attestOpenTPM = .ok hdl ∧ (OpenTpm env w).2.TPM = some hdl := by
    intro h
    rw [run_OpenTpm] at h ⊢
    cases hT : w.TPM with
    | some hdl => simp [hT] at h
    | none =>
      cases ho : env.attestOpenTPM with
      | error msg => simp [hT, ho] at h
      | ok hdl => exact ⟨rfl, hdl, rfl, rfl⟩
  refine ⟨hopen, ?_, ?_, ?_, ?_, ?_, ?_, ?_, ?_⟩
  · intro hdl hT ho
    rw [run_OpenTpm, hT]
    simp [ho]
  · intro hdl hT
    rw [run_OpenTpm, hT]
    exact ⟨rfl, rfl⟩
  · intro msg hT ho
    rw [run_OpenTpm, hT]
    simp [ho]
  · rw [run_CloseTpm]
    cases hT : w.TPM <;> simp
  · rw [run_CloseTpm]
    cases hT : w.TPM <;> simp
  · rw [run_CloseTpm]
    cases hT : w.TPM <;> rfl
  · intro env2 α m hm h
    obtain ⟨-, hdl, -, hT⟩ := hopen h
    have hk := hm.run (OpenTpm env w).2
    rw [hT] at hk
    rw [run_OpenTpm, hk]
  · intro hT
    refine ⟨run_GetTpmInfo_closed env w hT, ?_, fun t nonce pcrs => ?_⟩
    · rw [run_GetAkQualifiedName, hT]
    · rw [run_GetTpmMeasurement, hT]

/-- C26 at the sample TPM, started closed: it opens, a second `OpenTpm` fails, and after
`CloseTpm` the handle is closed again. -/
theorem TPM_handle_is_a_two_state_machine_witness :
    ((OpenTpm sampleEnv {}).1 = .ok () ∧ (OpenTpm sampleEnv {}).2.TPM = some ⟨1⟩) ∧
      (OpenTpm sampleEnv (CloseTpm (OpenTpm sampleEnv {}).2).2).1 = .ok () ∧
      (OpenTpm sampleEnv ((pure () : M Unit) (OpenTpm sampleEnv {}).2).2).1 =
        .error (Err.new .alreadyOpen) :=
  ⟨(TPM_handle_is_a_two_state_machine sampleEnv {}).2.1 ⟨1⟩ rfl rfl,
    ((TPM_handle_is_a_two_state_machine sampleEnv (CloseTpm (OpenTpm sampleEnv {}).2).2).2.1
      ⟨1⟩ (TPM_handle_is_a_two_state_machine sampleEnv (OpenTpm sampleEnv {}).2).2.2.2.2.2.2.1
      rfl).1,
    (TPM_handle_is_a_two_state_machine sampleEnv {}).2.2.2.2.2.2.2.1 sampleEnv Unit (pure ())
      ⟨fun _ => rfl⟩ (by decide!)⟩

/-! ## One response per request -/

/-- C27: on every run of a handler that does not end in a panic, the handler writes exactly
one message: the content response or one error response, never both and never none.  The
content response is written only after every step before it succeeded: the payload
unmarshalled, and the report was generated and signed (`Attest`), the result and the
response marshalled (`Verify`), the hash type was accepted, the key retrieved and the
content signed (`TlsSign`), and the response marshalled (all four).  The runs that end in
a panic are those of `TlsSign` and `TlsCert` without a signer; they write nothing. -/
theorem handlers_write_exactly_one_response (env : CoapEnv) (serverConfig : ServerConfig)
    (r : CoapRequest) :
    (∀ hd : Handler, (hd.serve env serverConfig r).fault = none →
      ∃ m, (hd.serve env serverConfig r).responses = [m] ∧
        ((∃ text, m = internalServerError r text) ∨
          (∃ payload, m = ⟨.Content, r.Token, .TextPlain, payload⟩))) ∧
    (∀ hd : Handler, (hd.serve env serverConfig r).fault ≠ none →
      (hd.serve env serverConfig r).responses = [] ∧ serverConfig.Signer = none ∧
        (hd = .TLSSign ∨ hd = .TLSCert)) ∧
    (∀ m ∈ (Attest env serverConfig r).responses, m.code = .Content →
      ∃ req report signer data,
        unmarshalCoapPayload env.cborUnmarshalAttestationRequest r = .ok req ∧
        env.arGenerate req.Nonce serverConfig.Metadata serverConfig.MeasurementInterfaces
          serverConfig.Serializer = .ok report ∧
        serverConfig.Signer = some signer ∧
        env.arSign report signer serverConfig.Serializer = .ok data ∧
        env.cborMarshalAttestationResponse { AttestationReport := data } = .ok m.body) ∧
    (∀ m ∈ (Verify env serverConfig r).responses, m.code = .Content →
      ∃ req data,
        unmarshalCoapPayload env.cborUnmarshalVerificationRequest r = .ok req ∧
        env.jsonMarshal (env.arVerify req.AttestationReport req.Nonce req.Ca req.Policies
          serverConfig.PolicyEngineSelect serverConfig.Serializer) = .ok data ∧
        env.cborMarshalVerificationResponse { VerificationResult := data } = .ok m.body) ∧
    (∀ m ∈ (TlsSign env serverConfig r).responses, m.code = .Content →
      ∃ req opts signer keys signature,
        unmarshalCoapPayload env.cborUnmarshalTLSSignRequest r = .ok req ∧
        env.HashToSignerOpts req.Hashtype req.PssOpts = .ok opts ∧
        serverConfig.Signer = some signer ∧ signer.GetSigningKeys = .ok keys ∧
        env.Sign keys.1 req.Content opts = .ok signature ∧
        env.cborMarshalTLSSignResponse { SignedContent := signature } = .ok m.body) ∧
    (∀ m ∈ (TlsCert env serverConfig r).responses, m.code = .Content →
      ∃ req signer,
        unmarshalCoapPayload env.cborUnmarshalTLSCertRequest r = .ok req ∧
        serverConfig.Signer = some signer ∧
        env.cborMarshalTLSCertResponse
          { Certificate := WriteCertsPem env.lib signer.GetCertChain } = .ok m.body) := by
  have hne : ∀ text, (internalServerError r text).code ≠ .Content := fun text => by
    simp [internalServerError]
  refine ⟨?_, ?_, ?_, ?_, ?_, ?_⟩
  · intro hd hf
    cases hd
    · rcases (Attest_cases env serverConfig r).2 with ⟨text, h⟩ |
        ⟨_, _, _, _, payload, -, -, -, -, -, h⟩
      · exact ⟨_, h, Or.inl ⟨text, rfl⟩⟩
      · exact ⟨_, h, Or.inr ⟨payload, rfl⟩⟩
    · rcases (Verify_cases env serverConfig r).2 with ⟨text, h⟩ | ⟨_, _, payload, -, -, -, h⟩
      · exact ⟨_, h, Or.inl ⟨text, rfl⟩⟩
      · exact ⟨_, h, Or.inr ⟨payload, rfl⟩⟩
    · rcases TlsSign_cases env serverConfig r with ⟨hf', -, -⟩ |
        ⟨-, ⟨text, h⟩ | ⟨_, _, _, _, _, payload, -, -, -, -, -, -, h⟩⟩
      · exact absurd hf hf'
      · exact ⟨_, h, Or.inl ⟨text, rfl⟩⟩
      · exact ⟨_, h, Or.inr ⟨payload, rfl⟩⟩
    · rcases TlsCert_cases env serverConfig r with ⟨hf', -, -⟩ |
        ⟨-, ⟨text, h⟩ | ⟨_, _, payload, -, -, -, h⟩⟩
      · exact absurd hf hf'
      · exact ⟨_, h, Or.inl ⟨text, rfl⟩⟩
      · exact ⟨_, h, Or.inr ⟨payload, rfl⟩⟩
  · intro hd hf
    cases hd
    · exact absurd (Attest_cases env serverConfig r).1 hf
    · exact absurd (Verify_cases env serverConfig r).1 hf
    · rcases TlsSign_cases env serverConfig r with ⟨-, h, hs⟩ | ⟨hf', -⟩
      · exact ⟨h, hs, Or.inl rfl⟩
      · exact absurd hf' hf
    · rcases TlsCert_cases env serverConfig r with ⟨-, h, hs⟩ | ⟨hf', -⟩
      · exact ⟨h, hs, Or.inr rfl⟩
      · exact absurd hf' hf
  · intro m hm hcode
    rcases (Attest_cases env serverConfig r).2 with ⟨text, h⟩ |
      ⟨req, report, signer, data, payload, g1, g2, g3, g4, g5, h⟩
    · rw [h, List.mem_singleton] at hm
      subst hm
      exact absurd hcode (hne text)
    · rw [h, List.mem_singleton] at hm
      subst hm
      exact ⟨req, report, signer, data, g1, g2, g3, g4, g5⟩
  · intro m hm hcode
    rcases (Verify_cases env serverConfig r).2 with ⟨text, h⟩ | ⟨req, data, payload, g1, g2, g3, h⟩
    · rw [h, List.mem_singleton] at hm
      subst hm
      exact absurd hcode (hne text)
    · rw [h, List.mem_singleton] at hm
      subst hm
      exact ⟨req, data, g1, g2, g3⟩
  · intro m hm hcode
    rcases TlsSign_cases env serverConfig r with ⟨-, h, -⟩ |
      ⟨-, ⟨text, h⟩ | ⟨req, opts, signer, keys, signature, payload, g1, g2, g3, g4, g5, g6, h⟩⟩
    · rw [h] at hm
      exact absurd hm (List.not_mem_nil _)
    · rw [h, List.mem_singleton] at hm
      subst hm
      exact absurd hcode (hne text)
    · rw [h, List.mem_singleton] at hm
      subst hm
      exact ⟨req, opts, signer, keys, signature, g1, g2, g3, g4, g5, g6⟩
  · intro m hm hcode
    rcases TlsCert_cases env serverConfig r with ⟨-, h, -⟩ |
      ⟨-, ⟨text, h⟩ | ⟨req, signer, payload, g1, g2, g3, h⟩⟩
    · rw [h] at hm
      exact absurd hm (List.not_mem_nil _)
    · rw [h, List.mem_singleton] at hm
      subst hm
      exact absurd hcode (hne text)
    · rw [h, List.mem_singleton] at hm
      subst hm
      exact ⟨req, signer, g1, g2, g3⟩

/-- C27 at the sample server: the TLSSign request with the unknown hash type 9 gets one
error response, the one with hash type 1 gets one content response. -/
theorem handlers_write_exactly_one_response_witness :
    (∃ m, (Handler.TLSSign.serve sampleCoapEnv sampleServerConfig
        (sampleRequest [9, 2])).responses = [m] ∧
      ((∃ text, m = internalServerError (sampleRequest [9, 2]) text) ∨
        (∃ payload, m = ⟨.Content, (sampleRequest [9, 2]).Token, .TextPlain, payload⟩))) ∧
      (TlsSign sampleCoapEnv sampleServerConfig (sampleRequest [1, 2])).responses =
        [⟨.Content, [7, 7], .TextPlain, [161, 2, 7]⟩] :=
  ⟨(handlers_write_exactly_one_response sampleCoapEnv sampleServerConfig
      (sampleRequest [9, 2])).1 .TLSSign (by decide!), by decide!⟩

/-! ## `Measure` when the IMA digests cannot be read -/

/-- With IMA enabled `Measure` ends as it ends with IMA disabled, but for the digest lists
of the elements of the IMA PCR: the IMA step adds no error and no panic. -/
theorem Measure_ima_result (env : Env) (t : Tpm) (nonce : Bytes) (w : World)
    (hima : t.UseIma = true) :
    (Measure env (some t) nonce w).1 =
      match (Measure env (some { t with UseIma := false }) nonce w).1 with
      | .ok tm0 =>
        .ok { tm0 with
          HashChain := tm0.HashChain.map fun elem =>
            if elem.Pcr = t.ImaPcr then
              { elem with Sha256 := imaDigestsHex env.loopVarPerIteration env.imaGetRuntimeDigests.1 }
            else elem }
      | .error e => .error e
      | .panic msg => .panic msg := by
  rw [run_Measure, run_Measure]
  have hg : GetTpmMeasurement env { t with UseIma := false } nonce t.Pcrs
      { w with trace := w.trace ++ [.call .Measure] } =
      GetTpmMeasurement env t nonce t.Pcrs { w with trace := w.trace ++ [.call .Measure] } := rfl
  dsimp only
  rw [hg]
  rcases GetTpmMeasurement env t nonce t.Pcrs { w with trace := w.trace ++ [.call .Measure] }
    with ⟨r, w1⟩
  rcases r with ⟨pcrValues, quote⟩ | e | msg
  · dsimp only
    cases hb : buildHashChain pcrValues t.Pcrs with
    | ok chain => simp [hima, WriteCertsPem]
    | error e => rfl
    | panic msg => rfl
  · rfl
  · rfl

/-- C28: with IMA enabled and an IMA reader that returns an error together with no
digests, `Measure` returns a measurement whenever it returns one with IMA disabled, it
returns the same error otherwise, and the measurement is the one of the run with IMA
disabled in which every hash-chain element of the IMA PCR has the empty digest list in
place of the PCR value read from the TPM.  `Measure` does return a measurement whenever
the TPM is open, the AK exists, the PCR read and the quote succeed and every index is in
the range of the PCR values. -/
theorem Measure_survives_ima_failure (env : Env) (t : Tpm) (nonce : Bytes) (w : World)
    (err : String) (hima : t.UseIma = true)
    (hfail : env.imaGetRuntimeDigests = ([], some err)) :
    (∀ tm0, (Measure env (some { t with UseIma := false }) nonce w).1 = .ok tm0 →
      ∃ tm, (Measure env (some t) nonce w).1 = .ok tm ∧
        tm.HashChain = (tm0.HashChain.map fun elem =>
          if elem.Pcr = t.ImaPcr then { elem with Sha256 := [] } else elem) ∧
        tm.Message = tm0.Message ∧ tm.Signature = tm0.Signature ∧ tm.Certs = tm0.Certs) ∧
    (∀ tm, (Measure env (some t) nonce w).1 = .ok tm →
      ∀ elem ∈ tm.HashChain, elem.Pcr = t.ImaPcr → elem.Sha256 = []) ∧
    (∀ e, (Measure env (some t) nonce w).1 = .error e →
      (Measure env (some { t with UseIma := false }) nonce w).1 = .error e) ∧
    (∀ hdl ak pcrValues quote, w.TPM = some hdl → w.ak = some ak →
      env.tpmPCRs .HashSHA256 = .ok pcrValues →
      env.akQuotePCRs ak nonce .HashSHA256 t.Pcrs = .ok quote →
      (∀ num ∈ t.Pcrs, 0 ≤ num ∧ num < pcrValues.length) →
      ∃ tm, (Measure env (some t) nonce w).1 = .ok tm) := by
  have hres := Measure_ima_result env t nonce w hima
  rw [hfail] at hres
  simp only [imaDigestsHex_nil] at hres
  refine ⟨?_, ?_, ?_, fun hdl ak pcrValues quote hT hak hp hq hr =>
    Measure_total env t nonce w hdl ak pcrValues quote hT hak hp hq hr⟩
  · intro tm0 h0
    rw [h0] at hres
    exact ⟨_, hres, rfl, rfl, rfl, rfl⟩
  · intro tm h elem hmem hpcr
    rcases h0 : (Measure env (some { t with UseIma := false }) nonce w).1 with tm0 | e | msg
    · rw [h0, h] at hres
      simp only [Result.ok.injEq] at hres
      subst hres
      simp only [List.mem_map] at hmem
      obtain ⟨e0, -, rfl⟩ := hmem
      by_cases hc : e0.Pcr = t.ImaPcr
      · simp [hc]
      · simp only [hc, if_false] at hpcr
    · rw [h0, h] at hres
      simp at hres
    · rw [h0, h] at hres
      simp at hres
  · intro e h
    rcases h0 : (Measure env (some { t with UseIma := false }) nonce w).1 with tm0 | e0 | msg
    · rw [h0, h] at hres
      simp at hres
    · rw [h0, h] at hres
      simp only [Result.error.injEq] at hres
      rw [hres]
    · rw [h0, h] at hres
      simp at hres

/-- C28 at the sample driver with IMA on PCR 2 and an IMA reader that fails: the element of
PCR 2 has no digests, the quote is returned. -/
theorem Measure_survives_ima_failure_witness :
    ∃ tm, (Measure sampleEnvImaFails (some sampleTpmIma) [1, 2, 3] sampleOpenWorld).1 = .ok tm ∧
      tm.HashChain = (([⟨"Hash Chain", 0, [[0]]⟩, ⟨"Hash Chain", 2, [[2]]⟩,
          ⟨"Hash Chain", 4, [[4]]⟩] : List HashChainElem).map fun elem =>
        if elem.Pcr = sampleTpmIma.ImaPcr then { elem with Sha256 := [] } else elem) ∧
      tm.Message = [1, 2, 3] ∧ tm.Signature = [7] ∧ tm.Certs = [[1, 6], [1, 9]] :=
  (Measure_survives_ima_failure sampleEnvImaFails sampleTpmIma [1, 2, 3] sampleOpenWorld
    "no such file or directory" rfl rfl).1
    ⟨"TPM Measurement",
      [⟨"Hash Chain", 0, [[0]]⟩, ⟨"Hash Chain", 2, [[2]]⟩, ⟨"Hash Chain", 4, [[4]]⟩],
      [1, 2, 3], [7], [[1, 6], [1, 9]]⟩ (by decide!)

/-! ## The index expression of `Measure` -/

/-- The first loop of `Measure` has no bounds check: an index of the PCR set that is
negative or not below the number of PCR values ends it in a panic. -/
theorem buildHashChain_out_of_range (pcrValues : List PCR) (pcrs : List Int)
    (h : ∃ num ∈ pcrs, num < 0 ∨ (pcrValues.length : Int) ≤ num) :
    ∃ msg, buildHashChain pcrValues pcrs = .panic msg := by
  induction pcrs with
  | nil =>
    obtain ⟨num, hmem, -⟩ := h
    exact absurd hmem (List.not_mem_nil _)
  | cons n rest ih =>
    unfold buildHashChain
    by_cases hneg : n < 0
    · exact ⟨"index out of range", by simp [hneg]⟩
    · simp only [hneg, if_false]
      cases hv : pcrValues[n.toNat]? with
      | none => exact ⟨_, rfl⟩
      | some v =>
        have hlt : n.toNat < pcrValues.length := by
          by_contra hcon
          rw [List.getElem?_eq_none (by omega)] at hv
          simp at hv
        have hrest : ∃ num ∈ rest, num < 0 ∨ (pcrValues.length : Int) ≤ num := by
          obtain ⟨num, hmem, hbad⟩ := h
          rcases List.mem_cons.1 hmem with rfl | hmem
          · exfalso
            omega
          · exact ⟨num, hmem, hbad⟩
        obtain ⟨msg, hm⟩ := ih hrest
        exact ⟨msg, by simp [hm]⟩

/-- C29: the first loop of `Measure` indexes the PCR values by PCR number without a bounds
check, so an index out of range ends it in a panic; under the precondition that every
index of `t.Pcrs` is non-negative and smaller than the number of PCR values the TPM
returned, no index is out of range: the loop ends without a panic with one entry per
index, each holding the digest found at its index, `Measure` never panics, and the
hash chain of a measurement it returns has an entry at every position. -/
theorem Measure_indices_in_range (env : Env) (t : Tpm) (nonce : Bytes) (w : World)
    (pcrValues : List PCR) (hp : env.tpmPCRs .HashSHA256 = .ok pcrValues)
    (hr : ∀ num ∈ t.Pcrs, 0 ≤ num ∧ num < pcrValues.length) :
    (∃ chain, buildHashChain pcrValues t.Pcrs = .ok chain ∧ chain.length = t.Pcrs.length ∧
      ∀ i (hi : i < t.Pcrs.length),
        ∃ v, pcrValues[(t.Pcrs[i]).toNat]? = some v ∧
          chain[i]? = some ⟨"Hash Chain", toInt32 t.Pcrs[i], [v.Digest]⟩) ∧
    (∀ msg, (Measure env (some t) nonce w).1 ≠ .panic msg) ∧
    (∀ tm, (Measure env (some t) nonce w).1 = .ok tm →
      tm.HashChain.length = t.Pcrs.length ∧
        ∀ i, i < t.Pcrs.length → ∃ elem, tm.HashChain[i]? = some elem) ∧
    (∀ pcrs : List Int, (∃ num ∈ pcrs, num < 0 ∨ (pcrValues.length : Int) ≤ num) →
      ∃ msg, buildHashChain pcrValues pcrs = .panic msg) := by
  obtain ⟨chain, hb⟩ := buildHashChain_total pcrValues t.Pcrs hr
  obtain ⟨hl, hel⟩ := buildHashChain_ok pcrValues t.Pcrs chain hb
  refine ⟨⟨chain, hb, hl, fun i hi => ?_⟩, ?_, ?_,
    fun pcrs h => buildHashChain_out_of_range pcrValues pcrs h⟩
  · obtain ⟨-, v, hv, hc⟩ := hel i hi
    exact ⟨v, hv, hc⟩
  · intro msg
    rw [run_Measure, run_GetTpmMeasurement]
    cases hT : w.TPM with
    | none => simp
    | some hdl =>
      cases hak : w.ak with
      | none => simp
      | some ak =>
        simp only [hp]
        cases hq : env.akQuotePCRs ak nonce .HashSHA256 t.Pcrs with
        | error e => simp
        | ok quote =>
          simp only [hb]
          cases hi : t.UseIma <;> simp
  · intro tm h
    obtain ⟨pv, chain', hp', hb', hchain, -⟩ := Measure_ok_chain env t nonce w tm h
    rw [hp] at hp'
    injection hp' with hp'
    subst hp'
    rw [hb] at hb'
    injection hb' with hb'
    subst hb'
    have hlen : tm.HashChain.length = t.Pcrs.length := by
      rw [hchain]
      split
      · simp [hl]
      · exact hl
    refine ⟨hlen, fun i hi => ?_⟩
    have hi' : i < tm.HashChain.length := by omega
    exact ⟨tm.HashChain[i], List.getElem?_eq_getElem hi'⟩

/-- C29 at the sample driver, whose TPM returns 24 PCR values, and at the index 24. -/
theorem Measure_indices_in_range_witness :
    (∃ chain, buildHashChain samplePcrValues sampleTpm.Pcrs = .ok chain ∧
      chain.length = sampleTpm.Pcrs.length ∧
      ∀ i (hi : i < sampleTpm.Pcrs.length),
        ∃ v, samplePcrValues[(sampleTpm.Pcrs[i]).toNat]? = some v ∧
          chain[i]? = some ⟨"Hash Chain", toInt32 sampleTpm.Pcrs[i], [v.Digest]⟩) ∧
      ∃ msg, buildHashChain samplePcrValues [0, 24] = .panic msg :=
  ⟨(Measure_indices_in_range sampleEnv sampleTpm [1, 2, 3] sampleOpenWorld samplePcrValues
      rfl (by decide)).1,
    (Measure_indices_in_range sampleEnv sampleTpm [1, 2, 3] sampleOpenWorld samplePcrValues
      rfl (by decide)).2.2.2 [0, 24] ⟨24, by decide, Or.inr (by decide)⟩⟩

end Cmc
